import Mathlib

/-!
# eeschema s-expression parser: numeric helpers, coordinates, version gate

A shallow embedding of `eeschema/sch_sexpr_parser.h` (class `SCH_SEXPR_PARSER`
and `STROKE_PARAMS`).

Conventions of the embedding

* A C++ `double` is a rational number. The numeric helpers take double
  arithmetic as exact; `parseInternalUnits_binary64` and its helpers round
  every operation to the nearest binary64 value, for the property of the
  rounding that depends on it.
* A C++ `int` / `long` is an `Int`; conversions that can leave the machine
  range are written out (`toInt32`, the saturation of `strtol`).
* A member function that may throw returns `Except ParseError _`; a member
  function that changes the lexer returns the new lexer next to its value.
-/

namespace KiCad

/-! ## Machine integers -/

/-- The value of `std::numeric_limits<int>::max()`. -/
def INT_MAX : Int := 2147483647

/-- The value of `std::numeric_limits<int>::lowest()`. -/
def INT_MIN : Int := -2147483648

/-- The value of `LONG_MAX` on an LP64 target. -/
def LONG_MAX : Int := 9223372036854775807

/-- The value of `LONG_MIN` on an LP64 target. -/
def LONG_MIN : Int := -9223372036854775808

/-- The conversion `(int) x` of a `long`: the value modulo `2^32`, taken in the
signed range. -/
def toInt32 (x : Int) : Int := (x + 2147483648) % 4294967296 - 2147483648

/-! ## Token stream -/

/-- Token kinds delivered by the lexer: the two group markers, numbers,
unquoted symbols (keywords included), quoted strings and end of input. -/
inductive TokKind where
  | left
  | right
  | number
  | symbol
  | string
  | eof
  deriving DecidableEq, Repr

/-- A typed token with its raw text. -/
structure Token where
  kind : TokKind
  text : String
  deriving DecidableEq, Repr

/-- The token reported once the input is exhausted. -/
def eofToken : Token := ⟨TokKind.eof, ""⟩

/-- Modelled from the spec: the token stream (SCHEMATIC_LEXER / DSNLEXER, not
under src/). `cur` is the current token (`CurTok`, `CurText`), `rest` the tokens
not yet read, `pos` the number of tokens read so far (the stream position
reported in diagnostics). -/
structure Lexer where
  cur : Token
  rest : List Token
  pos : Nat
  deriving DecidableEq, Repr

/-- The kinds of failure raised by the parsers of this file: a structural
error (a required token is missing or of the wrong kind; it carries the name of
the expected construct and the stream position), a numeric-format error (the
token text did not convert to a number) and an unknown-enumeration error (the
token is not one of a fixed set of keywords). -/
inductive ParseError where
  | structural (expected : String) (pos : Nat)
  | numericFormat (text : String) (pos : Nat)
  | unknownEnumeration (text : String) (pos : Nat)
  deriving DecidableEq, Repr

/-- Modelled from the spec: `NextTok` of the lexer (not under src/): advances to
the next token and makes it current; at the end of the input the current token
is the end-of-input marker. -/
def NextTok (lx : Lexer) : Lexer :=
  match lx.rest with
  | [] => ⟨eofToken, [], lx.pos + 1⟩
  | t :: ts => ⟨t, ts, lx.pos + 1⟩

/-- Modelled from the spec: `CurText` of the lexer (not under src/): the raw
text of the current token. -/
def CurText (lx : Lexer) : String := lx.cur.text

/-- Modelled from the spec: `NeedNUMBER` of the lexer (not under src/), the
`expect(kind)` of the token stream for numbers: advances, and fails with a
structural error naming `aExpected` if the new current token is not a number. -/
def NeedNUMBER (aExpected : String) (lx : Lexer) : Except ParseError Lexer :=
  let lx1 := NextTok lx
  if lx1.cur.kind = TokKind.number then Except.ok lx1
  else Except.error (ParseError.structural aExpected lx1.pos)

/-! ## Text to number -/

/-- The C library `isspace` in the "C" locale. -/
def isspace (c : Char) : Bool :=
  c = ' ' || (9 ≤ c.toNat && c.toNat ≤ 13)

/-- The value of `c` as a digit of the given base, if it is one. -/
def digitOfBase (base : Nat) (c : Char) : Option Nat :=
  let d : Option Nat :=
    if '0' ≤ c ∧ c ≤ '9' then some (c.toNat - 48)
    else if 'a' ≤ c ∧ c ≤ 'z' then some (c.toNat - 97 + 10)
    else if 'A' ≤ c ∧ c ≤ 'Z' then some (c.toNat - 65 + 10)
    else none
  match d with
  | some n => if n < base then some n else none
  | none => none

/-- The longest run of digits of the given base at the head of the text, as
digit values, and what follows it. -/
def spanDigits (base : Nat) : List Char → List Nat × List Char
  | [] => ([], [])
  | c :: cs =>
    match digitOfBase base c with
    | some d => ((d :: (spanDigits base cs).1), (spanDigits base cs).2)
    | none => ([], c :: cs)

/-- The number written by a run of digits, most significant first. -/
def digitsValue (base : Nat) (ds : List Nat) : Nat :=
  ds.foldl (fun acc d => acc * base + d) 0

/-- An optional sign at the head of the text: whether it is a minus, and what
follows it. -/
def spanSign : List Char → Bool × List Char
  | '-' :: cs => (true, cs)
  | '+' :: cs => (false, cs)
  | cs => (false, cs)

/-- The optional `0x` / `0X` prefix that `strtol` accepts in base 16; it is
skipped only when a hexadecimal digit follows it. -/
def skipHexPrefix (base : Nat) : List Char → List Char
  | '0' :: x :: c :: cs =>
    if base = 16 ∧ (x = 'x' ∨ x = 'X') ∧ (digitOfBase 16 c).isSome then c :: cs
    else '0' :: x :: c :: cs
  | cs => cs

/-- The C library `strtol( text, NULL, base )` for base 10 or 16: leading white
space, an optional sign, (base 16) an optional `0x`, then the longest run of
digits. With no digit the result is 0; a value outside the `long` range
saturates. No outcome is an error. -/
def strtol (text : String) (base : Nat) : Int :=
  let s := spanSign (text.toList.dropWhile isspace)
  let ds := (spanDigits base (skipHexPrefix base s.2)).1
  let v : Int := if s.1 then -((digitsValue base ds : Nat) : Int) else ((digitsValue base ds : Nat) : Int)
  if v < LONG_MIN then LONG_MIN else if LONG_MAX < v then LONG_MAX else v

/-- Whether the text holds at least one digit of the base where `strtol` starts
converting (after white space, sign and hexadecimal prefix). -/
def hasDigits (text : String) (base : Nat) : Bool :=
  let s := spanSign (text.toList.dropWhile isspace)
  !(spanDigits base (skipHexPrefix base s.2)).1.isEmpty

/-- The pieces of a decimal literal: its sign, the number written by the digits
before the point, the number written by the digits after it, and how many
digits follow the point. -/
structure DecimalParts where
  negative : Bool
  intPart : Nat
  fracPart : Nat
  fracDigits : Nat
  deriving DecidableEq, Repr

/-- Modelled from the spec: the text accepted by `parseDouble` (its body is not
under src/): an ASCII decimal literal with optional leading white space and
sign, an integer part, an optional fractional part, and nothing after it; `none`
when the text is not numeric. -/
def decimalParts (text : String) : Option DecimalParts :=
  let s := spanSign (text.toList.dropWhile isspace)
  let ip := spanDigits 10 s.2
  let fp : List Nat × List Char :=
    match ip.2 with
    | '.' :: cs => spanDigits 10 cs
    | cs => ([], cs)
  if (ip.1.isEmpty && fp.1.isEmpty) || !fp.2.isEmpty then none
  else some ⟨s.1, digitsValue 10 ip.1, digitsValue 10 fp.1, fp.1.length⟩

/-- The number a decimal literal denotes: integer part plus fraction, with the
sign. -/
def DecimalParts.value (p : DecimalParts) : ℚ :=
  let m : ℚ := (p.intPart : ℚ) + (p.fracPart : ℚ) / (10 : ℚ) ^ p.fracDigits
  if p.negative then -m else m

/-- Modelled from the spec: the conversion done by `parseDouble` (its body is
not under src/): the value of the text as a decimal literal, if it is one. -/
def decimalLiteral (text : String) : Option ℚ :=
  (decimalParts text).map DecimalParts.value

/-! ## Rounding and clamping -/

/-- Modelled from the spec: `Clamp` of math/util.h (not under src/): the value
limited to the closed range from `lower` to `upper`. -/
def Clamp (lower value upper : ℚ) : ℚ :=
  if value < lower then lower
  else if upper < value then upper
  else value

/-- The conversion of a floating value to an integer type: the fraction is
dropped (truncation toward zero). -/
def truncToInt (x : ℚ) : Int :=
  if x < 0 then -⌊-x⌋ else ⌊x⌋

/-- Modelled from the spec: the test of the overflow branch of `KiROUND`
(math/util.h, not under src/): the value, moved half a unit away from zero, lies
outside the `int` range. -/
def KiROUND_overflow (v : ℚ) : Bool :=
  let ret : ℚ := if v < 0 then v - 1 / 2 else v + 1 / 2
  decide ((INT_MAX : ℚ) < ret) || decide ((INT_MIN : ℚ) > ret)

/-- Modelled from the spec: `KiROUND` of math/util.h (not under src/): rounds to
the nearest integer. The tie rule, which the spec leaves open, is half away from
zero (half a unit is added to the magnitude and the fraction dropped). A value
that does not fit an `int` takes the overflow branch, which yields 0. -/
def KiROUND (v : ℚ) : Int :=
  let ret : ℚ := if v < 0 then v - 1 / 2 else v + 1 / 2
  if KiROUND_overflow v then 0 else truncToInt ret

/-! ## Numeric helpers of `SCH_SEXPR_PARSER` -/

/-- The member `parseHex()`: advances to the next token and converts its text
with `strtol` in base 16. -/
def parseHex (lx : Lexer) : Except ParseError (Int × Lexer) :=
  let lx1 := NextTok lx
  Except.ok (strtol (CurText lx1) 16, lx1)

/-- The member `parseInt()`: converts the text of the current token with
`strtol` in base 10 and narrows the `long` to `int`. -/
def parseInt (lx : Lexer) : Except ParseError Int :=
  Except.ok (toInt32 (strtol (CurText lx) 10))

/-- The member `parseInt( const char* aExpected )`: requires a number token,
then converts it as `parseInt()` does. -/
def parseInt_aExpected (aExpected : String) (lx : Lexer) : Except ParseError (Int × Lexer) :=
  match NeedNUMBER aExpected lx with
  | Except.error e => Except.error e
  | Except.ok lx1 =>
    match parseInt lx1 with
    | Except.error e => Except.error e
    | Except.ok n => Except.ok (n, lx1)

/-- Modelled from the spec: the member `parseDouble()` (declared in the header,
its body is not under src/): parses the current token as an ASCII decimal
literal and fails with a numeric-format error if the token is not numeric. The
current token stays current. -/
def parseDouble (lx : Lexer) : Except ParseError ℚ :=
  match decimalLiteral (CurText lx) with
  | some d => Except.ok d
  | none => Except.error (ParseError.numericFormat (CurText lx) lx.pos)

/-- The member `parseDouble( const char* aExpected )`: requires a number token,
then converts it as `parseDouble()` does. -/
def parseDouble_aExpected (aExpected : String) (lx : Lexer) : Except ParseError (ℚ × Lexer) :=
  match NeedNUMBER aExpected lx with
  | Except.error e => Except.error e
  | Except.ok lx1 =>
    match parseDouble lx1 with
    | Except.error e => Except.error e
    | Except.ok d => Except.ok (d, lx1)

/-- The local `int_limit` of `parseInternalUnits`:
`std::numeric_limits<int>::max() * 0.7071`. -/
def int_limit : ℚ := (INT_MAX : ℚ) * (7071 / 10000)

/-- The member `parseInternalUnits()`: the current token as a millimetre value,
scaled by `IU_PER_MM`, clamped to `±int_limit`, then rounded. The scale
`IU_PER_MM` (convert_to_biu.h, not under src/) is a parameter. -/
def parseInternalUnits (IU_PER_MM : ℚ) (lx : Lexer) : Except ParseError Int :=
  match parseDouble lx with
  | Except.error e => Except.error e
  | Except.ok d =>
    let retval := d * IU_PER_MM
    Except.ok (KiROUND (Clamp (-int_limit) retval int_limit))

/-- The member `parseInternalUnits( const char* aExpected )`: the same
conversion applied to the next token, which must be a number. -/
def parseInternalUnits_aExpected (IU_PER_MM : ℚ) (aExpected : String) (lx : Lexer) :
    Except ParseError (Int × Lexer) :=
  match parseDouble_aExpected aExpected lx with
  | Except.error e => Except.error e
  | Except.ok (d, lx1) =>
    let retval := d * IU_PER_MM
    Except.ok (KiROUND (Clamp (-int_limit) retval int_limit), lx1)

/-- A point in internal units. -/
structure wxPoint where
  x : Int
  y : Int
  deriving DecidableEq, Repr

/-- The member `parseXY()`: two internal-unit values, x then y. -/
def parseXY (IU_PER_MM : ℚ) (lx : Lexer) : Except ParseError (wxPoint × Lexer) :=
  match parseInternalUnits_aExpected IU_PER_MM "X coordinate" lx with
  | Except.error e => Except.error e
  | Except.ok (x, lx1) =>
    match parseInternalUnits_aExpected IU_PER_MM "Y coordinate" lx1 with
    | Except.error e => Except.error e
    | Except.ok (y, lx2) => Except.ok (⟨x, y⟩, lx2)

/-- A lexer whose current token is a number token with the given text and whose
input is exhausted. -/
def lexerAtNumber (text : String) : Lexer := ⟨⟨TokKind.number, text⟩, [], 1⟩

/-- The typing the lexer gives its tokens: the text of every number token still
to be read is a decimal literal. -/
def Lexer.WellTyped (lx : Lexer) : Prop :=
  ∀ t ∈ lx.rest, t.kind = TokKind.number → (decimalLiteral t.text).isSome = true

/-! ## Stroke parameters -/

/-- The container `STROKE_PARAMS`. The types `PLOT_DASH_TYPE` and `COLOR4D` are
declared outside src/ and are type parameters. -/
structure STROKE_PARAMS (PLOT_DASH_TYPE COLOR4D : Type) where
  m_Width : Int
  m_Type : PLOT_DASH_TYPE
  m_Color : COLOR4D

/-- The constants and the conversion named by the default arguments of the
`STROKE_PARAMS` constructor, all declared outside src/: `Mils2iu`,
`DEFAULT_LINE_THICKNESS`, `PLOT_DASH_TYPE::DEFAULT` and `COLOR4D::UNSPECIFIED`. -/
structure StrokeDefaults (PLOT_DASH_TYPE COLOR4D : Type) where
  Mils2iu : Int → Int
  DEFAULT_LINE_THICKNESS : Int
  DEFAULT : PLOT_DASH_TYPE
  UNSPECIFIED : COLOR4D

/-- The constructor of `STROKE_PARAMS`. An argument left out at the call is
`none` and takes its default; each member is initialised from its argument. -/
def STROKE_PARAMS.construct {PLOT_DASH_TYPE COLOR4D : Type}
    (env : StrokeDefaults PLOT_DASH_TYPE COLOR4D)
    (aWidth : Option Int) (aType : Option PLOT_DASH_TYPE) (aColor : Option COLOR4D) :
    STROKE_PARAMS PLOT_DASH_TYPE COLOR4D :=
  let width : Int :=
    match aWidth with
    | some w => w
    | none => env.Mils2iu env.DEFAULT_LINE_THICKNESS
  let type : PLOT_DASH_TYPE :=
    match aType with
    | some t => t
    | none => env.DEFAULT
  let color : COLOR4D :=
    match aColor with
    | some c => c
    | none => env.UNSPECIFIED
  ⟨width, type, color⟩

/-! ## Version gate and document entry points -/

/-- The state of `SCH_SEXPR_PARSER`: the lexer it derives from and its data
members. -/
structure SCH_SEXPR_PARSER where
  lexer : Lexer
  m_requiredVersion : Int
  m_fieldId : Int
  m_unit : Int
  m_convert : Int
  m_symbolName : String
  deriving DecidableEq, Repr

/-- Modelled from the spec: `NeedLEFT` of the lexer (not under src/): advances
and fails with a structural error if the new current token does not open a
group. -/
def NeedLEFT (lx : Lexer) : Except ParseError Lexer :=
  let lx1 := NextTok lx
  if lx1.cur.kind = TokKind.left then Except.ok lx1
  else Except.error (ParseError.structural "(" lx1.pos)

/-- Modelled from the spec: `NeedRIGHT` of the lexer (not under src/): advances
and fails with a structural error if the new current token does not close a
group. -/
def NeedRIGHT (lx : Lexer) : Except ParseError Lexer :=
  let lx1 := NextTok lx
  if lx1.cur.kind = TokKind.right then Except.ok lx1
  else Except.error (ParseError.structural ")" lx1.pos)

/-- Modelled from the spec: `NeedSYMBOL` of the lexer (not under src/): advances
and fails with a structural error if the new current token is neither a symbol
nor a quoted string. -/
def NeedSYMBOL (lx : Lexer) : Except ParseError Lexer :=
  let lx1 := NextTok lx
  if lx1.cur.kind = TokKind.symbol ∨ lx1.cur.kind = TokKind.string then Except.ok lx1
  else Except.error (ParseError.structural "symbol" lx1.pos)

/-- Modelled from the spec: the `expect` of the token stream for a keyword:
advances and fails with a structural error naming the keyword if the new
current token is not that keyword. -/
def NeedKeyword (keyword : String) (lx : Lexer) : Except ParseError Lexer :=
  let lx1 := NextTok lx
  if lx1.cur = ⟨TokKind.symbol, keyword⟩ then Except.ok lx1
  else Except.error (ParseError.structural keyword lx1.pos)

/-- Modelled from the spec: the member `parseHeader` (declared in the header,
its body is not under src/). With the header keyword `aHeaderType` current, it
consumes `(version N) (generator G)` and records the declared version in
`m_requiredVersion`; the comparison with the supported ceiling is read back by
`IsTooRecent`, which takes the ceiling (the `aFileVersion` of the C++
signature). -/
def parseHeader (aHeaderType : String) (p : SCH_SEXPR_PARSER) :
    Except ParseError SCH_SEXPR_PARSER :=
  if p.lexer.cur = ⟨TokKind.symbol, aHeaderType⟩ then
    match NeedLEFT p.lexer with
    | Except.error e => Except.error e
    | Except.ok lx1 =>
    match NeedKeyword "version" lx1 with
    | Except.error e => Except.error e
    | Except.ok lx2 =>
    match parseInt_aExpected "version" lx2 with
    | Except.error e => Except.error e
    | Except.ok (version, lx3) =>
    match NeedRIGHT lx3 with
    | Except.error e => Except.error e
    | Except.ok lx4 =>
    match NeedLEFT lx4 with
    | Except.error e => Except.error e
    | Except.ok lx5 =>
    match NeedKeyword "generator" lx5 with
    | Except.error e => Except.error e
    | Except.ok lx6 =>
    match NeedSYMBOL lx6 with
    | Except.error e => Except.error e
    | Except.ok lx7 =>
    match NeedRIGHT lx7 with
    | Except.error e => Except.error e
    | Except.ok lx8 => Except.ok { p with lexer := lx8, m_requiredVersion := version }
  else Except.error (ParseError.structural aHeaderType p.lexer.pos)

/-- Modelled from the spec: the member `IsTooRecent` (declared in the header,
its body is not under src/): whether the document declared a version above the
supported ceiling `maxVersion`, a compile-time constant declared outside src/. -/
def IsTooRecent (maxVersion : Int) (p : SCH_SEXPR_PARSER) : Bool :=
  decide (maxVersion < p.m_requiredVersion)

/-- Modelled from the spec: the member `ParseLib` (declared in the header, its
body is not under src/): reads the header of a symbol-library document; when the
declared version is too recent it returns at once and leaves the library map as
it was; otherwise it hands over to the symbol loop `parseSymbols`, a parameter
here. -/
def ParseLib {LIB_PART_MAP : Type} (maxVersion : Int)
    (parseSymbols : SCH_SEXPR_PARSER → LIB_PART_MAP →
      Except ParseError (SCH_SEXPR_PARSER × LIB_PART_MAP))
    (p : SCH_SEXPR_PARSER) (aSymbolLibMap : LIB_PART_MAP) :
    Except ParseError (SCH_SEXPR_PARSER × LIB_PART_MAP) :=
  match NeedLEFT p.lexer with
  | Except.error e => Except.error e
  | Except.ok lx1 =>
  match parseHeader "kicad_symbol_lib" { p with lexer := NextTok lx1 } with
  | Except.error e => Except.error e
  | Except.ok p1 =>
    if IsTooRecent maxVersion p1 then Except.ok (p1, aSymbolLibMap)
    else parseSymbols p1 aSymbolLibMap

/-- Modelled from the spec: the member `ParseSchematic` (declared in the header,
its body is not under src/): reads the header of a schematic document; when the
declared version is too recent it returns at once and leaves the sheet as it
was; otherwise it hands over to the sheet-content loop `parseItems`, a parameter
here. -/
def ParseSchematic {SCH_SHEET : Type} (maxVersion : Int)
    (parseItems : SCH_SEXPR_PARSER → SCH_SHEET →
      Except ParseError (SCH_SEXPR_PARSER × SCH_SHEET))
    (p : SCH_SEXPR_PARSER) (aSheet : SCH_SHEET) :
    Except ParseError (SCH_SEXPR_PARSER × SCH_SHEET) :=
  match NeedLEFT p.lexer with
  | Except.error e => Except.error e
  | Except.ok lx1 =>
  match parseHeader "kicad_sch" { p with lexer := NextTok lx1 } with
  | Except.error e => Except.error e
  | Except.ok p1 =>
    if IsTooRecent maxVersion p1 then Except.ok (p1, aSheet)
    else parseItems p1 aSheet

/-! ## Example inputs -/

/-- The lexer inside the group `(xy 2.54 200000)`, with the keyword `xy`
current. -/
def lexerAtXY : Lexer :=
  ⟨⟨TokKind.symbol, "xy"⟩,
    [⟨TokKind.number, "2.54"⟩, ⟨TokKind.number, "200000"⟩, ⟨TokKind.right, ")"⟩], 2⟩

/-- The lexer inside the malformed group `(xy 2.54 abc)`, with the keyword `xy`
current. -/
def lexerAtBadY : Lexer :=
  ⟨⟨TokKind.symbol, "xy"⟩,
    [⟨TokKind.number, "2.54"⟩, ⟨TokKind.symbol, "abc"⟩, ⟨TokKind.right, ")"⟩], 2⟩

/-- A lexer whose current token is the symbol `abc` and whose next token is the
symbol `xyz`. -/
def lexerAtSymbols : Lexer :=
  ⟨⟨TokKind.symbol, "abc"⟩, [⟨TokKind.symbol, "xyz"⟩], 1⟩

/-- The tokens of a document header after its keyword,
`(version N) (generator G)`, followed by the tokens `ts`. -/
def headerTokens (N G : Token) (ts : List Token) : List Token :=
  ⟨TokKind.left, "("⟩ :: ⟨TokKind.symbol, "version"⟩ :: N :: ⟨TokKind.right, ")"⟩ ::
  ⟨TokKind.left, "("⟩ :: ⟨TokKind.symbol, "generator"⟩ :: G :: ⟨TokKind.right, ")"⟩ :: ts

/-- The tokens of a document from its opening parenthesis to the end of its
header, `(KEYWORD (version N) (generator G)`, followed by the tokens `ts`. -/
def documentTokens (keyword : String) (N G : Token) (ts : List Token) : List Token :=
  ⟨TokKind.left, "("⟩ :: ⟨TokKind.symbol, keyword⟩ :: headerTokens N G ts

/-- A parser as constructed: nothing read yet, all members zero, over the given
tokens. -/
def newParser (tokens : List Token) : SCH_SEXPR_PARSER :=
  ⟨⟨eofToken, tokens, 0⟩, 0, 0, 0, 0, ""⟩

/-- A parser that has read `(KEYWORD` of a document: the header keyword is
current and `tokens` follow. -/
def parserAtHeader (keyword : String) (tokens : List Token) : SCH_SEXPR_PARSER :=
  ⟨⟨⟨TokKind.symbol, keyword⟩, tokens, 2⟩, 0, 0, 0, 0, ""⟩

/-- A body loop that rejects whatever follows the header. -/
def rejectBody {α : Type} (p : SCH_SEXPR_PARSER) (_target : α) :
    Except ParseError (SCH_SEXPR_PARSER × α) :=
  Except.error (ParseError.structural "symbol" p.lexer.pos)

/-! ## The schematic view (`sch_view.cpp`) -/

/-- The run-time type tags (`KICAD_T`, declared outside src/) that the embedded
code tests, and those of the other library and schematic items. -/
inductive KICAD_T where
  | LIB_FIELD_T
  | LIB_PIN_T
  | LIB_ARC_T
  | LIB_CIRCLE_T
  | LIB_TEXT_T
  | LIB_RECTANGLE_T
  | LIB_POLYLINE_T
  | LIB_BEZIER_T
  | SCH_SHEET_PIN_T
  | SCH_FIELD_T
  | SCH_SHEET_T
  | SCH_COMPONENT_T
  | SCH_LINE_T
  | SCH_JUNCTION_T
  | SCH_TEXT_T
  deriving DecidableEq, Repr

/-- A drawing item of a library symbol, as far as `DisplayComponent` looks at
it: the address of the object (two items are the same object exactly when their
addresses are equal), its `Type()` and, for a field, its `GetText()`. -/
structure LIB_ITEM where
  addr : Nat
  type : KICAD_T
  text : String
  deriving DecidableEq, Repr

/-- A library symbol, as far as `DisplayComponent` looks at it: its draw items
(`GetDrawItems()`), whether it is an alias (`IsAlias()`), and the symbol that
locking its parent reference yields (`GetParent().lock()`), if any. -/
inductive LIB_PART where
  | mk (drawings : List LIB_ITEM) (isAlias : Bool) (parent : Option LIB_PART)

/-- The draw items of a symbol, `GetDrawItems()`. -/
def LIB_PART.GetDrawItems : LIB_PART → List LIB_ITEM
  | LIB_PART.mk drawings _ _ => drawings

/-- Whether the symbol is an alias, `IsAlias()`. -/
def LIB_PART.IsAlias : LIB_PART → Bool
  | LIB_PART.mk _ isAlias _ => isAlias

/-- The result of `GetParent().lock()`: the parent symbol, or `none` for a null
pointer. -/
def LIB_PART.lockParent : LIB_PART → Option LIB_PART
  | LIB_PART.mk _ _ parent => parent

/-- What a view holds: pointers to items (their addresses) and the view's own
worksheet, selection area and preview group. -/
inductive VIEW_ITEM where
  | item (addr : Nat)
  | worksheet
  | selectionArea
  | preview
  deriving DecidableEq, Repr

/-- A vector of two doubles. -/
structure VECTOR2D where
  x : ℚ
  y : ℚ
  deriving DecidableEq

/-- A box given by its origin and its size. -/
structure BOX2D where
  m_Pos : VECTOR2D
  m_Size : VECTOR2D
  deriving DecidableEq

/-- The state of `SCH_VIEW`. The base class `KIGFX::VIEW` is not under src/; it
is taken as the container of the items added to it (`m_allItems`, in the order
of the `Add` calls) with its boundary box. `m_preview` holds the items of the
preview group and `m_ownedItems` the items the view owns. -/
structure SCH_VIEW where
  m_allItems : List VIEW_ITEM
  m_boundary : BOX2D
  m_preview : List Nat
  m_ownedItems : List Nat
  deriving DecidableEq

/-- The base-class call `Clear()`: the view holds no item afterwards. -/
def SCH_VIEW.Clear (v : SCH_VIEW) : SCH_VIEW :=
  { v with m_allItems := [] }

/-- The base-class call `Add( item )`: the item is added to the view. -/
def SCH_VIEW.Add (v : SCH_VIEW) (i : VIEW_ITEM) : SCH_VIEW :=
  { v with m_allItems := v.m_allItems ++ [i] }

/-- The first loop of `DisplayComponent`: of the draw items of `aPart`, the
fields whose text is not empty are added. -/
def DisplayComponent_fields (v : SCH_VIEW) (items : List LIB_ITEM) : SCH_VIEW :=
  items.foldl
    (fun acc item =>
      if item.type ≠ KICAD_T.LIB_FIELD_T then acc
      else if item.text.isEmpty then acc
      else acc.Add (VIEW_ITEM.item item.addr))
    v

/-- The second loop of `DisplayComponent`: the draw items of `drawnPart` are
added, except the fields when `aPart` is an alias. -/
def DisplayComponent_drawn (v : SCH_VIEW) (aPartIsAlias : Bool) (items : List LIB_ITEM) :
    SCH_VIEW :=
  items.foldl
    (fun acc item =>
      if aPartIsAlias = true ∧ item.type = KICAD_T.LIB_FIELD_T then acc
      else acc.Add (VIEW_ITEM.item item.addr))
    v

/-- The end of `DisplayComponent` and of `DisplaySheet`: a new selection area
and a new, empty preview group are created and added to the view. -/
def SCH_VIEW.resetPreview (v : SCH_VIEW) : SCH_VIEW :=
  (({ v with m_preview := [] }).Add VIEW_ITEM.selectionArea).Add VIEW_ITEM.preview

/-- The member `SCH_VIEW::DisplayComponent( LIB_PART* aPart )`; `none` is the
null pointer. -/
def DisplayComponent (v : SCH_VIEW) (aPart : Option LIB_PART) : SCH_VIEW :=
  let v0 := v.Clear
  match aPart with
  | none => v0
  | some part =>
    let v1 := DisplayComponent_fields v0 part.GetDrawItems
    if part.IsAlias then
      match part.lockParent with
      | none => v1
      | some parent =>
        (DisplayComponent_drawn v1 part.IsAlias parent.GetDrawItems).resetPreview
    else
      (DisplayComponent_drawn v1 part.IsAlias part.GetDrawItems).resetPreview

/-- The fields of a symbol that `DisplayComponent` shows: those with a
non-empty text. -/
def shownFields (items : List LIB_ITEM) : List LIB_ITEM :=
  items.filter (fun i => decide (i.type = KICAD_T.LIB_FIELD_T) && !i.text.isEmpty)

/-- The draw items of a symbol that are not fields. -/
def nonFields (items : List LIB_ITEM) : List LIB_ITEM :=
  items.filter (fun i => !decide (i.type = KICAD_T.LIB_FIELD_T))

/-- A view with nothing in it. -/
def emptyView : SCH_VIEW := ⟨[], ⟨⟨0, 0⟩, ⟨0, 0⟩⟩, [], []⟩

/-- A parent symbol with a reference field, a pin and an arc. -/
def exampleParent : LIB_PART :=
  LIB_PART.mk
    [⟨10, KICAD_T.LIB_FIELD_T, "U"⟩, ⟨11, KICAD_T.LIB_PIN_T, ""⟩, ⟨12, KICAD_T.LIB_ARC_T, ""⟩]
    false none

/-- An alias of `exampleParent` with a value field and an empty footprint
field. -/
def exampleAlias : LIB_PART :=
  LIB_PART.mk
    [⟨20, KICAD_T.LIB_FIELD_T, "74LS00"⟩, ⟨21, KICAD_T.LIB_FIELD_T, ""⟩]
    true (some exampleParent)

/-! ## Project data on demand (`sch_edit_frame.cpp`) -/

/-- What a call can raise, as far as the handlers of `PROJECT::SchLibs` tell
exceptions apart: a `PARSE_ERROR` (with its `inputLine`), another `IO_ERROR`
(with its `What()`), or an exception of a type outside the `IO_ERROR` family. -/
inductive Thrown where
  | PARSE_ERROR (inputLine : String)
  | IO_ERROR (what : String)
  | other (what : String)
  deriving DecidableEq, Repr

/-- The set of symbol libraries of a project, as the list of the libraries
loaded into it. -/
structure PART_LIBS where
  libraries : List String
  deriving DecidableEq, Repr

/-- The project, as far as `SchLibs` uses it: the element stored under
`ELEM_SCH_PART_LIBS` (`none` is the null pointer). -/
structure PROJECT where
  ELEM_SCH_PART_LIBS : Option PART_LIBS
  deriving DecidableEq, Repr

/-- What `SchLibs` shows the user: the "Not Found" message box listing the
libraries that were not found, or an error display. -/
inductive UserReport where
  | notFound (lib_list : String)
  | displayError (what : String)
  deriving DecidableEq, Repr

/-- The outcome of `PROJECT::SchLibs`: the project afterwards, what was shown to
the user, and either the returned pointer (`none` is null) or the exception
that left the function. -/
structure SchLibsOutcome where
  project : PROJECT
  reports : List UserReport
  result : Except Thrown (Option PART_LIBS)
  deriving Repr

/-- The member `PROJECT::SchLibs()`. `LoadAllLibraries` (class_library.cpp, not
under src/) is a parameter: from the project and the library set it gives the
library set as the call leaves it and the exception it raised, if any. The set
is registered with the project before it is loaded and is loaded in place, so
the project holds the set as the load left it. -/
def PROJECT.SchLibs (LoadAllLibraries : PROJECT → PART_LIBS → PART_LIBS × Option Thrown)
    (prj : PROJECT) : SchLibsOutcome :=
  match prj.ELEM_SCH_PART_LIBS with
  | some libs => ⟨prj, [], Except.ok (some libs)⟩
  | none =>
    let libs : PART_LIBS := ⟨[]⟩
    let prj1 : PROJECT := { prj with ELEM_SCH_PART_LIBS := some libs }
    let loaded := LoadAllLibraries prj1 libs
    let prj2 : PROJECT := { prj1 with ELEM_SCH_PART_LIBS := some loaded.1 }
    match loaded.2 with
    | none => ⟨prj2, [], Except.ok (some loaded.1)⟩
    | some (Thrown.PARSE_ERROR inputLine) =>
      ⟨prj2, [UserReport.notFound inputLine], Except.ok (some loaded.1)⟩
    | some (Thrown.IO_ERROR what) =>
      ⟨prj2, [UserReport.displayError what], Except.ok (some loaded.1)⟩
    | some (Thrown.other what) => ⟨prj2, [], Except.error (Thrown.other what)⟩

/-- A load that finds the first library and raises a `PARSE_ERROR` naming the
two libraries it did not find. -/
def loadWithMissing (_prj : PROJECT) (libs : PART_LIBS) : PART_LIBS × Option Thrown :=
  (⟨libs.libraries ++ ["device"]⟩, some (Thrown.PARSE_ERROR "power, conn"))

/-! ## Adding an item to the screen (`sch_edit_frame.cpp`) -/

/-- The undo record kinds that `AddItemToScreenAndUndoList` uses. -/
inductive UNDO_REDO_T where
  | UR_CHANGED
  | UR_NEW
  deriving DecidableEq, Repr

/-- A schematic item, as far as `AddItemToScreenAndUndoList` looks at it: the
address of the object, its `Type()`, the address and `Type()` of its parent
(`GetParent()`, `none` for a null pointer), the flag `IS_NEW`, `IsMoving()`,
`IsConnectable()` and its connection points. -/
structure SCH_ITEM where
  addr : Nat
  type : KICAD_T
  parent : Option (Nat × KICAD_T)
  isNew : Bool
  isMoving : Bool
  isConnectable : Bool
  connectionPoints : List wxPoint
  deriving DecidableEq, Repr

/-- An entry of the undo list: the item saved, how it is recorded, and whether
the entry was appended to the previous command. -/
structure UndoEntry where
  item : Nat
  status : UNDO_REDO_T
  append : Bool
  deriving DecidableEq, Repr

/-- The calls that `AddItemToScreenAndUndoList` makes to code outside src/ for
connectivity upkeep, display and logging. They are recorded in the order made
and not interpreted. -/
inductive FrameCall where
  | LogMessage (text : String)
  | RecalculateConnections_LOCAL_CLEANUP
  | RefreshItem (item : Nat)
  | TrimWire (a b : wxPoint)
  | AddJunction (pos : wxPoint)
  | TestDanglingEnds
  | CanvasRefresh
  deriving DecidableEq, Repr

/-- The state of `SCH_EDIT_FRAME` that `AddItemToScreenAndUndoList` acts on: the
draw list of the current screen and its modify flag, the pin list of every
sheet (by sheet address), the undo list, the item kept for repetition, and the
record of the upkeep calls. -/
structure SCH_EDIT_FRAME where
  screenItems : List Nat
  screenModified : Bool
  sheetPins : Nat → List Nat
  undoList : List UndoEntry
  m_item_to_repeat : Option SCH_ITEM
  calls : List FrameCall

/-- Records a call to code outside src/. -/
def SCH_EDIT_FRAME.call (f : SCH_EDIT_FRAME) (c : FrameCall) : SCH_EDIT_FRAME :=
  { f with calls := f.calls ++ [c] }

/-- The call `SaveCopyInUndoList( item, status, append )` (declared outside
src/): an entry for the item is saved in the undo list. -/
def SCH_EDIT_FRAME.SaveCopyInUndoList (f : SCH_EDIT_FRAME) (item : Nat)
    (status : UNDO_REDO_T) (aUndoAppend : Bool) : SCH_EDIT_FRAME :=
  { f with undoList := f.undoList ++ [⟨item, status, aUndoAppend⟩] }

/-- The call `sheet->AddPin( pin )` (declared outside src/): the pin joins the
pin list of the sheet. -/
def SCH_EDIT_FRAME.AddPin (f : SCH_EDIT_FRAME) (sheet pin : Nat) : SCH_EDIT_FRAME :=
  { f with sheetPins := fun s => if s = sheet then f.sheetPins s ++ [pin] else f.sheetPins s }

/-- The call `AddToScreen( item )` (declared outside src/): the item joins the
draw list of the current screen. -/
def SCH_EDIT_FRAME.AddToScreen (f : SCH_EDIT_FRAME) (item : Nat) : SCH_EDIT_FRAME :=
  { f with screenItems := f.screenItems ++ [item] }

/-- The member `SaveCopyForRepeatItem( aItem )` for a non-null item: a clone
with its flags cleared replaces the item kept for repetition. -/
def SCH_EDIT_FRAME.SaveCopyForRepeatItem (f : SCH_EDIT_FRAME) (aItem : SCH_ITEM) :
    SCH_EDIT_FRAME :=
  { f with m_item_to_repeat := some { aItem with isNew := false, isMoving := false } }

/-- The loop over the connection points at the end of
`AddItemToScreenAndUndoList`: every later point is trimmed against the current
one, and a junction is added where the screen needs one. `IsJunctionNeeded`
(declared outside src/) is a parameter. -/
def connectPoints (IsJunctionNeeded : SCH_EDIT_FRAME → wxPoint → Bool) :
    SCH_EDIT_FRAME → List wxPoint → SCH_EDIT_FRAME
  | f, [] => f
  | f, i :: rest =>
    let f1 := rest.foldl (fun acc j => acc.call (FrameCall.TrimWire i j)) f
    let f2 := if IsJunctionNeeded f1 i then f1.call (FrameCall.AddJunction i) else f1
    connectPoints IsJunctionNeeded f2 rest

/-- The block `if( aItem->IsNew() )` of `AddItemToScreenAndUndoList`: a sheet
pin is saved through its parent sheet and added to the pins of that sheet, a
field is only logged, any other item is added to the screen unless it is already
on its draw list; the connections are then recalculated unless the item is
moving. `undoItem` is the item to save in the undo list and `parentSheet` the
parent of a sheet pin (`none` is the null pointer it holds for any other
item). -/
def AddItemToScreenAndUndoList_new (f : SCH_EDIT_FRAME) (aItem : SCH_ITEM) (undoItem : Nat)
    (parentSheet : Option Nat) (aUndoAppend : Bool) : SCH_EDIT_FRAME :=
  let g : SCH_EDIT_FRAME :=
    if aItem.type = KICAD_T.SCH_SHEET_PIN_T then
      match parentSheet with
      | some sheet =>
        (f.SaveCopyInUndoList undoItem UNDO_REDO_T.UR_CHANGED aUndoAppend).AddPin
          sheet aItem.addr
      | none => f.SaveCopyInUndoList undoItem UNDO_REDO_T.UR_CHANGED aUndoAppend
    else if aItem.type = KICAD_T.SCH_FIELD_T then
      f.call (FrameCall.LogMessage "addCurrentItemToScreen: unexpected new SCH_FIELD")
    else
      let h : SCH_EDIT_FRAME :=
        if aItem.addr ∈ f.screenItems then f else f.AddToScreen aItem.addr
      (h.SaveCopyForRepeatItem aItem).SaveCopyInUndoList undoItem UNDO_REDO_T.UR_NEW
        aUndoAppend
  if aItem.isMoving then g else g.call FrameCall.RecalculateConnections_LOCAL_CLEANUP

/-- The end of `AddItemToScreenAndUndoList`, from `screen->SetModify()` on: the
item is refreshed; when it is connectable and not moving its connection points
are tidied, the dangling ends tested and the connected items refreshed; the
canvas is refreshed. -/
def AddItemToScreenAndUndoList_upkeep
    (IsJunctionNeeded : SCH_EDIT_FRAME → wxPoint → Bool)
    (ConnectedItems : SCH_EDIT_FRAME → SCH_ITEM → List Nat)
    (f : SCH_EDIT_FRAME) (aItem : SCH_ITEM) : SCH_EDIT_FRAME :=
  let f2 : SCH_EDIT_FRAME :=
    ({ f with screenModified := true }).call (FrameCall.RefreshItem aItem.addr)
  let f3 : SCH_EDIT_FRAME :=
    if ¬ aItem.isMoving ∧ aItem.isConnectable then
      let g := (connectPoints IsJunctionNeeded f2 aItem.connectionPoints).call
        FrameCall.TestDanglingEnds
      (ConnectedItems g aItem).foldl (fun acc i => acc.call (FrameCall.RefreshItem i)) g
    else f2
  f3.call FrameCall.CanvasRefresh

/-- The part of `AddItemToScreenAndUndoList` that follows the parent checks:
the block for a new item, `ClearFlags( IS_NEW )`, the upkeep, and
`ClearEditFlags()`. The result is the frame and the item with its flags as the
call leaves them. -/
def AddItemToScreenAndUndoList_body
    (IsJunctionNeeded : SCH_EDIT_FRAME → wxPoint → Bool)
    (ConnectedItems : SCH_EDIT_FRAME → SCH_ITEM → List Nat)
    (f : SCH_EDIT_FRAME) (aItem : SCH_ITEM) (undoItem : Nat) (parentSheet : Option Nat)
    (aUndoAppend : Bool) : SCH_EDIT_FRAME × SCH_ITEM :=
  let f1 : SCH_EDIT_FRAME :=
    if aItem.isNew then AddItemToScreenAndUndoList_new f aItem undoItem parentSheet aUndoAppend
    else f
  let item1 : SCH_ITEM := { aItem with isNew := false }
  (AddItemToScreenAndUndoList_upkeep IsJunctionNeeded ConnectedItems f1 item1,
    { item1 with isMoving := false })

/-- The member `SCH_EDIT_FRAME::AddItemToScreenAndUndoList( aItem, aUndoAppend )`.
`none` is the null pointer; a failed `wxCHECK_RET` returns with nothing
changed. `IsJunctionNeeded` and `ConnectedItems` (declared outside src/) are
parameters. -/
def AddItemToScreenAndUndoList
    (IsJunctionNeeded : SCH_EDIT_FRAME → wxPoint → Bool)
    (ConnectedItems : SCH_EDIT_FRAME → SCH_ITEM → List Nat)
    (f : SCH_EDIT_FRAME) (aItem : Option SCH_ITEM) (aUndoAppend : Bool) :
    SCH_EDIT_FRAME × Option SCH_ITEM :=
  match aItem with
  | none => (f, none)
  | some item =>
    if item.type = KICAD_T.SCH_SHEET_PIN_T then
      match item.parent with
      | some (parentSheet, KICAD_T.SCH_SHEET_T) =>
        let r := AddItemToScreenAndUndoList_body IsJunctionNeeded ConnectedItems f item
          parentSheet (some parentSheet) aUndoAppend
        (r.1, some r.2)
      | _ => (f, some item)
    else if item.type = KICAD_T.SCH_FIELD_T then
      match item.parent with
      | some (parentComponent, KICAD_T.SCH_COMPONENT_T) =>
        let r := AddItemToScreenAndUndoList_body IsJunctionNeeded ConnectedItems f item
          parentComponent none aUndoAppend
        (r.1, some r.2)
      | _ => (f, some item)
    else
      let r := AddItemToScreenAndUndoList_body IsJunctionNeeded ConnectedItems f item
        item.addr none aUndoAppend
      (r.1, some r.2)

/-- A frame whose screen holds the sheet at address 1, with no pin yet. -/
def exampleFrame : SCH_EDIT_FRAME :=
  ⟨[1], false, fun _ => [], [], none, []⟩

/-- A new sheet pin at address 2 whose parent is the sheet at address 1. -/
def examplePin : SCH_ITEM :=
  ⟨2, KICAD_T.SCH_SHEET_PIN_T, some (1, KICAD_T.SCH_SHEET_T), true, false, true, [⟨0, 100⟩]⟩

/-! ## Graphic-item sub-parsers -/

/-- Modelled from the spec: the check for a required child group (the lexer and
the graphic-item parsers are not under src/): advances over `(` and the keyword
that opens the group, and fails with a structural error naming the keyword if
the group is missing. -/
def NeedGroup (keyword : String) (lx : Lexer) : Except ParseError Lexer :=
  let lx1 := NextTok lx
  if lx1.cur.kind = TokKind.left then
    let lx2 := NextTok lx1
    if lx2.cur = ⟨TokKind.symbol, keyword⟩ then Except.ok lx2
    else Except.error (ParseError.structural keyword lx2.pos)
  else Except.error (ParseError.structural keyword lx1.pos)

/-- The tokens that follow the `)` closing the group entered `depth` levels of
nesting above, with that `)` and the number of tokens read to reach them;
`none` if the input ends first. -/
def skipToClose : Nat → List Token → Option (Token × List Token × Nat)
  | _, [] => none
  | depth, t :: ts =>
    if t.kind = TokKind.right then
      match depth with
      | 0 => some (t, ts, 1)
      | d + 1 =>
        match skipToClose d ts with
        | some (c, r, n) => some (c, r, n + 1)
        | none => none
    else if t.kind = TokKind.left then
      match skipToClose (depth + 1) ts with
      | some (c, r, n) => some (c, r, n + 1)
      | none => none
    else
      match skipToClose depth ts with
      | some (c, r, n) => some (c, r, n + 1)
      | none => none

/-- Modelled from the spec: the forward-compatibility policy of the group
parsers (not under src/): what remains of the current group is tolerated and
skipped, up to and including the `)` that closes it; a structural error if the
input ends first. -/
def skipGroup (lx : Lexer) : Except ParseError Lexer :=
  match skipToClose 0 lx.rest with
  | some (c, r, n) => Except.ok ⟨c, r, lx.pos + n⟩
  | none => Except.error (ParseError.structural ")" (lx.pos + lx.rest.length + 1))

/-- The electrical types of a pin: the fixed enumeration of eleven. -/
inductive ELECTRICAL_PINTYPE where
  | PT_INPUT
  | PT_OUTPUT
  | PT_BIDI
  | PT_TRISTATE
  | PT_PASSIVE
  | PT_POWER_IN
  | PT_POWER_OUT
  | PT_OPENCOLLECTOR
  | PT_OPENEMITTER
  | PT_UNSPECIFIED
  | PT_NC
  deriving DecidableEq, Repr

/-- Modelled from the spec: the fixed enumeration table of the electrical-type
token of a pin (the pin parser is not under src/): input, output, bidirectional,
tri-state, passive, power-in, power-out, open-collector, open-emitter,
unspecified, no-connect. -/
def electricalTypeTable : List (String × ELECTRICAL_PINTYPE) :=
  [("input", ELECTRICAL_PINTYPE.PT_INPUT),
    ("output", ELECTRICAL_PINTYPE.PT_OUTPUT),
    ("bidirectional", ELECTRICAL_PINTYPE.PT_BIDI),
    ("tri-state", ELECTRICAL_PINTYPE.PT_TRISTATE),
    ("passive", ELECTRICAL_PINTYPE.PT_PASSIVE),
    ("power-in", ELECTRICAL_PINTYPE.PT_POWER_IN),
    ("power-out", ELECTRICAL_PINTYPE.PT_POWER_OUT),
    ("open-collector", ELECTRICAL_PINTYPE.PT_OPENCOLLECTOR),
    ("open-emitter", ELECTRICAL_PINTYPE.PT_OPENEMITTER),
    ("unspecified", ELECTRICAL_PINTYPE.PT_UNSPECIFIED),
    ("no-connect", ELECTRICAL_PINTYPE.PT_NC)]

/-- The eleven keywords of the electrical-type enumeration. -/
def electricalTypeNames : List String :=
  electricalTypeTable.map Prod.fst

/-- Modelled from the spec: the validation of the electrical-type token of a pin
against the fixed enumeration: the type a keyword of the table stands for; any
other token has no electrical type. -/
def electricalTypeOfToken (t : Token) : Option ELECTRICAL_PINTYPE :=
  if t.kind = TokKind.symbol then electricalTypeTable.lookup t.text else none

/-- A pin of a library symbol: name, number, electrical type, graphic style,
position, orientation angle and length. -/
structure LIB_PIN where
  m_name : String
  m_number : String
  m_type : ELECTRICAL_PINTYPE
  m_shape : String
  m_position : wxPoint
  m_orientation : ℚ
  m_length : Int
  deriving DecidableEq

/-- Modelled from the spec: the member `parsePin` (declared in the header, its
body is not under src/). With the keyword `pin` current it reads
`NAME NUMBER electrical-type graphic-style (at X Y ANGLE) (length L)`, then
skips the name and number attribute groups up to the closing `)`. An
electrical-type token outside the fixed enumeration is an unknown-enumeration
error; a missing child group is a structural error naming it. -/
def parsePin (IU_PER_MM : ℚ) (lx : Lexer) : Except ParseError (LIB_PIN × Lexer) :=
  if lx.cur = ⟨TokKind.symbol, "pin"⟩ then
    match NeedSYMBOL lx with
    | Except.error e => Except.error e
    | Except.ok lx1 =>
    match NeedSYMBOL lx1 with
    | Except.error e => Except.error e
    | Except.ok lx2 =>
    match electricalTypeOfToken (NextTok lx2).cur with
    | none =>
      Except.error (ParseError.unknownEnumeration (NextTok lx2).cur.text (NextTok lx2).pos)
    | some type =>
    match NeedSYMBOL (NextTok lx2) with
    | Except.error e => Except.error e
    | Except.ok lx4 =>
    match NeedGroup "at" lx4 with
    | Except.error e => Except.error e
    | Except.ok lx5 =>
    match parseXY IU_PER_MM lx5 with
    | Except.error e => Except.error e
    | Except.ok (position, lx6) =>
    match parseDouble_aExpected "angle" lx6 with
    | Except.error e => Except.error e
    | Except.ok (angle, lx7) =>
    match NeedRIGHT lx7 with
    | Except.error e => Except.error e
    | Except.ok lx8 =>
    match NeedGroup "length" lx8 with
    | Except.error e => Except.error e
    | Except.ok lx9 =>
    match parseInternalUnits_aExpected IU_PER_MM "length" lx9 with
    | Except.error e => Except.error e
    | Except.ok (length, lx10) =>
    match NeedRIGHT lx10 with
    | Except.error e => Except.error e
    | Except.ok lx11 =>
    match skipGroup lx11 with
    | Except.error e => Except.error e
    | Except.ok lx12 =>
      Except.ok (⟨lx1.cur.text, lx2.cur.text, type, lx4.cur.text, position, angle, length⟩, lx12)
  else Except.error (ParseError.structural "pin" lx.pos)

/-- A rectangle of a library symbol: its two corners, its stroke and its fill.
The types of the stroke and fill values are those of the sub-parsers that read
them. -/
structure LIB_RECTANGLE (Stroke Fill : Type) where
  m_Pos : wxPoint
  m_End : wxPoint
  stroke : Stroke
  fill : Fill

/-- Modelled from the spec: the member `parseRectangle` (declared in the header,
its body is not under src/). With the keyword `rectangle` current it reads
`(start X Y) (end X Y) stroke fill` and the closing `)`. A missing child group
is a structural error naming it. The stroke and fill sub-parsers, whose token
shape the spec does not give, are parameters. -/
def parseRectangle {Stroke Fill : Type} (IU_PER_MM : ℚ)
    (parseStroke : Lexer → Except ParseError (Stroke × Lexer))
    (parseFill : Lexer → Except ParseError (Fill × Lexer))
    (lx : Lexer) : Except ParseError (LIB_RECTANGLE Stroke Fill × Lexer) :=
  if lx.cur = ⟨TokKind.symbol, "rectangle"⟩ then
    match NeedGroup "start" lx with
    | Except.error e => Except.error e
    | Except.ok lx1 =>
    match parseXY IU_PER_MM lx1 with
    | Except.error e => Except.error e
    | Except.ok (start, lx2) =>
    match NeedRIGHT lx2 with
    | Except.error e => Except.error e
    | Except.ok lx3 =>
    match NeedGroup "end" lx3 with
    | Except.error e => Except.error e
    | Except.ok lx4 =>
    match parseXY IU_PER_MM lx4 with
    | Except.error e => Except.error e
    | Except.ok (endPoint, lx5) =>
    match NeedRIGHT lx5 with
    | Except.error e => Except.error e
    | Except.ok lx6 =>
    match parseStroke lx6 with
    | Except.error e => Except.error e
    | Except.ok (stroke, lx7) =>
    match parseFill lx7 with
    | Except.error e => Except.error e
    | Except.ok (fill, lx8) =>
    match NeedRIGHT lx8 with
    | Except.error e => Except.error e
    | Except.ok lx9 => Except.ok (⟨start, endPoint, stroke, fill⟩, lx9)
  else Except.error (ParseError.structural "rectangle" lx.pos)

/-- The lexer inside `(pin "A" "1" TYPE line (at 0 0 0) (length 2.54))`, with the
keyword `pin` current and the given electrical-type token. -/
def lexerAtPin (type : Token) : Lexer :=
  ⟨⟨TokKind.symbol, "pin"⟩,
    [⟨TokKind.string, "A"⟩, ⟨TokKind.string, "1"⟩, type, ⟨TokKind.symbol, "line"⟩,
      ⟨TokKind.left, "("⟩, ⟨TokKind.symbol, "at"⟩, ⟨TokKind.number, "0"⟩,
      ⟨TokKind.number, "0"⟩, ⟨TokKind.number, "0"⟩, ⟨TokKind.right, ")"⟩,
      ⟨TokKind.left, "("⟩, ⟨TokKind.symbol, "length"⟩, ⟨TokKind.number, "2.54"⟩,
      ⟨TokKind.right, ")"⟩, ⟨TokKind.right, ")"⟩], 2⟩

/-- The lexer inside `(rectangle (start 0 0))`, with the keyword `rectangle`
current. -/
def lexerAtRectangleNoEnd : Lexer :=
  ⟨⟨TokKind.symbol, "rectangle"⟩,
    [⟨TokKind.left, "("⟩, ⟨TokKind.symbol, "start"⟩, ⟨TokKind.number, "0"⟩,
      ⟨TokKind.number, "0"⟩, ⟨TokKind.right, ")"⟩, ⟨TokKind.right, ")"⟩], 2⟩

/-- A sub-parser that reads nothing and yields no value of interest. -/
def parseNothing (lx : Lexer) : Except ParseError (Unit × Lexer) :=
  Except.ok ((), lx)

/-! ## Symbol sub-parser and library assembly -/

/-- Modelled from the spec: a symbol as the symbol sub-parser leaves it (the
parser body is not under src/): its name, the name of the parent it extends (a
pending reference, resolved once the whole library is read), its flags, its
properties in order, and its draw items in order, each with the unit and the
body style it belongs to. -/
structure SymbolEntry (Item Field : Type) where
  name : String
  parentName : Option String
  hidePinNumbers : Bool
  inBom : Bool
  onBoard : Bool
  fields : List Field
  drawItems : List (Int × Int × Item)

/-- The parts of the symbol grammar whose token shape the spec does not give,
as parameters: the value the field-id counter is reset to, the property
sub-parser (from the current field id: the property and whether it was unnamed
and took its id from the counter), the unit and body style that the name of a
unit block declares, and the draw-item sub-parser (entered with the keyword of
the item current, left on the `)` closing the item). -/
structure SymbolSubParsers (Item Field : Type) where
  MANDATORY_FIELDS : Int
  parseProperty : Int → Lexer → Except ParseError (Field × Bool × Lexer)
  unitOfName : String → Option (Int × Int)
  ParseDrawItem : Lexer → Except ParseError (Item × Lexer)

/-- What reading one group at the level of the symbol leads to: the lexer after
the group, the field-id counter, the symbol so far, the place reached in the
grammar, and the unit and body style of the unit block just entered, if the
group opened one. -/
structure SymbolGroupResult (Item Field : Type) where
  lexer : Lexer
  fieldId : Int
  entry : SymbolEntry Item Field
  stage : Nat
  unit : Option (Int × Int)

/-- The construct the symbol grammar expects next at a place where the group
met is out of order: the two mandatory flags first. -/
def expectedAtStage (stage : Nat) : String :=
  if stage < 4 then "in_bom"
  else if stage = 4 then "on_board"
  else "property or symbol"

/-- Modelled from the spec: a `yes|no` value followed by the `)` closing its
group. -/
def parseYesNo (lx : Lexer) : Except ParseError (Bool × Lexer) :=
  let lx1 := NextTok lx
  if lx1.cur = ⟨TokKind.symbol, "yes"⟩ then
    match NeedRIGHT lx1 with
    | Except.error e => Except.error e
    | Except.ok lx2 => Except.ok (true, lx2)
  else if lx1.cur = ⟨TokKind.symbol, "no"⟩ then
    match NeedRIGHT lx1 with
    | Except.error e => Except.error e
    | Except.ok lx2 => Except.ok (false, lx2)
  else Except.error (ParseError.structural "yes or no" lx1.pos)

/-- Modelled from the spec: one group at the level of the symbol, entered with
its keyword current, in the order of the grammar
`[(extends "parent")] (pin_names ...)? (pin_numbers hide)? (in_bom yes|no)
(on_board yes|no) property* unit-block*` (places 1 to 7). A property takes the
current field id and advances the counter when it was unnamed; a unit block
declares the unit and body style of the draw items that follow. -/
def parseSymbolGroup {Item Field : Type} (env : SymbolSubParsers Item Field)
    (lx : Lexer) (fieldId : Int) (entry : SymbolEntry Item Field) (stage : Nat) :
    Except ParseError (SymbolGroupResult Item Field) :=
  if lx.cur = ⟨TokKind.symbol, "extends"⟩ ∧ stage < 1 then
    match NeedSYMBOL lx with
    | Except.error e => Except.error e
    | Except.ok lx1 =>
    match NeedRIGHT lx1 with
    | Except.error e => Except.error e
    | Except.ok lx2 =>
      Except.ok ⟨lx2, fieldId, { entry with parentName := some lx1.cur.text }, 1, none⟩
  else if lx.cur = ⟨TokKind.symbol, "pin_names"⟩ ∧ stage < 2 then
    match skipGroup lx with
    | Except.error e => Except.error e
    | Except.ok lx1 => Except.ok ⟨lx1, fieldId, entry, 2, none⟩
  else if lx.cur = ⟨TokKind.symbol, "pin_numbers"⟩ ∧ stage < 3 then
    match NeedKeyword "hide" lx with
    | Except.error e => Except.error e
    | Except.ok lx1 =>
    match NeedRIGHT lx1 with
    | Except.error e => Except.error e
    | Except.ok lx2 => Except.ok ⟨lx2, fieldId, { entry with hidePinNumbers := true }, 3, none⟩
  else if lx.cur = ⟨TokKind.symbol, "in_bom"⟩ ∧ stage < 4 then
    match parseYesNo lx with
    | Except.error e => Except.error e
    | Except.ok (b, lx1) => Except.ok ⟨lx1, fieldId, { entry with inBom := b }, 4, none⟩
  else if lx.cur = ⟨TokKind.symbol, "on_board"⟩ ∧ stage = 4 then
    match parseYesNo lx with
    | Except.error e => Except.error e
    | Except.ok (b, lx1) => Except.ok ⟨lx1, fieldId, { entry with onBoard := b }, 5, none⟩
  else if lx.cur = ⟨TokKind.symbol, "property"⟩ ∧ (stage = 5 ∨ stage = 6) then
    match env.parseProperty fieldId lx with
    | Except.error e => Except.error e
    | Except.ok (field, unnamed, lx1) =>
      Except.ok ⟨lx1, if unnamed then fieldId + 1 else fieldId,
        { entry with fields := entry.fields ++ [field] }, 6, none⟩
  else if lx.cur = ⟨TokKind.symbol, "symbol"⟩ ∧ 5 ≤ stage then
    match NeedSYMBOL lx with
    | Except.error e => Except.error e
    | Except.ok lx1 =>
    match env.unitOfName lx1.cur.text with
    | none => Except.error (ParseError.structural "unit name" lx1.pos)
    | some unit => Except.ok ⟨lx1, fieldId, entry, 7, some unit⟩
  else Except.error (ParseError.structural (expectedAtStage stage) lx.pos)

/-- Modelled from the spec: the groups of a symbol up to the `)` closing it.
At the level of the symbol each group goes to `parseSymbolGroup`, which moves
the field-id counter `m_fieldId` and, for a unit block, sets the current unit
`m_unit` and body style `m_convert`. Inside a unit block each group is a draw
item, filed under the current unit and body style. The loop runs at most `fuel`
times. -/
def parseSymbolGroups {Item Field : Type} (env : SymbolSubParsers Item Field) :
    Nat → SCH_SEXPR_PARSER → SymbolEntry Item Field → Nat → Bool →
      Except ParseError (SymbolEntry Item Field × SCH_SEXPR_PARSER)
  | 0, p, _, _, _ => Except.error (ParseError.structural ")" p.lexer.pos)
  | fuel + 1, p, entry, stage, inUnit =>
    if (NextTok p.lexer).cur.kind = TokKind.right then
      if inUnit then
        parseSymbolGroups env fuel { p with lexer := NextTok p.lexer } entry stage false
      else if 5 ≤ stage then Except.ok (entry, { p with lexer := NextTok p.lexer })
      else Except.error (ParseError.structural (expectedAtStage stage) (NextTok p.lexer).pos)
    else if (NextTok p.lexer).cur.kind = TokKind.left then
      if inUnit then
        match env.ParseDrawItem (NextTok (NextTok p.lexer)) with
        | Except.error e => Except.error e
        | Except.ok (item, lx3) =>
          parseSymbolGroups env fuel { p with lexer := lx3 }
            { entry with drawItems := entry.drawItems ++ [(p.m_unit, p.m_convert, item)] }
            stage true
      else
        match parseSymbolGroup env (NextTok (NextTok p.lexer)) p.m_fieldId entry stage with
        | Except.error e => Except.error e
        | Except.ok r =>
          match r.unit with
          | some (unit, convert) =>
            parseSymbolGroups env fuel
              { p with lexer := r.lexer, m_fieldId := r.fieldId, m_unit := unit,
                       m_convert := convert }
              r.entry r.stage true
          | none =>
            parseSymbolGroups env fuel { p with lexer := r.lexer, m_fieldId := r.fieldId }
              r.entry r.stage false
    else Except.error (ParseError.structural "(" (NextTok p.lexer).pos)

/-- Modelled from the spec: the member `ParseSymbol` (declared in the header,
its body is not under src/): with the keyword `symbol` current it reads the name
of the symbol, resets the field-id counter, and reads the groups of the symbol.
The parent named by `extends` is only recorded; the caller files the symbol in
the library and resolves parents once the library is read. -/
def ParseSymbol {Item Field : Type} (env : SymbolSubParsers Item Field) (fuel : Nat)
    (p : SCH_SEXPR_PARSER) : Except ParseError (SymbolEntry Item Field × SCH_SEXPR_PARSER) :=
  if p.lexer.cur = ⟨TokKind.symbol, "symbol"⟩ then
    match NeedSYMBOL p.lexer with
    | Except.error e => Except.error e
    | Except.ok lx1 =>
      parseSymbolGroups env fuel
        { p with lexer := lx1, m_fieldId := env.MANDATORY_FIELDS, m_symbolName := lx1.cur.text }
        ⟨lx1.cur.text, none, false, false, false, [], []⟩ 0 false
  else Except.error (ParseError.structural "symbol" p.lexer.pos)

/-- Modelled from the spec: a symbol of the library once its parent reference
is resolved: the symbol as parsed and, for an alias, the parent it inherits
from. -/
structure LibSymbol (Item Field : Type) where
  entry : SymbolEntry Item Field
  parent : Option (SymbolEntry Item Field)

/-- Whether the symbol is an alias. -/
def LibSymbol.IsAlias {Item Field : Type} (s : LibSymbol Item Field) : Bool :=
  s.parent.isSome

/-- The drawing items of a library symbol: those of its parent for an alias,
its own otherwise. -/
def LibSymbol.drawItems {Item Field : Type} (s : LibSymbol Item Field) :
    List (Int × Int × Item) :=
  match s.parent with
  | some parent => parent.drawItems
  | none => s.entry.drawItems

/-- Modelled from the spec: the resolution of one symbol against the registry
of the symbols parsed, at the end of the document (position `pos`): a symbol
without parent stays a root; an alias gets the symbol its parent name looks up.
A parent that is missing, or that is itself an alias (a chain longer than one
level, or a cycle), is a structural error. -/
def resolveSymbol {Item Field : Type} (registry : List (SymbolEntry Item Field)) (pos : Nat)
    (e : SymbolEntry Item Field) : Except ParseError (LibSymbol Item Field) :=
  match e.parentName with
  | none => Except.ok ⟨e, none⟩
  | some parentName =>
    match registry.find? (fun x => x.name = parentName) with
    | none => Except.error (ParseError.structural parentName pos)
    | some parent =>
      if parent.parentName.isSome then Except.error (ParseError.structural parentName pos)
      else Except.ok ⟨e, some parent⟩

/-- Modelled from the spec: the second phase of the library assembly: every
symbol of the list is resolved against the registry, in order; the first
failure fails the whole. -/
def resolveSymbols {Item Field : Type} (registry : List (SymbolEntry Item Field)) (pos : Nat) :
    List (SymbolEntry Item Field) → Except ParseError (List (LibSymbol Item Field))
  | [] => Except.ok []
  | e :: es =>
    match resolveSymbol registry pos e with
    | Except.error err => Except.error err
    | Except.ok s =>
      match resolveSymbols registry pos es with
      | Except.error err => Except.error err
      | Except.ok ss => Except.ok (s :: ss)

/-- Modelled from the spec: the first phase of the library assembly: the
`(symbol ...)` groups of the document are parsed in file order into the registry,
up to the `)` closing the document. The loop runs at most `fuel` times; each
symbol is parsed with `symFuel`. -/
def parseLibSymbols {Item Field : Type} (env : SymbolSubParsers Item Field) (symFuel : Nat) :
    Nat → SCH_SEXPR_PARSER → List (SymbolEntry Item Field) →
      Except ParseError (SCH_SEXPR_PARSER × List (SymbolEntry Item Field))
  | 0, p, _ => Except.error (ParseError.structural ")" p.lexer.pos)
  | fuel + 1, p, registry =>
    if (NextTok p.lexer).cur.kind = TokKind.right then
      Except.ok ({ p with lexer := NextTok p.lexer }, registry)
    else if (NextTok p.lexer).cur.kind = TokKind.left then
      match NeedKeyword "symbol" (NextTok p.lexer) with
      | Except.error e => Except.error e
      | Except.ok lx2 =>
        match ParseSymbol env symFuel { p with lexer := lx2 } with
        | Except.error e => Except.error e
        | Except.ok (entry, p2) => parseLibSymbols env symFuel fuel p2 (registry ++ [entry])
    else Except.error (ParseError.structural "symbol" (NextTok p.lexer).pos)

/-- Modelled from the spec: the body of `ParseLib` after the header (not under
src/): all symbols are parsed into a registry, then every parent reference is
resolved against it, and the resolved symbols join the library map. Any failure
fails the whole call. -/
def parseLibBody {Item Field : Type} (env : SymbolSubParsers Item Field) (symFuel fuel : Nat)
    (p : SCH_SEXPR_PARSER) (aSymbolLibMap : List (LibSymbol Item Field)) :
    Except ParseError (SCH_SEXPR_PARSER × List (LibSymbol Item Field)) :=
  match parseLibSymbols env symFuel fuel p [] with
  | Except.error e => Except.error e
  | Except.ok (p1, registry) =>
    match resolveSymbols registry p1.lexer.pos registry with
    | Except.error e => Except.error e
    | Except.ok resolved => Except.ok (p1, aSymbolLibMap ++ resolved)

/-- Sub-parsers for examples: a draw item is a group holding only its keyword,
such as `(arc)`, and is kept as that keyword; a property is a group holding only
its name and is unnamed when the name is empty; every unit block is unit 1,
body style 1; the field-id counter restarts at 4. -/
def exampleSubParsers : SymbolSubParsers String (Int × String) where
  MANDATORY_FIELDS := 4
  parseProperty := fun fieldId lx =>
    match NeedSYMBOL lx with
    | Except.error e => Except.error e
    | Except.ok lx1 =>
      match NeedRIGHT lx1 with
      | Except.error e => Except.error e
      | Except.ok lx2 => Except.ok ((fieldId, lx1.cur.text), lx1.cur.text.isEmpty, lx2)
  unitOfName := fun _ => some (1, 1)
  ParseDrawItem := fun lx =>
    match NeedRIGHT lx with
    | Except.error e => Except.error e
    | Except.ok lx1 => Except.ok (lx.cur.text, lx1)

/-- The tokens of `(symbol "Child" (extends "Parent") (in_bom yes) (on_board yes))`
after the opening `(symbol`. -/
def childSymbolTokens : List Token :=
  [⟨TokKind.string, "Child"⟩,
    ⟨TokKind.left, "("⟩, ⟨TokKind.symbol, "extends"⟩, ⟨TokKind.string, "Parent"⟩,
    ⟨TokKind.right, ")"⟩,
    ⟨TokKind.left, "("⟩, ⟨TokKind.symbol, "in_bom"⟩, ⟨TokKind.symbol, "yes"⟩,
    ⟨TokKind.right, ")"⟩,
    ⟨TokKind.left, "("⟩, ⟨TokKind.symbol, "on_board"⟩, ⟨TokKind.symbol, "yes"⟩,
    ⟨TokKind.right, ")"⟩,
    ⟨TokKind.right, ")"⟩]

/-- The tokens of
`(symbol "Parent" (in_bom yes) (on_board yes) (symbol "Parent_1_1" (arc) (pin)))`
after the opening `(symbol`. -/
def parentSymbolTokens : List Token :=
  [⟨TokKind.string, "Parent"⟩,
    ⟨TokKind.left, "("⟩, ⟨TokKind.symbol, "in_bom"⟩, ⟨TokKind.symbol, "yes"⟩,
    ⟨TokKind.right, ")"⟩,
    ⟨TokKind.left, "("⟩, ⟨TokKind.symbol, "on_board"⟩, ⟨TokKind.symbol, "yes"⟩,
    ⟨TokKind.right, ")"⟩,
    ⟨TokKind.left, "("⟩, ⟨TokKind.symbol, "symbol"⟩, ⟨TokKind.string, "Parent_1_1"⟩,
    ⟨TokKind.left, "("⟩, ⟨TokKind.symbol, "arc"⟩, ⟨TokKind.right, ")"⟩,
    ⟨TokKind.left, "("⟩, ⟨TokKind.symbol, "pin"⟩, ⟨TokKind.right, ")"⟩,
    ⟨TokKind.right, ")"⟩,
    ⟨TokKind.right, ")"⟩]

/-- The tokens of
`(symbol "Other" (in_bom no) (on_board yes) (symbol "Other_1_1" (circle)))`
after the opening `(symbol`. -/
def otherSymbolTokens : List Token :=
  [⟨TokKind.string, "Other"⟩,
    ⟨TokKind.left, "("⟩, ⟨TokKind.symbol, "in_bom"⟩, ⟨TokKind.symbol, "no"⟩,
    ⟨TokKind.right, ")"⟩,
    ⟨TokKind.left, "("⟩, ⟨TokKind.symbol, "on_board"⟩, ⟨TokKind.symbol, "yes"⟩,
    ⟨TokKind.right, ")"⟩,
    ⟨TokKind.left, "("⟩, ⟨TokKind.symbol, "symbol"⟩, ⟨TokKind.string, "Other_1_1"⟩,
    ⟨TokKind.left, "("⟩, ⟨TokKind.symbol, "circle"⟩, ⟨TokKind.right, ")"⟩,
    ⟨TokKind.right, ")"⟩,
    ⟨TokKind.right, ")"⟩]

/-- The symbol groups of a library document, one after the other: each symbol
is given by its tokens after the opening `(symbol`, up to and including the `)`
that closes it. -/
def librarySymbolTokens : List (List Token) → List Token
  | [] => []
  | symbolTokens :: rest =>
    ⟨TokKind.left, "("⟩ :: ⟨TokKind.symbol, "symbol"⟩ ::
      (symbolTokens ++ librarySymbolTokens rest)

/-- The tokens of a symbol library of three symbols in which the symbol `Child`
extends the symbol `Parent` that is defined after it, and a symbol `Other`
follows. -/
def forwardReferenceLibrary : List Token :=
  documentTokens "kicad_symbol_lib" ⟨TokKind.number, "20200310"⟩ ⟨TokKind.symbol, "eeschema"⟩
    (librarySymbolTokens [childSymbolTokens, parentSymbolTokens, otherSymbolTokens]
      ++ [⟨TokKind.right, ")"⟩])


/-- The symbol that `childSymbolTokens` declares: `Child`, extending `Parent`,
with no draw item of its own. -/
def childEntry : SymbolEntry String (Int × String) :=
  ⟨"Child", some "Parent", false, true, true, [], []⟩

/-- The symbol that `parentSymbolTokens` declares: `Parent`, with an arc and a
pin in unit 1, body style 1. -/
def parentEntry : SymbolEntry String (Int × String) :=
  ⟨"Parent", none, false, true, true, [], [(1, 1, "arc"), (1, 1, "pin")]⟩

/-- The symbol that `otherSymbolTokens` declares: `Other`, with a circle in
unit 1, body style 1. -/
def otherEntry : SymbolEntry String (Int × String) :=
  ⟨"Other", none, false, false, true, [], [(1, 1, "circle")]⟩

/-! ## Schematic sub-parser -/

/-- Modelled from the spec: what a sub-sheet group of a schematic declares (the
schematic parser is not under src/): the name of the child sheet, its file
name, its position and size, and its ordered list of sheet pins. -/
structure SheetDecl (Pin : Type) where
  name : String
  fileName : String
  position : wxPoint
  size : wxPoint
  pins : List Pin

/-- Modelled from the spec: an item of a screen: a sub-sheet, with what its
group declared and the screen of the child sheet (`none` as long as the child
document is not loaded), or any other item. -/
inductive SchematicItem (Pin Other : Type) where
  | sheet (name fileName : String) (position size : wxPoint) (pins : List Pin)
      (screen : Option (List (SchematicItem Pin Other)))
  | other (content : Other)

/-- The parts of the schematic grammar whose token shape the spec does not
give, as parameters: the reader of a sub-sheet group and the sub-parser of every
other group; both are entered with the keyword of the group current and leave
the lexer on the `)` closing the group. -/
structure SchematicSubParsers (Pin Other : Type) where
  parseSheetGroup : Lexer → Except ParseError (SheetDecl Pin × Lexer)
  parseOther : Lexer → Except ParseError (Other × Lexer)

/-- Modelled from the spec: the member `parseSheet` (declared in the header, its
body is not under src/): sub-sheet parsing is purely structural; it records the
declared name, file name, geometry and pin list of the child sheet and does not
load the child document, so the new sheet has no screen. -/
def parseSheet {Pin Other : Type} (env : SchematicSubParsers Pin Other) (lx : Lexer) :
    Except ParseError (SchematicItem Pin Other × Lexer) :=
  match env.parseSheetGroup lx with
  | Except.error e => Except.error e
  | Except.ok (d, lx1) =>
    Except.ok (SchematicItem.sheet d.name d.fileName d.position d.size d.pins none, lx1)

/-- Modelled from the spec: the body of `ParseSchematic` after the header (not
under src/): the groups of the document up to the `)` closing it, each
dispatched on its leading keyword; the item a group yields is added to the
screen of the target sheet, given here by the list of its items. The loop runs
at most `fuel` times. -/
def parseSchematicItems {Pin Other : Type} (env : SchematicSubParsers Pin Other) :
    Nat → SCH_SEXPR_PARSER → List (SchematicItem Pin Other) →
      Except ParseError (SCH_SEXPR_PARSER × List (SchematicItem Pin Other))
  | 0, p, _ => Except.error (ParseError.structural ")" p.lexer.pos)
  | fuel + 1, p, items =>
    if (NextTok p.lexer).cur.kind = TokKind.right then
      Except.ok ({ p with lexer := NextTok p.lexer }, items)
    else if (NextTok p.lexer).cur.kind = TokKind.left then
      if (NextTok (NextTok p.lexer)).cur = ⟨TokKind.symbol, "sheet"⟩ then
        match parseSheet env (NextTok (NextTok p.lexer)) with
        | Except.error e => Except.error e
        | Except.ok (s, lx3) =>
          parseSchematicItems env fuel { p with lexer := lx3 } (items ++ [s])
      else
        match env.parseOther (NextTok (NextTok p.lexer)) with
        | Except.error e => Except.error e
        | Except.ok (x, lx3) =>
          parseSchematicItems env fuel { p with lexer := lx3 }
            (items ++ [SchematicItem.other x])
    else Except.error (ParseError.structural "(" (NextTok p.lexer).pos)

/-- Whether an item is a sub-sheet whose child screen is loaded. -/
def SchematicItem.hasScreen {Pin Other : Type} : SchematicItem Pin Other → Bool
  | SchematicItem.sheet _ _ _ _ _ (some _) => true
  | _ => false

/-- Sub-parsers for examples: a sub-sheet group is `(sheet NAME FILE PIN ...)`
with its pins given by name; any other group holds only its keyword and is kept
as that keyword. -/
def exampleSchematicSubParsers : SchematicSubParsers String String where
  parseSheetGroup := fun lx =>
    match NeedSYMBOL lx with
    | Except.error e => Except.error e
    | Except.ok lx1 =>
      match NeedSYMBOL lx1 with
      | Except.error e => Except.error e
      | Except.ok lx2 =>
        match skipToClose 0 lx2.rest with
        | none => Except.error (ParseError.structural ")" lx2.pos)
        | some (c, r, n) =>
          Except.ok (⟨lx1.cur.text, lx2.cur.text, ⟨0, 0⟩, ⟨0, 0⟩,
            (lx2.rest.take (n - 1)).map Token.text⟩, ⟨c, r, lx2.pos + n⟩)
  parseOther := fun lx =>
    match NeedRIGHT lx with
    | Except.error e => Except.error e
    | Except.ok lx1 => Except.ok (lx.cur.text, lx1)

/-- The tokens of the schematic
`(kicad_sch (version 20200310) (generator eeschema) (wire) (sheet "PSU" "psu.kicad_sch" "VIN" "VOUT"))`. -/
def schematicWithSubSheet : List Token :=
  documentTokens "kicad_sch" ⟨TokKind.number, "20200310"⟩ ⟨TokKind.symbol, "eeschema"⟩
    [⟨TokKind.left, "("⟩, ⟨TokKind.symbol, "wire"⟩, ⟨TokKind.right, ")"⟩,
      ⟨TokKind.left, "("⟩, ⟨TokKind.symbol, "sheet"⟩, ⟨TokKind.string, "PSU"⟩,
      ⟨TokKind.string, "psu.kicad_sch"⟩, ⟨TokKind.string, "VIN"⟩, ⟨TokKind.string, "VOUT"⟩,
      ⟨TokKind.right, ")"⟩,
      ⟨TokKind.right, ")"⟩]

/-! ## Working area and preview of the view (`sch_view.cpp`) -/

/-- The page settings of a screen as far as the embedded code reads them: the
values `GetWidthIU()` and `GetHeightIU()` return (`int`, page_info.h is not
under src/). -/
structure PAGE_INFO where
  GetWidthIU : Int
  GetHeightIU : Int
  deriving DecidableEq, Repr

/-- A schematic screen as far as the embedded code looks at it: the items it
holds (`Items()`, by address), its page settings (`GetPageSettings()`) and the
two public counters `m_ScreenNumber` and `m_NumberOfScreens`. -/
structure SCH_SCREEN where
  Items : List Nat
  GetPageSettings : PAGE_INFO
  m_ScreenNumber : Int
  m_NumberOfScreens : Int
  deriving DecidableEq, Repr

/-- The call `SetOrigin( x, y )` of `BOX2` (math/box2.h, not under src/): the
origin of the box is replaced. -/
def BOX2D.SetOrigin (b : BOX2D) (x y : ℚ) : BOX2D :=
  { b with m_Pos := ⟨x, y⟩ }

/-- The call `SetSize( w, h )` of `BOX2` (math/box2.h, not under src/): the
size of the box is replaced. -/
def BOX2D.SetSize (b : BOX2D) (w h : ℚ) : BOX2D :=
  { b with m_Size := ⟨w, h⟩ }

/-- The constructor `SCH_VIEW::SCH_VIEW`: the boundary is three times the
largest page size, a quarter of it lying before the origin; the view holds no
item, the preview group is new and nothing is owned. The value of
`Mils2iu( MAX_PAGE_SIZE_MILS )` (an `int`, defined outside src/) is a
parameter. -/
def SCH_VIEW.construct (Mils2iu_MAX_PAGE_SIZE_MILS : Int) : SCH_VIEW :=
  let max_size : ℚ := (Mils2iu_MAX_PAGE_SIZE_MILS : ℚ) * 3
  let m_boundary : BOX2D := ⟨⟨0, 0⟩, ⟨0, 0⟩⟩
  { m_allItems := [],
    m_boundary := (m_boundary.SetOrigin (-max_size / 4) (-max_size / 4)).SetSize max_size max_size,
    m_preview := [],
    m_ownedItems := [] }

/-- The member `SCH_VIEW::ResizeSheetWorkingArea( SCH_SCREEN* aScreen )`. -/
def ResizeSheetWorkingArea (v : SCH_VIEW) (aScreen : SCH_SCREEN) : SCH_VIEW :=
  let max_size_x : ℚ := (aScreen.GetPageSettings.GetWidthIU : ℚ) * 3
  let max_size_y : ℚ := (aScreen.GetPageSettings.GetHeightIU : ℚ) * 3
  { v with
    m_boundary :=
      (v.m_boundary.SetOrigin (-max_size_x / 4) (-max_size_y / 4)).SetSize max_size_x max_size_y }

/-- The member `SCH_VIEW::DisplaySheet( SCH_SCREEN* aScreen )`: the items of the
screen are added, a new worksheet proxy is made, the working area is resized,
the selection area and the preview group are replaced by new ones, and the
three are added to the view. The settings written into the worksheet proxy
(number, count, file and sheet name) belong to a class outside src/ and are not
part of this state; `m_ownedItems` is not touched. -/
def DisplaySheet (v : SCH_VIEW) (aScreen : SCH_SCREEN) : SCH_VIEW :=
  let v1 := aScreen.Items.foldl (fun acc item => acc.Add (VIEW_ITEM.item item)) v
  let v2 := ResizeSheetWorkingArea v1 aScreen
  let v3 := { v2 with m_preview := [] }
  ((v3.Add VIEW_ITEM.worksheet).Add VIEW_ITEM.selectionArea).Add VIEW_ITEM.preview

/-- The member `SCH_VIEW::ClearPreview()`: the preview group is emptied, the
owned items are deleted and the list of owned items is cleared. (`Update` only
marks the group for redrawing.) -/
def ClearPreview (v : SCH_VIEW) : SCH_VIEW :=
  let v1 := { v with m_preview := [] }
  { v1 with m_ownedItems := [] }

/-- The member `SCH_VIEW::AddToPreview( EDA_ITEM* aItem, bool aTakeOwnership )`:
the item is added to the preview group and, when ownership is taken, to the
list of owned items. (`Hide`, `SetVisible` and `Update` of the base class
change visibility and redraw flags only.) -/
def AddToPreview (v : SCH_VIEW) (aItem : Nat) (aTakeOwnership : Bool) : SCH_VIEW :=
  let v1 := { v with m_preview := v.m_preview ++ [aItem] }
  if aTakeOwnership then { v1 with m_ownedItems := v1.m_ownedItems ++ [aItem] } else v1

/-- Every item the view owns is a member of the current preview group. -/
def OwnedInPreview (v : SCH_VIEW) : Prop :=
  ∀ a ∈ v.m_ownedItems, a ∈ v.m_preview

/-- Whether the owned items all lie in the preview group can be computed. -/
instance OwnedInPreview.decidable (v : SCH_VIEW) : Decidable (OwnedInPreview v) := by
  unfold OwnedInPreview
  infer_instance

/-- A screen with two items on a page of 11693 by 8268 internal units. -/
def exampleScreen : SCH_SCREEN := ⟨[31, 32], ⟨11693, 8268⟩, 1, 1⟩

/-! ## Sheet paths and sheet numbering (`sch_edit_frame.cpp`) -/

/-- A sheet of the hierarchy as far as the embedded code reads it: its
identifier (`m_Uuid`, a `KIID`), its name (`GetName()`), its file name
(`GetFileName()`) and the screen it shows (`GetScreen()`, an address, `none`
for a null pointer). -/
structure SCH_SHEET where
  m_Uuid : Nat
  GetName : String
  GetFileName : String
  GetScreen : Option Nat
  deriving DecidableEq, Repr

/-- A sheet path: the sheets from the root down to a sheet, and the page number
kept with the path. -/
structure SCH_SHEET_PATH where
  m_sheets : List SCH_SHEET
  m_pageNumber : Int
  deriving DecidableEq, Repr

/-- The call `Path()` (sch_sheet_path.h, not under src/): the identifiers of
the sheets of the path, in order. -/
def SCH_SHEET_PATH.Path (p : SCH_SHEET_PATH) : List Nat :=
  p.m_sheets.map SCH_SHEET.m_Uuid

/-- The call `LastScreen()` (not under src/): the screen of the last sheet of
the path, a null pointer when the path is empty. -/
def SCH_SHEET_PATH.LastScreen (p : SCH_SHEET_PATH) : Option Nat :=
  match p.m_sheets.getLast? with
  | none => none
  | some sheet => sheet.GetScreen

/-- The call `SetPageNumber( n )` (not under src/). -/
def SCH_SHEET_PATH.SetPageNumber (p : SCH_SHEET_PATH) (aPageNumber : Int) : SCH_SHEET_PATH :=
  { p with m_pageNumber := aPageNumber }

/-- The schematic the frame edits, as far as the embedded members use it: the
current sheet path (`CurrentSheet()`), the list of all sheet paths
(`GetSheets()`), the value of `Root().CountSheets()`, the screens that
`SCH_SCREENS s_list( Root() )` walks (by address) and the screen objects
themselves. The hierarchy walks that produce the three middle values are not
under src/. -/
structure SCHEMATIC where
  CurrentSheet : SCH_SHEET_PATH
  GetSheets : List SCH_SHEET_PATH
  CountSheets : Int
  s_list : List Nat
  screens : Nat → SCH_SCREEN

/-- The search loop of `SetSheetNumberAndCount`: the sheet number is increased
(an `int` increment) for every sheet path met before the first one equal to the
current path. -/
def countToCurrentSheet (current_sheetpath : List Nat) :
    List SCH_SHEET_PATH → Int → Int
  | [], sheet_number => sheet_number
  | sheet :: rest, sheet_number =>
    if sheet.Path = current_sheetpath then sheet_number
    else countToCurrentSheet current_sheetpath rest (toInt32 (sheet_number + 1))

/-- The loop of `SetSheetNumberAndCount` over `s_list`: every screen of the
list gets the sheet count. -/
def setNumberOfScreens (sheet_count : Int) (s_list : List Nat) (screens : Nat → SCH_SCREEN) :
    Nat → SCH_SCREEN :=
  s_list.foldl
    (fun m screen => Function.update m screen { m screen with m_NumberOfScreens := sheet_count })
    screens

/-- The member `SCH_EDIT_FRAME::SetSheetNumberAndCount()`. The result is `none`
when `GetScreen()` yields a null pointer, which the final assignment
dereferences. -/
def SetSheetNumberAndCount (s : SCHEMATIC) : Option SCHEMATIC :=
  let sheet_count := s.CountSheets
  let current_sheetpath := s.CurrentSheet.Path
  let sheet_number := countToCurrentSheet current_sheetpath s.GetSheets 1
  let s1 := { s with CurrentSheet := s.CurrentSheet.SetPageNumber sheet_number }
  let s2 := { s1 with screens := setNumberOfScreens sheet_count s1.s_list s1.screens }
  match s2.CurrentSheet.LastScreen with
  | none => none
  | some screen =>
    some { s2 with
      screens := Function.update s2.screens screen
        { s2.screens screen with m_ScreenNumber := sheet_number } }

/-- The number of sheet paths of the sheet list that precede the first path
equal to the current sheet path (all of them when none is equal). -/
def sheetsBeforeCurrent (s : SCHEMATIC) : Nat :=
  (s.GetSheets.takeWhile (fun sheet => decide (sheet.Path ≠ s.CurrentSheet.Path))).length

/-- The member `SCH_EDIT_FRAME::GetUniqueFilenameForCurrentSheet()`. The name
part of a file name (`wxFileName::GetName()`, a library call) is a parameter.
The loop over the indices `1 … size() - 1` visits the sheets after the first,
in order. The result is `none` when the path is empty, where `at( 0 )`
throws. -/
def GetUniqueFilenameForCurrentSheet (wxFileName_GetName : String → String) (s : SCHEMATIC) :
    Option String :=
  match s.CurrentSheet.m_sheets with
  | [] => none
  | root :: _ =>
    let filename := wxFileName_GetName root.GetFileName
    some ((s.CurrentSheet.m_sheets.drop 1).foldl
      (fun filename sheet => filename ++ ("-" ++ sheet.GetName)) filename)

/-- The text that follows the base name in the file name of a sheet path: for
each further sheet, in order, a "-" and the name of the sheet. -/
def sheetNameSuffix : List String → String
  | [] => ""
  | name :: names => "-" ++ name ++ sheetNameSuffix names

/-- The name part of a file name for the examples: the text before the first
dot (the example names hold no directory). -/
def exampleGetName (fileName : String) : String :=
  String.mk (fileName.toList.takeWhile (fun c => c != '.'))

/-- The root sheet of the examples, shown on screen 100. -/
def exampleRootSheet : SCH_SHEET := ⟨1, "5ef0a1", "amplifier.kicad_sch", some 100⟩

/-- A sub-sheet of the examples, shown on screen 101. -/
def examplePowerSheet : SCH_SHEET := ⟨2, "power", "power.kicad_sch", some 101⟩

/-- A sub-sheet of the power sheet, shown on screen 102. -/
def exampleFilterSheet : SCH_SHEET := ⟨3, "filter", "filter.kicad_sch", some 102⟩

/-- A schematic of three sheets whose current sheet is the second of the list. -/
def exampleSchematic : SCHEMATIC where
  CurrentSheet := ⟨[exampleRootSheet, examplePowerSheet], 0⟩
  GetSheets :=
    [⟨[exampleRootSheet], 0⟩, ⟨[exampleRootSheet, examplePowerSheet], 0⟩,
      ⟨[exampleRootSheet, examplePowerSheet, exampleFilterSheet], 0⟩]
  CountSheets := 3
  s_list := [100, 101, 102]
  screens := fun _ => ⟨[], ⟨11693, 8268⟩, 0, 0⟩

/-- A newly constructed view (the largest page size taken as 120000 internal
units). -/
def exampleView : SCH_VIEW := SCH_VIEW.construct 120000

/-! ## Binary64 arithmetic of `parseInternalUnits`

The values of a `double` are the rationals that `toBinary64` leaves unchanged.
Every arithmetic operation of the source is followed by `toBinary64`. -/

/-- Rounding of a rational to an integer, to nearest, a tie going to the even
integer: the rounding of IEEE 754 binary arithmetic. -/
def roundHalfEven (q : ℚ) : Int :=
  let f : Int := ⌊q⌋
  if q - f < 1 / 2 then f
  else if 1 / 2 < q - f then f + 1
  else if f % 2 = 0 then f else f + 1

/-- The exponent of the binade of binary64 in which a value lies: the integer
`e` with `2 ^ e ≤ |x| < 2 ^ (e + 1)`, and `-1022` for the values below the
normal range (the subnormal values and zero). -/
def binary64Exponent (x : ℚ) : Int :=
  if x = 0 then -1022 else max (Int.log 2 |x|) (-1022)

/-- The largest finite `double`. -/
def DBL_MAX : ℚ := (2 ^ 53 - 1) * 2 ^ 971

/-- The `double` (IEEE 754 binary64) nearest to a rational, ties to even: a
multiple of `2 ^ (e - 52)` where `e` is the exponent of the value, so that the
significand has 53 bits. A result beyond `DBL_MAX` is an infinity in binary64;
it is kept here as `±DBL_MAX`, which lies beyond the clamp limit like the
infinity does, so that what `parseInternalUnits` returns is the same. -/
def toBinary64 (x : ℚ) : ℚ :=
  let u : ℚ := (2 : ℚ) ^ (binary64Exponent x - 52)
  let r : ℚ := (roundHalfEven (x / u) : ℚ) * u
  if DBL_MAX < r then DBL_MAX
  else if r < -DBL_MAX then -DBL_MAX
  else r

/-- Modelled from the spec: `parseDouble()` in `double` arithmetic: the
`double` nearest to the decimal literal of the current token. -/
def parseDouble_binary64 (lx : Lexer) : Except ParseError ℚ :=
  match parseDouble lx with
  | Except.error e => Except.error e
  | Except.ok d => Except.ok (toBinary64 d)

/-- The local `int_limit` of `parseInternalUnits` in `double` arithmetic: the
product of `INT_MAX` and the `double` nearest to 0.7071, rounded. -/
def int_limit_binary64 : ℚ :=
  toBinary64 ((INT_MAX : ℚ) * toBinary64 (7071 / 10000))

/-- Modelled from the spec: the overflow test of `KiROUND` in `double`
arithmetic: the sum of the value and the half is rounded to a `double` before
it is compared. -/
def KiROUND_overflow_binary64 (v : ℚ) : Bool :=
  let ret : ℚ := if v < 0 then toBinary64 (v - 1 / 2) else toBinary64 (v + 1 / 2)
  decide ((INT_MAX : ℚ) < ret) || decide ((INT_MIN : ℚ) > ret)

/-- Modelled from the spec: `KiROUND` in `double` arithmetic: half a unit is
added to the magnitude, the sum is rounded to a `double`, and the fraction of
that is dropped. -/
def KiROUND_binary64 (v : ℚ) : Int :=
  let ret : ℚ := if v < 0 then toBinary64 (v - 1 / 2) else toBinary64 (v + 1 / 2)
  if KiROUND_overflow_binary64 v then 0 else truncToInt ret

/-- The member `parseInternalUnits()` in `double` arithmetic: every operation
on a `double` yields the `double` nearest to the exact result. The comparisons
of `Clamp` and the conversion to an integer are exact. -/
def parseInternalUnits_binary64 (IU_PER_MM : ℚ) (lx : Lexer) : Except ParseError Int :=
  match parseDouble_binary64 lx with
  | Except.error e => Except.error e
  | Except.ok d =>
    let retval := toBinary64 (d * IU_PER_MM)
    Except.ok (KiROUND_binary64 (Clamp (-int_limit_binary64) retval int_limit_binary64))

/-! ## Lemmas on clamping and rounding -/

theorem int_limit_val : int_limit = 15184856867937 / 10000 := by
  norm_num [int_limit, INT_MAX]

theorem int_limit_pos : 0 < int_limit := by
  rw [int_limit_val]; norm_num

theorem Clamp_lower_le (l v u : ℚ) (h : l ≤ u) : l ≤ Clamp l v u := by
  unfold Clamp
  split_ifs with h1 h2
  · exact le_refl _
  · exact h
  · exact not_lt.mp h1

theorem Clamp_le_upper (l v u : ℚ) (h : l ≤ u) : Clamp l v u ≤ u := by
  unfold Clamp
  split_ifs with h1 h2
  · exact h
  · exact le_refl _
  · exact not_lt.mp h2

theorem Clamp_abs_le (v : ℚ) : |Clamp (-int_limit) v int_limit| ≤ int_limit := by
  have hp := int_limit_pos
  rw [abs_le]
  exact ⟨Clamp_lower_le _ _ _ (by linarith), Clamp_le_upper _ _ _ (by linarith)⟩

theorem KiROUND_overflow_of_abs_le (c : ℚ) (h : |c| ≤ int_limit) :
    KiROUND_overflow c = false := by
  rw [int_limit_val, abs_le] at h
  obtain ⟨h1, h2⟩ := h
  unfold KiROUND_overflow
  simp only [INT_MAX, INT_MIN, Bool.or_eq_false_iff, decide_eq_false_iff_not, not_lt, gt_iff_lt]
  split_ifs with hc
  · constructor <;> push_cast <;> linarith
  · constructor <;> push_cast <;> linarith

theorem truncToInt_add_half (c : ℚ) (hc : ¬ c < 0) :
    |((truncToInt (c + 1 / 2) : Int) : ℚ) - c| ≤ 1 / 2 := by
  have h0 : ¬ (c + 1 / 2 < 0) := by linarith [not_lt.mp hc]
  unfold truncToInt
  rw [if_neg h0, abs_le]
  have h1 := Int.floor_le (c + 1 / 2)
  have h2 := Int.lt_floor_add_one (c + 1 / 2)
  constructor <;> linarith

theorem truncToInt_sub_half (c : ℚ) (hc : c < 0) :
    |((truncToInt (c - 1 / 2) : Int) : ℚ) - c| ≤ 1 / 2 := by
  have h0 : c - 1 / 2 < 0 := by linarith
  unfold truncToInt
  rw [if_pos h0, abs_le]
  have h1 := Int.floor_le (-(c - 1 / 2))
  have h2 := Int.lt_floor_add_one (-(c - 1 / 2))
  push_cast
  constructor <;> linarith

theorem KiROUND_sub_abs_le (c : ℚ) (h : KiROUND_overflow c = false) :
    |((KiROUND c : Int) : ℚ) - c| ≤ 1 / 2 := by
  unfold KiROUND
  rw [h]
  simp only [Bool.false_eq_true, if_false]
  split_ifs with hc
  · exact truncToInt_sub_half c hc
  · exact truncToInt_add_half c hc

theorem KiROUND_int_limit : KiROUND int_limit = 1518485687 := by
  rw [int_limit_val]
  norm_num [KiROUND, KiROUND_overflow, truncToInt, INT_MAX, INT_MIN]

theorem KiROUND_neg_int_limit : KiROUND (-int_limit) = -1518485687 := by
  rw [int_limit_val]
  norm_num [KiROUND, KiROUND_overflow, truncToInt, INT_MAX, INT_MIN]

theorem KiROUND_abs_le (c : ℚ) (h : |c| ≤ int_limit) :
    -1518485687 ≤ KiROUND c ∧ KiROUND c ≤ 1518485687 := by
  have h1 := KiROUND_sub_abs_le c (KiROUND_overflow_of_abs_le c h)
  rw [int_limit_val, abs_le] at h
  rw [abs_le] at h1
  obtain ⟨ha, hb⟩ := h
  obtain ⟨hc, hd⟩ := h1
  constructor
  · have : (-1518485688 : ℚ) < ((KiROUND c : Int) : ℚ) := by linarith
    have h2 : (-1518485688 : Int) < KiROUND c := by exact_mod_cast this
    omega
  · have : ((KiROUND c : Int) : ℚ) < (1518485688 : ℚ) := by linarith
    have h2 : KiROUND c < (1518485688 : Int) := by exact_mod_cast this
    omega

theorem parseInternalUnits_of_parseDouble (IU_PER_MM : ℚ) (lx : Lexer) (v : ℚ)
    (hv : parseDouble lx = Except.ok v) :
    parseInternalUnits IU_PER_MM lx
      = Except.ok (KiROUND (Clamp (-int_limit) (v * IU_PER_MM) int_limit)) := by
  unfold parseInternalUnits
  rw [hv]

theorem parseInternalUnits_ok_inv (IU_PER_MM : ℚ) (lx : Lexer) (n : Int)
    (h : parseInternalUnits IU_PER_MM lx = Except.ok n) :
    ∃ v, parseDouble lx = Except.ok v
      ∧ n = KiROUND (Clamp (-int_limit) (v * IU_PER_MM) int_limit) := by
  unfold parseInternalUnits at h
  cases hd : parseDouble lx with
  | error e => rw [hd] at h; cases h
  | ok d =>
    rw [hd] at h
    injection h with h
    exact ⟨d, rfl, h.symm⟩

theorem parseInternalUnits_range (IU_PER_MM : ℚ) (lx : Lexer) (n : Int)
    (h : parseInternalUnits IU_PER_MM lx = Except.ok n) :
    -1518485687 ≤ n ∧ n ≤ 1518485687 := by
  obtain ⟨v, _, hn⟩ := parseInternalUnits_ok_inv IU_PER_MM lx n h
  rw [hn]
  exact KiROUND_abs_le _ (Clamp_abs_le _)

theorem decimalParts_200000 : decimalParts "200000" = some ⟨false, 200000, 0, 0⟩ := by
  decide

theorem decimalLiteral_200000 : decimalLiteral "200000" = some 200000 := by
  simp [decimalLiteral, decimalParts_200000, DecimalParts.value]

theorem parseDouble_lexerAtNumber_200000 :
    parseDouble (lexerAtNumber "200000") = Except.ok 200000 := by
  simp [parseDouble, CurText, lexerAtNumber, decimalLiteral_200000]

theorem sqrt_two_lt : Real.sqrt 2 < 141422 / 100000 := by
  rw [Real.sqrt_lt' (by norm_num)]
  norm_num

theorem lt_sqrt_two : (141421 : ℝ) / 100000 < Real.sqrt 2 := by
  rw [Real.lt_sqrt (by norm_num)]
  norm_num

theorem int_limit_lt_sqrt : ((int_limit : ℚ) : ℝ) + 1 < (INT_MAX : ℝ) * (1 / Real.sqrt 2) := by
  have h2 := sqrt_two_lt
  have hpos : (0 : ℝ) < Real.sqrt 2 := Real.sqrt_pos.mpr (by norm_num)
  rw [int_limit_val, mul_one_div, lt_div_iff₀ hpos]
  have hI : ((INT_MAX : Int) : ℝ) = 2147483647 := by norm_num [INT_MAX]
  rw [hI]
  push_cast
  nlinarith

/-- C1 (as amended): for every millimetre value `v` whose scaled value
`v * IU_PER_MM` exceeds `INT32_MAX * 0.7071` in magnitude, `parseInternalUnits`
does not fail, does not take the overflow branch of the rounding, and returns
1518485687 with the sign of `v`, the integer nearest to `INT32_MAX * 0.7071`. -/
theorem parseInternalUnits_clamps_out_of_range (IU_PER_MM : ℚ) (lx : Lexer) (v : ℚ)
    (hIU : 0 < IU_PER_MM) (hv : parseDouble lx = Except.ok v)
    (hbig : int_limit < |v * IU_PER_MM|) :
    parseInternalUnits IU_PER_MM lx
        = Except.ok (if 0 < v then 1518485687 else -1518485687)
      ∧ KiROUND_overflow (Clamp (-int_limit) (v * IU_PER_MM) int_limit) = false
      ∧ |((1518485687 : Int) : ℚ) - int_limit| ≤ 1 / 2 := by
  have hp := int_limit_pos
  refine ⟨?_, KiROUND_overflow_of_abs_le _ (Clamp_abs_le _), ?_⟩
  · rw [parseInternalUnits_of_parseDouble IU_PER_MM lx v hv]
    by_cases hpos : 0 < v
    · have hs : 0 < v * IU_PER_MM := mul_pos hpos hIU
      rw [abs_of_pos hs] at hbig
      have hc : Clamp (-int_limit) (v * IU_PER_MM) int_limit = int_limit := by
        unfold Clamp
        rw [if_neg (by linarith), if_pos hbig]
      rw [hc, KiROUND_int_limit, if_pos hpos]
    · have hs : v * IU_PER_MM ≤ 0 :=
        mul_nonpos_of_nonpos_of_nonneg (not_lt.mp hpos) hIU.le
      rw [abs_of_nonpos hs] at hbig
      have hc : Clamp (-int_limit) (v * IU_PER_MM) int_limit = -int_limit := by
        unfold Clamp
        rw [if_pos (by linarith)]
      rw [hc, KiROUND_neg_int_limit, if_neg hpos]
  · rw [int_limit_val, abs_le]
    constructor <;> norm_num

theorem parseInternalUnits_clamps_out_of_range_witness :
    (0 : ℚ) < 10000
      ∧ parseDouble (lexerAtNumber "200000") = Except.ok 200000
      ∧ int_limit < |(200000 : ℚ) * 10000|
      ∧ parseInternalUnits 10000 (lexerAtNumber "200000") = Except.ok 1518485687 :=
  ⟨by norm_num, parseDouble_lexerAtNumber_200000,
    by rw [int_limit_val]; norm_num,
    by
      have h := (parseInternalUnits_clamps_out_of_range 10000 (lexerAtNumber "200000") 200000
        (by norm_num) parseDouble_lexerAtNumber_200000
        (by rw [int_limit_val]; norm_num)).1
      simpa using h⟩

/-- C1 (as stated) fails: with 10000 units per millimetre the value 200000
scales beyond `INT32_MAX / sqrt 2`, and the result 1518485687 is further than
one half from `INT32_MAX / sqrt 2`, so it is not the integer nearest to it. -/
theorem parseInternalUnits_not_nearest_to_sqrt_bound :
    parseDouble (lexerAtNumber "200000") = Except.ok 200000
      ∧ (INT_MAX : ℝ) * (1 / Real.sqrt 2) < |((200000 : ℚ) : ℝ) * 10000|
      ∧ parseInternalUnits 10000 (lexerAtNumber "200000") = Except.ok 1518485687
      ∧ ¬ |((1518485687 : Int) : ℝ) - (INT_MAX : ℝ) * (1 / Real.sqrt 2)| ≤ 1 / 2 := by
  have hlt := int_limit_lt_sqrt
  rw [int_limit_val] at hlt
  have hI : ((INT_MAX : Int) : ℝ) = 2147483647 := by norm_num [INT_MAX]
  have hgt := lt_sqrt_two
  have hpos : (0 : ℝ) < Real.sqrt 2 := Real.sqrt_pos.mpr (by norm_num)
  refine ⟨parseDouble_lexerAtNumber_200000, ?_, ?_, ?_⟩
  · rw [hI, mul_one_div, div_lt_iff₀ hpos]
    norm_num
    nlinarith
  · rw [parseInternalUnits_of_parseDouble 10000 _ 200000 parseDouble_lexerAtNumber_200000]
    have hc : Clamp (-int_limit) ((200000 : ℚ) * 10000) int_limit = int_limit := by
      rw [int_limit_val]
      norm_num [Clamp]
    rw [hc, KiROUND_int_limit]
  · intro h
    rw [abs_le] at h
    push_cast at hlt h
    linarith [h.1]

/-- C2: round trip. For every millimetre value `v` whose scaled value lies
inside the clamp range, `parseInternalUnits` returns an integer within one
internal unit of `v * IU_PER_MM`; divided by the scale it is within one internal
unit (`1 / IU_PER_MM` millimetres) of `v`. -/
theorem parseInternalUnits_round_trip (IU_PER_MM : ℚ) (lx : Lexer) (v : ℚ)
    (hIU : 0 < IU_PER_MM) (hv : parseDouble lx = Except.ok v)
    (hin : |v * IU_PER_MM| ≤ int_limit) :
    ∃ n : Int, parseInternalUnits IU_PER_MM lx = Except.ok n
      ∧ |(n : ℚ) - v * IU_PER_MM| ≤ 1
      ∧ |(n : ℚ) / IU_PER_MM - v| ≤ 1 / IU_PER_MM := by
  have hc : Clamp (-int_limit) (v * IU_PER_MM) int_limit = v * IU_PER_MM := by
    rw [abs_le] at hin
    unfold Clamp
    rw [if_neg (not_lt.mpr hin.1), if_neg (not_lt.mpr hin.2)]
  have hr := KiROUND_sub_abs_le (v * IU_PER_MM) (KiROUND_overflow_of_abs_le _ hin)
  have h1 : |((KiROUND (v * IU_PER_MM) : Int) : ℚ) - v * IU_PER_MM| ≤ 1 :=
    le_trans hr (by norm_num)
  refine ⟨KiROUND (v * IU_PER_MM), ?_, h1, ?_⟩
  · rw [parseInternalUnits_of_parseDouble IU_PER_MM lx v hv, hc]
  · have he : ((KiROUND (v * IU_PER_MM) : Int) : ℚ) / IU_PER_MM - v
        = (((KiROUND (v * IU_PER_MM) : Int) : ℚ) - v * IU_PER_MM) / IU_PER_MM := by
      field_simp
      ring
    rw [he, abs_div, abs_of_pos hIU]
    exact div_le_div_of_nonneg_right h1 hIU.le

theorem decimalParts_2p54 : decimalParts "2.54" = some ⟨false, 2, 54, 2⟩ := by
  decide

theorem parseDouble_lexerAtNumber_2p54 :
    parseDouble (lexerAtNumber "2.54") = Except.ok (127 / 50) := by
  simp [parseDouble, CurText, lexerAtNumber, decimalLiteral, decimalParts_2p54,
    DecimalParts.value]
  norm_num

theorem parseInternalUnits_round_trip_witness :
    (0 : ℚ) < 10000
      ∧ parseDouble (lexerAtNumber "2.54") = Except.ok (127 / 50)
      ∧ |(127 / 50 : ℚ) * 10000| ≤ int_limit
      ∧ ∃ n : Int, parseInternalUnits 10000 (lexerAtNumber "2.54") = Except.ok n
          ∧ |(n : ℚ) - 127 / 50 * 10000| ≤ 1
          ∧ |(n : ℚ) / 10000 - 127 / 50| ≤ 1 / 10000 :=
  ⟨by norm_num, parseDouble_lexerAtNumber_2p54,
    by rw [int_limit_val]; norm_num [abs_of_pos],
    parseInternalUnits_round_trip 10000 (lexerAtNumber "2.54") (127 / 50) (by norm_num)
      parseDouble_lexerAtNumber_2p54 (by rw [int_limit_val]; norm_num [abs_of_pos])⟩

theorem abs_sub_le_of_near (n m : Int) (c : ℚ) (h : |(n : ℚ) - c| ≤ 1 / 2) :
    |(n : ℚ) - c| ≤ |(m : ℚ) - c| := by
  by_cases hnm : m = n
  · rw [hnm]
  · have h1 : (1 : ℚ) ≤ |(m : ℚ) - n| := by
      have : (1 : Int) ≤ |m - n| := Int.one_le_abs (sub_ne_zero.mpr hnm)
      exact_mod_cast this
    have h2 : |(m : ℚ) - n| ≤ |(m : ℚ) - c| + |(n : ℚ) - c| := by
      have := abs_sub_le (m : ℚ) c n
      rwa [abs_sub_comm c (n : ℚ)] at this
    linarith

/-! ## Rounding in binary64 -/

theorem roundHalfEven_sub_abs_le (q : ℚ) : |((roundHalfEven q : Int) : ℚ) - q| ≤ 1 / 2 := by
  have h1 := Int.floor_le q
  have h2 := Int.lt_floor_add_one q
  unfold roundHalfEven
  simp only []
  rw [abs_le]
  split_ifs with ha hb hc
  · constructor <;> linarith
  · push_cast
    constructor <;> linarith
  · have : q - (⌊q⌋ : ℚ) = 1 / 2 := le_antisymm (not_lt.mp hb) (not_lt.mp ha)
    constructor <;> linarith
  · have : q - (⌊q⌋ : ℚ) = 1 / 2 := le_antisymm (not_lt.mp hb) (not_lt.mp ha)
    push_cast
    constructor <;> linarith

theorem roundHalfEven_nonneg (q : ℚ) (h : 0 ≤ q) : 0 ≤ roundHalfEven q := by
  have h1 : 0 ≤ ⌊q⌋ := Int.floor_nonneg.mpr h
  unfold roundHalfEven
  simp only []
  split_ifs <;> omega

theorem roundHalfEven_nonpos (q : ℚ) (h : q ≤ 0) : roundHalfEven q ≤ 0 := by
  have h1 := Int.floor_le q
  have h2 : ⌊q⌋ ≤ 0 := by
    have : (⌊q⌋ : ℚ) ≤ 0 := le_trans h1 h
    exact_mod_cast this
  unfold roundHalfEven
  simp only []
  split_ifs with ha hb hc
  · exact h2
  · have h4 : (⌊q⌋ : ℚ) < 0 := by linarith
    have h5 : ⌊q⌋ < 0 := by exact_mod_cast h4
    omega
  · exact h2
  · have h4 : (⌊q⌋ : ℚ) < 0 := by linarith [not_lt.mp ha]
    have h5 : ⌊q⌋ < 0 := by exact_mod_cast h4
    omega

theorem binary64Exponent_eq (x : ℚ) (e : Int) (h1 : (2 : ℚ) ^ e ≤ |x|)
    (h2 : |x| < (2 : ℚ) ^ (e + 1)) (he : -1022 ≤ e) : binary64Exponent x = e := by
  have hpos : 0 < |x| := lt_of_lt_of_le (zpow_pos (by norm_num) e) h1
  have ha : e ≤ Int.log 2 |x| := by
    rw [← Int.zpow_le_iff_le_log (by norm_num) hpos]
    exact_mod_cast h1
  have hb : Int.log 2 |x| < e + 1 := by
    rw [← Int.lt_zpow_iff_log_lt (by norm_num) hpos]
    exact_mod_cast h2
  have hx0 : x ≠ 0 := abs_pos.mp hpos
  unfold binary64Exponent
  rw [if_neg hx0]
  omega

theorem binary64Exponent_le (x : ℚ) (hx : |x| < 2 ^ 31) : binary64Exponent x ≤ 30 := by
  unfold binary64Exponent
  split_ifs with h0
  · norm_num
  · have hlog : Int.log 2 |x| < 31 := by
      rw [← Int.lt_zpow_iff_log_lt (by norm_num) (abs_pos.mpr h0)]
      exact_mod_cast hx
    omega

theorem DBL_MAX_large : (2 : ℚ) ^ 32 ≤ DBL_MAX := by
  norm_num [DBL_MAX]

theorem toBinary64_of_binade (x : ℚ) (e m : Int) (h1 : (2 : ℚ) ^ e ≤ |x|)
    (h2 : |x| < (2 : ℚ) ^ (e + 1)) (he : -1022 ≤ e)
    (hm : roundHalfEven (x / (2 : ℚ) ^ (e - 52)) = m)
    (hhi : (m : ℚ) * (2 : ℚ) ^ (e - 52) ≤ DBL_MAX)
    (hlo : -DBL_MAX ≤ (m : ℚ) * (2 : ℚ) ^ (e - 52)) :
    toBinary64 x = (m : ℚ) * (2 : ℚ) ^ (e - 52) := by
  unfold toBinary64
  simp only [binary64Exponent_eq x e h1 h2 he, hm]
  rw [if_neg (not_lt.mpr hhi), if_neg (not_lt.mpr hlo)]

theorem roundHalfEven_mul_sub_abs_le (x u : ℚ) (hu0 : 0 < u) :
    |(roundHalfEven (x / u) : ℚ) * u - x| ≤ u / 2 := by
  have hr := roundHalfEven_sub_abs_le (x / u)
  have hx2 : x = x / u * u := by field_simp
  have : (roundHalfEven (x / u) : ℚ) * u - x = ((roundHalfEven (x / u) : ℚ) - x / u) * u := by
    rw [sub_mul, ← hx2]
  rw [this, abs_mul, abs_of_pos hu0]
  calc |(roundHalfEven (x / u) : ℚ) - x / u| * u ≤ 1 / 2 * u :=
        mul_le_mul_of_nonneg_right hr (le_of_lt hu0)
    _ = u / 2 := by ring

theorem toBinary64_eq_of_lt (x : ℚ) (hx : |x| < 2 ^ 31) :
    toBinary64 x
        = (roundHalfEven (x / (2 : ℚ) ^ (binary64Exponent x - 52)) : ℚ)
            * (2 : ℚ) ^ (binary64Exponent x - 52)
      ∧ |toBinary64 x - x| ≤ (2 : ℚ) ^ (binary64Exponent x - 52) / 2
      ∧ (2 : ℚ) ^ (binary64Exponent x - 52) ≤ 1 / 2 ^ 22 := by
  have hE := binary64Exponent_le x hx
  have hu0 : (0 : ℚ) < (2 : ℚ) ^ (binary64Exponent x - 52) := zpow_pos (by norm_num) _
  have hu1 : (2 : ℚ) ^ (binary64Exponent x - 52) ≤ (2 : ℚ) ^ (-22 : Int) :=
    zpow_le_zpow_right₀ (by norm_num) (by omega)
  have hu2 : (2 : ℚ) ^ (-22 : Int) = 1 / 2 ^ 22 := by norm_num
  rw [hu2] at hu1
  have herr := roundHalfEven_mul_sub_abs_le x _ hu0
  have hbig := DBL_MAX_large
  have hr2 := abs_le.mp herr
  have hx3 := abs_lt.mp hx
  have h22 : (1 : ℚ) / 2 ^ 22 + 2 ^ 31 ≤ 2 ^ 32 := by norm_num
  have hsat1 : ¬ DBL_MAX < (roundHalfEven (x / (2 : ℚ) ^ (binary64Exponent x - 52)) : ℚ)
      * (2 : ℚ) ^ (binary64Exponent x - 52) := by
    linarith [hr2.2, hx3.2]
  have hsat2 : ¬ (roundHalfEven (x / (2 : ℚ) ^ (binary64Exponent x - 52)) : ℚ)
      * (2 : ℚ) ^ (binary64Exponent x - 52) < -DBL_MAX := by
    linarith [hr2.1, hx3.1]
  have hval : toBinary64 x
      = (roundHalfEven (x / (2 : ℚ) ^ (binary64Exponent x - 52)) : ℚ)
          * (2 : ℚ) ^ (binary64Exponent x - 52) := by
    unfold toBinary64
    simp only []
    rw [if_neg hsat1, if_neg hsat2]
  refine ⟨hval, ?_, hu1⟩
  rw [hval]
  exact herr

theorem toBinary64_sub_abs_le (x : ℚ) (hx : |x| < 2 ^ 31) :
    |toBinary64 x - x| ≤ 1 / 2 ^ 23 := by
  obtain ⟨_, h1, h2⟩ := toBinary64_eq_of_lt x hx
  have : (1 : ℚ) / 2 ^ 22 / 2 = 1 / 2 ^ 23 := by norm_num
  linarith

theorem DBL_MAX_pos : 0 < DBL_MAX := lt_of_lt_of_le (by norm_num) DBL_MAX_large

theorem toBinary64_nonneg (x : ℚ) (h : 0 ≤ x) : 0 ≤ toBinary64 x := by
  have hu0 : (0 : ℚ) < (2 : ℚ) ^ (binary64Exponent x - 52) := zpow_pos (by norm_num) _
  have hr : (0 : ℚ) ≤ (roundHalfEven (x / (2 : ℚ) ^ (binary64Exponent x - 52)) : ℚ) := by
    exact_mod_cast roundHalfEven_nonneg _ (div_nonneg h (le_of_lt hu0))
  have hp := DBL_MAX_pos
  unfold toBinary64
  simp only []
  split_ifs
  · exact le_of_lt hp
  · exact absurd (mul_nonneg hr (le_of_lt hu0)) (by linarith)
  · exact mul_nonneg hr (le_of_lt hu0)

theorem toBinary64_nonpos (x : ℚ) (h : x ≤ 0) : toBinary64 x ≤ 0 := by
  have hu0 : (0 : ℚ) < (2 : ℚ) ^ (binary64Exponent x - 52) := zpow_pos (by norm_num) _
  have hr : (roundHalfEven (x / (2 : ℚ) ^ (binary64Exponent x - 52)) : ℚ) ≤ 0 := by
    exact_mod_cast roundHalfEven_nonpos _ (div_nonpos_of_nonpos_of_nonneg h (le_of_lt hu0))
  have hp := DBL_MAX_pos
  have hm := mul_nonpos_of_nonpos_of_nonneg hr (le_of_lt hu0)
  unfold toBinary64
  simp only []
  split_ifs
  · linarith
  · linarith
  · exact hm

theorem toBinary64_7071 :
    toBinary64 (7071 / 10000) = 6368990593027355 / 9007199254740992 := by
  rw [toBinary64_of_binade (7071 / 10000) (-1) 6368990593027355 (by norm_num [abs_of_pos])
    (by norm_num [abs_of_pos]) (by norm_num) (by norm_num [roundHalfEven])
    (by norm_num [DBL_MAX]) (by norm_num [DBL_MAX])]
  norm_num

theorem int_limit_binary64_val : int_limit_binary64 = 6368990590061563 / 4194304 := by
  unfold int_limit_binary64
  rw [toBinary64_7071]
  rw [toBinary64_of_binade _ 30 6368990590061563 (by norm_num [INT_MAX, abs_of_pos])
    (by norm_num [INT_MAX, abs_of_pos]) (by norm_num) (by norm_num [roundHalfEven, INT_MAX])
    (by norm_num [DBL_MAX]) (by norm_num [DBL_MAX])]
  norm_num

theorem Clamp_binary64_abs_le (v : ℚ) :
    |Clamp (-int_limit_binary64) v int_limit_binary64| ≤ 1518485687 := by
  rw [int_limit_binary64_val, abs_le]
  have h1 := Clamp_lower_le (-(6368990590061563 / 4194304 : ℚ)) v (6368990590061563 / 4194304)
    (by norm_num)
  have h2 := Clamp_le_upper (-(6368990590061563 / 4194304 : ℚ)) v (6368990590061563 / 4194304)
    (by norm_num)
  constructor
  · linarith
  · linarith

theorem truncToInt_bounds (r : ℚ) :
    (0 ≤ r → (truncToInt r : ℚ) ≤ r ∧ r < (truncToInt r : ℚ) + 1)
      ∧ (r ≤ 0 → r ≤ (truncToInt r : ℚ) ∧ (truncToInt r : ℚ) < r + 1) := by
  unfold truncToInt
  constructor
  · intro h
    rw [if_neg (not_lt.mpr h)]
    exact ⟨Int.floor_le r, Int.lt_floor_add_one r⟩
  · intro h
    split_ifs with hneg
    · have h1 := Int.floor_le (-r)
      have h2 := Int.lt_floor_add_one (-r)
      push_cast
      constructor <;> linarith
    · have h0 : r = 0 := le_antisymm h (not_lt.mp hneg)
      subst h0
      norm_num

theorem KiROUND_binary64_near (c : ℚ) (hc : |c| ≤ 1518485687) :
    KiROUND_overflow_binary64 c = false
      ∧ |((KiROUND_binary64 c : Int) : ℚ) - c| ≤ 1 / 2 + 1 / 2 ^ 23 := by
  have hc2 := abs_le.mp hc
  by_cases hneg : c < 0
  · have hx : |c - 1 / 2| < 2 ^ 31 := by
      rw [abs_lt]
      constructor <;> norm_num <;> linarith
    have herr := abs_le.mp (toBinary64_sub_abs_le (c - 1 / 2) hx)
    have hsign := toBinary64_nonpos (c - 1 / 2) (by linarith)
    have hov : KiROUND_overflow_binary64 c = false := by
      unfold KiROUND_overflow_binary64
      simp only [if_pos hneg, INT_MAX, INT_MIN, Bool.or_eq_false_iff, decide_eq_false_iff_not,
        not_lt, gt_iff_lt]
      constructor
      · push_cast
        linarith
      · push_cast
        have : (1 : ℚ) / 2 ^ 23 ≤ 1 := by norm_num
        linarith [herr.1]
    refine ⟨hov, ?_⟩
    unfold KiROUND_binary64
    rw [hov]
    simp only [Bool.false_eq_true, if_false, if_pos hneg]
    have ht := (truncToInt_bounds (toBinary64 (c - 1 / 2))).2 hsign
    rw [abs_le]
    constructor <;> linarith [herr.1, herr.2, ht.1, ht.2]
  · have hx : |c + 1 / 2| < 2 ^ 31 := by
      rw [abs_lt]
      constructor <;> norm_num <;> linarith
    have herr := abs_le.mp (toBinary64_sub_abs_le (c + 1 / 2) hx)
    have hsign := toBinary64_nonneg (c + 1 / 2) (by linarith [not_lt.mp hneg])
    have hov : KiROUND_overflow_binary64 c = false := by
      unfold KiROUND_overflow_binary64
      simp only [if_neg hneg, INT_MAX, INT_MIN, Bool.or_eq_false_iff, decide_eq_false_iff_not,
        not_lt, gt_iff_lt]
      constructor
      · push_cast
        have : (1 : ℚ) / 2 ^ 23 ≤ 1 := by norm_num
        linarith [herr.2]
      · push_cast
        linarith
    refine ⟨hov, ?_⟩
    unfold KiROUND_binary64
    rw [hov]
    simp only [Bool.false_eq_true, if_false, if_neg hneg]
    have ht := (truncToInt_bounds (toBinary64 (c + 1 / 2))).1 hsign
    rw [abs_le]
    constructor <;> linarith [herr.1, herr.2, ht.1, ht.2]

theorem roundHalfEven_intCast (j : Int) : roundHalfEven (j : ℚ) = j := by
  unfold roundHalfEven
  simp

theorem floor_le_roundHalfEven (q : ℚ) : ⌊q⌋ ≤ roundHalfEven q := by
  unfold roundHalfEven
  simp only []
  split_ifs <;> omega

theorem le_roundHalfEven (j : Int) (q : ℚ) (h : (j : ℚ) ≤ q) : j ≤ roundHalfEven q :=
  le_trans (Int.le_floor.mpr h) (floor_le_roundHalfEven q)

theorem roundHalfEven_le (j : Int) (q : ℚ) (h : q ≤ (j : ℚ)) : roundHalfEven q ≤ j := by
  have h1 := Int.floor_le q
  have hf : ⌊q⌋ ≤ j := by
    have : (⌊q⌋ : ℚ) ≤ (j : ℚ) := le_trans h1 h
    exact_mod_cast this
  have hstep : (1 : ℚ) / 2 ≤ q - ⌊q⌋ → ⌊q⌋ + 1 ≤ j := by
    intro hh
    have : (⌊q⌋ : ℚ) < (j : ℚ) := by linarith
    have : ⌊q⌋ < j := by exact_mod_cast this
    omega
  unfold roundHalfEven
  simp only []
  split_ifs with ha hb hc
  · exact hf
  · exact hstep (le_of_lt hb)
  · exact hf
  · exact hstep (not_lt.mp ha)

theorem roundHalfEven_neg (q : ℚ) : roundHalfEven (-q) = -roundHalfEven q := by
  by_cases hq : ((⌊q⌋ : Int) : ℚ) = q
  · rw [← hq, ← Int.cast_neg, roundHalfEven_intCast, roundHalfEven_intCast]
  · have h1 := Int.floor_le q
    have h2 := Int.lt_floor_add_one q
    have h3 : (⌊q⌋ : ℚ) < q := lt_of_le_of_ne h1 hq
    have hg : ⌊-q⌋ = -⌊q⌋ - 1 := by
      rw [Int.floor_eq_iff]
      push_cast
      constructor <;> linarith
    unfold roundHalfEven
    simp only [hg]
    push_cast
    split_ifs <;> first | omega | (exfalso; linarith)

theorem binary64Exponent_neg (x : ℚ) : binary64Exponent (-x) = binary64Exponent x := by
  unfold binary64Exponent
  simp only [abs_neg, neg_eq_zero]

theorem toBinary64_neg (x : ℚ) : toBinary64 (-x) = -toBinary64 x := by
  have hp := DBL_MAX_pos
  unfold toBinary64
  simp only [binary64Exponent_neg, neg_div, roundHalfEven_neg, Int.cast_neg, neg_mul]
  split_ifs <;> first | rfl | linarith

theorem toBinary64_of_exponent (x : ℚ) (e m : Int) (hE : binary64Exponent x = e)
    (hm : roundHalfEven (x / (2 : ℚ) ^ (e - 52)) = m)
    (hhi : (m : ℚ) * (2 : ℚ) ^ (e - 52) ≤ DBL_MAX)
    (hlo : -DBL_MAX ≤ (m : ℚ) * (2 : ℚ) ^ (e - 52)) :
    toBinary64 x = (m : ℚ) * (2 : ℚ) ^ (e - 52) := by
  unfold toBinary64
  simp only [hE, hm]
  rw [if_neg (not_lt.mpr hhi), if_neg (not_lt.mpr hlo)]

theorem toBinary64_zero : toBinary64 0 = 0 := by
  have hp := DBL_MAX_pos
  have h := toBinary64_of_exponent 0 (binary64Exponent 0) 0 rfl
    (by rw [zero_div]; exact roundHalfEven_intCast 0) (by simpa using le_of_lt hp)
    (by simpa using le_of_lt hp)
  simpa using h

theorem toBinary64_DBL_MAX : toBinary64 DBL_MAX = DBL_MAX := by
  rw [toBinary64_of_binade DBL_MAX 1023 (2 ^ 53 - 1) (by norm_num [DBL_MAX, abs_of_pos])
    (by norm_num [DBL_MAX, abs_of_pos]) (by norm_num) (by norm_num [DBL_MAX, roundHalfEven])
    (by norm_num [DBL_MAX]) (by norm_num [DBL_MAX])]
  norm_num [DBL_MAX]

theorem two_zpow_succ (E : Int) : (2 : ℚ) ^ (E + 1) = 2 ^ 53 * (2 : ℚ) ^ (E - 52) := by
  have h : E + 1 = 53 + (E - 52) := by ring
  rw [h, zpow_add₀ (by norm_num : (2 : ℚ) ≠ 0)]
  norm_num

theorem two_zpow_self (E : Int) : (2 : ℚ) ^ E = 2 ^ 52 * (2 : ℚ) ^ (E - 52) := by
  have h : E = 52 + (E - 52) := by ring
  nth_rewrite 1 [h]
  rw [zpow_add₀ (by norm_num : (2 : ℚ) ≠ 0)]
  norm_num

theorem binary64Exponent_ge (x : ℚ) : -1022 ≤ binary64Exponent x := by
  unfold binary64Exponent
  split_ifs
  · exact le_refl _
  · exact le_max_right _ _

theorem lt_two_zpow_binary64Exponent (x : ℚ) : |x| < (2 : ℚ) ^ (binary64Exponent x + 1) := by
  by_cases h0 : x = 0
  · rw [h0, abs_zero]
    exact zpow_pos (by norm_num) _
  · have h1 : |x| < (2 : ℚ) ^ (Int.log 2 |x| + 1) := by
      have := Int.lt_zpow_succ_log_self (b := 2) (by norm_num) |x|
      exact_mod_cast this
    have h2 : (2 : ℚ) ^ (Int.log 2 |x| + 1) ≤ (2 : ℚ) ^ (binary64Exponent x + 1) := by
      apply zpow_le_zpow_right₀ (by norm_num)
      unfold binary64Exponent
      rw [if_neg h0]
      exact add_le_add_right (le_max_left _ _) 1
    exact lt_of_lt_of_le h1 h2

theorem two_zpow_le_of_normal (x : ℚ) (h : -1022 < binary64Exponent x) :
    (2 : ℚ) ^ binary64Exponent x ≤ |x| := by
  have h0 : x ≠ 0 := by
    intro h0
    rw [h0] at h
    simp [binary64Exponent] at h
  have hE : binary64Exponent x = Int.log 2 |x| := by
    unfold binary64Exponent at h ⊢
    rw [if_neg h0] at h ⊢
    rcases le_total (Int.log 2 |x|) (-1022) with h1 | h1
    · rw [max_eq_right h1] at h
      exact absurd h (lt_irrefl _)
    · exact max_eq_left h1
  rw [hE]
  have := Int.zpow_log_le_self (b := 2) (by norm_num) (abs_pos.mpr h0)
  exact_mod_cast this

theorem binary64Exponent_of_le (r : ℚ) (E : Int) (hE : -1022 ≤ E)
    (hlt : |r| < (2 : ℚ) ^ (E + 1)) (hge : E = -1022 ∨ (2 : ℚ) ^ E ≤ |r|) :
    binary64Exponent r = E := by
  rcases hge with h | h
  · unfold binary64Exponent
    split_ifs with h0
    · exact h.symm
    · have hlog : Int.log 2 |r| < E + 1 := by
        rw [← Int.lt_zpow_iff_log_lt (by norm_num) (abs_pos.mpr h0)]
        exact_mod_cast hlt
      rw [h] at hlog ⊢
      exact max_eq_right (by omega)
  · exact binary64Exponent_eq r E h hlt hE

theorem toBinary64_idem_nonneg (x : ℚ) (hx : 0 ≤ x) :
    toBinary64 (toBinary64 x) = toBinary64 x := by
  have hp := DBL_MAX_pos
  have hEge := binary64Exponent_ge x
  have hu0 : (0 : ℚ) < (2 : ℚ) ^ (binary64Exponent x - 52) := zpow_pos (by norm_num) _
  have hxlt := lt_two_zpow_binary64Exponent x
  rw [abs_of_nonneg hx, two_zpow_succ] at hxlt
  have hq0 : 0 ≤ x / (2 : ℚ) ^ (binary64Exponent x - 52) := div_nonneg hx (le_of_lt hu0)
  have hR0 : 0 ≤ roundHalfEven (x / (2 : ℚ) ^ (binary64Exponent x - 52)) :=
    roundHalfEven_nonneg _ hq0
  have hR53 : roundHalfEven (x / (2 : ℚ) ^ (binary64Exponent x - 52)) ≤ 2 ^ 53 := by
    apply roundHalfEven_le
    rw [div_le_iff₀ hu0]
    push_cast
    exact le_of_lt hxlt
  have hrep : toBinary64 x = DBL_MAX
      ∨ (toBinary64 x
            = (roundHalfEven (x / (2 : ℚ) ^ (binary64Exponent x - 52)) : ℚ)
                * (2 : ℚ) ^ (binary64Exponent x - 52)
          ∧ (roundHalfEven (x / (2 : ℚ) ^ (binary64Exponent x - 52)) : ℚ)
                * (2 : ℚ) ^ (binary64Exponent x - 52) ≤ DBL_MAX) := by
    unfold toBinary64
    simp only []
    split_ifs with h1 h2
    · exact Or.inl rfl
    · exfalso
      have : (0 : ℚ) ≤ (roundHalfEven (x / (2 : ℚ) ^ (binary64Exponent x - 52)) : ℚ)
          * (2 : ℚ) ^ (binary64Exponent x - 52) :=
        mul_nonneg (by exact_mod_cast hR0) (le_of_lt hu0)
      linarith
    · exact Or.inr ⟨rfl, not_lt.mp h1⟩
  rcases hrep with hsat | ⟨hval, hmax⟩
  · rw [hsat, toBinary64_DBL_MAX]
  · generalize hR : roundHalfEven (x / (2 : ℚ) ^ (binary64Exponent x - 52)) = R at *
    generalize hEdef : binary64Exponent x = E at *
    have hr0 : (0 : ℚ) ≤ (R : ℚ) * (2 : ℚ) ^ (E - 52) :=
      mul_nonneg (by exact_mod_cast hR0) (le_of_lt hu0)
    rw [hval]
    rcases lt_or_eq_of_le hR53 with hlt53 | heq53
    · -- the value stays in the binade of `x`
      have hlt : |(R : ℚ) * (2 : ℚ) ^ (E - 52)| < (2 : ℚ) ^ (E + 1) := by
        rw [abs_of_nonneg hr0, two_zpow_succ]
        have : (R : ℚ) < 2 ^ 53 := by exact_mod_cast hlt53
        exact mul_lt_mul_of_pos_right this hu0
      have hge : E = -1022 ∨ (2 : ℚ) ^ E ≤ |(R : ℚ) * (2 : ℚ) ^ (E - 52)| := by
        rcases eq_or_lt_of_le hEge with h | h
        · exact Or.inl h.symm
        · right
          have hnorm : (2 : ℚ) ^ E ≤ |x| := by
            have := two_zpow_le_of_normal x (by rw [hEdef]; exact h)
            rwa [hEdef] at this
          rw [abs_of_nonneg hx] at hnorm
          have hR52 : (2 : Int) ^ 52 ≤ R := by
            have e52 : (((2 : Int) ^ 52 : Int) : ℚ) = (2 : ℚ) ^ 52 := by norm_num
            rw [← hR]
            apply le_roundHalfEven
            rw [le_div_iff₀ hu0, e52, ← two_zpow_self]
            exact hnorm
          rw [abs_of_nonneg hr0, two_zpow_self]
          have : ((2 : ℚ) ^ 52) ≤ (R : ℚ) := by exact_mod_cast hR52
          exact mul_le_mul_of_nonneg_right this (le_of_lt hu0)
      have hEr := binary64Exponent_of_le _ E hEge hlt hge
      rw [toBinary64_of_exponent _ E R hEr
        (by rw [mul_div_assoc, div_self (ne_of_gt hu0), mul_one]; exact roundHalfEven_intCast R)
        hmax (by linarith)]
    · -- the value is the next power of two
      have hr : (R : ℚ) * (2 : ℚ) ^ (E - 52) = (2 : ℚ) ^ (E + 1) := by
        rw [two_zpow_succ, heq53]
        norm_num
      have hpos : (0 : ℚ) < (2 : ℚ) ^ (E + 1) := zpow_pos (by norm_num) _
      have hEr : binary64Exponent ((2 : ℚ) ^ (E + 1)) = E + 1 := by
        apply binary64Exponent_eq _ _ _ _ (by omega)
        · rw [abs_of_pos hpos]
        · rw [abs_of_pos hpos]
          exact zpow_lt_zpow_right₀ (by norm_num) (by omega)
      have hu1 : (0 : ℚ) < (2 : ℚ) ^ (E + 1 - 52) := zpow_pos (by norm_num) _
      have hself : (2 : ℚ) ^ (E + 1) = ((2 ^ 52 : Int) : ℚ) * (2 : ℚ) ^ (E + 1 - 52) := by
        rw [two_zpow_self (E + 1)]
        norm_num
      rw [hr] at hmax ⊢
      rw [toBinary64_of_exponent _ (E + 1) (2 ^ 52) hEr
        (by
          nth_rewrite 1 [hself]
          rw [mul_div_assoc, div_self (ne_of_gt hu1), mul_one]
          exact roundHalfEven_intCast _)
        (by rw [← hself]; exact hmax) (by rw [← hself]; linarith)]
      exact hself.symm

theorem toBinary64_idem (x : ℚ) : toBinary64 (toBinary64 x) = toBinary64 x := by
  rcases le_total 0 x with h | h
  · exact toBinary64_idem_nonneg x h
  · have := toBinary64_idem_nonneg (-x) (by linarith)
    rw [toBinary64_neg, toBinary64_neg, neg_inj] at this
    exact this

theorem two_zpow_mul_natPow (E : Int) (hE : E ≤ 52) :
    (2 : ℚ) ^ (E - 52) * (((2 : Int) ^ (52 - E).toNat : Int) : ℚ) = 1 := by
  have h : ((52 - E).toNat : Int) = 52 - E := Int.toNat_of_nonneg (by omega)
  have h2 : (((2 : Int) ^ (52 - E).toNat : Int) : ℚ) = (2 : ℚ) ^ (((52 - E).toNat : Int)) := by
    rw [zpow_natCast]
    push_cast
    rfl
  rw [h2, h, ← zpow_add₀ (by norm_num : (2 : ℚ) ≠ 0)]
  have : E - 52 + (52 - E) = 0 := by ring
  rw [this, zpow_zero]

theorem floor_toBinary64_add_half (c : ℚ) (hc0 : 0 ≤ c) (hcL : c ≤ 1518485687)
    (hdbl : toBinary64 c = c) :
    |((⌊toBinary64 (c + 1 / 2)⌋ : Int) : ℚ) - c| ≤ 1 / 2
      ∨ (c = 1 / 2 - 1 / 2 ^ 54 ∧ ⌊toBinary64 (c + 1 / 2)⌋ = 1) := by
  have hs0 : (0 : ℚ) < c + 1 / 2 := by linarith
  have hsabs : |c + 1 / 2| < 2 ^ 31 := by
    rw [abs_of_pos hs0]
    norm_num
    linarith
  obtain ⟨hval, herr, hule⟩ := toBinary64_eq_of_lt (c + 1 / 2) hsabs
  have hE30 := binary64Exponent_le (c + 1 / 2) hsabs
  have hEm1 : -1 ≤ binary64Exponent (c + 1 / 2) := by
    have hlog : (-1 : Int) ≤ Int.log 2 |c + 1 / 2| := by
      rw [← Int.zpow_le_iff_le_log (by norm_num) (abs_pos.mpr (ne_of_gt hs0)), abs_of_pos hs0]
      norm_num
      linarith
    unfold binary64Exponent
    rw [if_neg (ne_of_gt hs0)]
    exact le_trans hlog (le_max_left _ _)
  have hnorm : (2 : ℚ) ^ binary64Exponent (c + 1 / 2) ≤ c + 1 / 2 := by
    have := two_zpow_le_of_normal (c + 1 / 2) (by omega)
    rwa [abs_of_pos hs0] at this
  have hslt : c + 1 / 2 < (2 : ℚ) ^ (binary64Exponent (c + 1 / 2) + 1) := by
    have := lt_two_zpow_binary64Exponent (c + 1 / 2)
    rwa [abs_of_pos hs0] at this
  generalize hEdef : binary64Exponent (c + 1 / 2) = E at *
  have hu0 : (0 : ℚ) < (2 : ℚ) ^ (E - 52) := zpow_pos (by norm_num) _
  have hN := two_zpow_mul_natPow E (by omega)
  generalize hndef : (52 - E).toNat = n at hN
  generalize hRdef : roundHalfEven ((c + 1 / 2) / (2 : ℚ) ^ (E - 52)) = R at *
  generalize hudef : (2 : ℚ) ^ (E - 52) = u at *
  have hNpos : (0 : ℚ) < (((2 : Int) ^ n : Int) : ℚ) := by
    have : (0 : Int) < (2 : Int) ^ n := pow_pos (by norm_num) n
    exact_mod_cast this
  have hdiv : ∀ y : ℚ, y / u = y * (((2 : Int) ^ n : Int) : ℚ) := by
    intro y
    rw [div_eq_iff (ne_of_gt hu0), mul_assoc, mul_comm _ u, hN, mul_one]
  have hk1 := Int.floor_le (c + 1 / 2)
  have hk2 := Int.lt_floor_add_one (c + 1 / 2)
  generalize hkdef : ⌊c + 1 / 2⌋ = k at *
  have hRge : k * (2 : Int) ^ n ≤ R := by
    rw [← hRdef]
    apply le_roundHalfEven
    rw [hdiv]
    push_cast
    exact mul_le_mul_of_nonneg_right hk1 (by exact_mod_cast le_of_lt hNpos)
  have hRle : R ≤ (k + 1) * (2 : Int) ^ n := by
    rw [← hRdef]
    apply roundHalfEven_le
    rw [hdiv]
    push_cast
    exact mul_le_mul_of_nonneg_right (le_of_lt hk2) (by exact_mod_cast le_of_lt hNpos)
  have hmulu : ∀ j : Int, ((j * (2 : Int) ^ n : Int) : ℚ) * u = (j : ℚ) := by
    intro j
    push_cast
    have := hN
    push_cast at this
    rw [mul_assoc, mul_comm _ u, this, mul_one]
  have hfl_ge : (k : ℚ) ≤ toBinary64 (c + 1 / 2) := by
    rw [hval, ← hmulu k]
    exact mul_le_mul_of_nonneg_right (by exact_mod_cast hRge) (le_of_lt hu0)
  rcases lt_or_eq_of_le hRle with hlt | heq
  · left
    have hfl_lt : toBinary64 (c + 1 / 2) < (k : ℚ) + 1 := by
      have h1 : (R : ℚ) * u < (((k + 1) * (2 : Int) ^ n : Int) : ℚ) * u :=
        mul_lt_mul_of_pos_right (by exact_mod_cast hlt) hu0
      rw [hmulu (k + 1)] at h1
      rw [hval]
      push_cast at h1
      exact h1
    have hfloor : ⌊toBinary64 (c + 1 / 2)⌋ = k := Int.floor_eq_iff.mpr ⟨hfl_ge, hfl_lt⟩
    rw [hfloor, abs_le]
    constructor <;> linarith
  · right
    have hfl : toBinary64 (c + 1 / 2) = ((k + 1 : Int) : ℚ) := by
      rw [hval, heq, hmulu (k + 1)]
    have hfloor : ⌊toBinary64 (c + 1 / 2)⌋ = k + 1 := by
      rw [hfl, Int.floor_intCast]
    have hhalf : (k : ℚ) + 1 - (c + 1 / 2) ≤ u / 2 := by
      have := (abs_le.mp herr).2
      rw [hfl] at this
      push_cast at this
      exact this
    -- `c` is a double: a multiple of the unit of its own binade
    have hcabs : |c| < 2 ^ 31 := by
      rw [abs_of_nonneg hc0]
      norm_num
      linarith
    obtain ⟨hcval, _, _⟩ := toBinary64_eq_of_lt c hcabs
    rw [hdbl] at hcval
    have hEc30 := binary64Exponent_le c hcabs
    have hclt := lt_two_zpow_binary64Exponent c
    rw [abs_of_nonneg hc0] at hclt
    generalize hEcdef : binary64Exponent c = Ec at *
    have huc0 : (0 : ℚ) < (2 : ℚ) ^ (Ec - 52) := zpow_pos (by norm_num) _
    have hNc := two_zpow_mul_natPow Ec (by omega)
    have hnc : 1 ≤ (52 - Ec).toNat := by omega
    generalize hncdef : (52 - Ec).toNat = nc at *
    generalize hRcdef : roundHalfEven (c / (2 : ℚ) ^ (Ec - 52)) = Rc at *
    have hP : (((k + 1) * (2 : Int) ^ nc - Rc - (2 : Int) ^ (nc - 1) : Int) : ℚ)
        * (2 : ℚ) ^ (Ec - 52) = (k : ℚ) + 1 - (c + 1 / 2) := by
      have h2 : ((2 : ℚ) ^ (nc - 1)) * 2 = (2 : ℚ) ^ nc := by
        rw [← pow_succ]
        congr 1
        omega
      have hNc2 : (2 : ℚ) ^ (Ec - 52) * (2 : ℚ) ^ nc = 1 := by
        have := hNc
        push_cast at this
        exact this
      have hhalf2 : ((2 : ℚ) ^ (nc - 1)) * (2 : ℚ) ^ (Ec - 52) = 1 / 2 := by
        have : ((2 : ℚ) ^ (nc - 1)) * 2 * (2 : ℚ) ^ (Ec - 52) = 1 := by
          rw [h2, mul_comm]
          exact hNc2
        linarith
      push_cast
      have hc' : c = (Rc : ℚ) * (2 : ℚ) ^ (Ec - 52) := hcval
      have e1 : ((k : ℚ) + 1) * (2 : ℚ) ^ nc * (2 : ℚ) ^ (Ec - 52) = (k : ℚ) + 1 := by
        rw [mul_assoc, mul_comm ((2 : ℚ) ^ nc), hNc2, mul_one]
      calc (((k : ℚ) + 1) * (2 : ℚ) ^ nc - (Rc : ℚ) - (2 : ℚ) ^ (nc - 1)) * (2 : ℚ) ^ (Ec - 52)
          = ((k : ℚ) + 1) * (2 : ℚ) ^ nc * (2 : ℚ) ^ (Ec - 52)
              - (Rc : ℚ) * (2 : ℚ) ^ (Ec - 52)
              - (2 : ℚ) ^ (nc - 1) * (2 : ℚ) ^ (Ec - 52) := by ring
        _ = (k : ℚ) + 1 - (c + 1 / 2) := by
          rw [e1, ← hc', hhalf2]
          ring
    have hPpos : 0 < (k + 1) * (2 : Int) ^ nc - Rc - (2 : Int) ^ (nc - 1) := by
      have h1 : (0 : ℚ) < (((k + 1) * (2 : Int) ^ nc - Rc - (2 : Int) ^ (nc - 1) : Int) : ℚ)
          * (2 : ℚ) ^ (Ec - 52) := by
        rw [hP]
        linarith
      have h2 := (pos_iff_pos_of_mul_pos h1).mpr huc0
      exact_mod_cast h2
    have huc_le : (2 : ℚ) ^ (Ec - 52) ≤ (k : ℚ) + 1 - (c + 1 / 2) := by
      rw [← hP]
      have h1 : (1 : ℚ) ≤ (((k + 1) * (2 : Int) ^ nc - Rc - (2 : Int) ^ (nc - 1) : Int) : ℚ) := by
        have : (1 : Int) ≤ (k + 1) * (2 : Int) ^ nc - Rc - (2 : Int) ^ (nc - 1) := hPpos
        exact_mod_cast this
      calc (2 : ℚ) ^ (Ec - 52) = 1 * (2 : ℚ) ^ (Ec - 52) := (one_mul _).symm
        _ ≤ _ := mul_le_mul_of_nonneg_right h1 (le_of_lt huc0)
    have hEcE : Ec + 1 ≤ E := by
      have h1 : (2 : ℚ) ^ (Ec - 52) ≤ (2 : ℚ) ^ (E - 53) := by
        have h53 : (2 : ℚ) ^ (E - 53) = u / 2 := by
          rw [← hudef]
          have : E - 53 = (E - 52) + (-1) := by ring
          rw [this, zpow_add₀ (by norm_num : (2 : ℚ) ≠ 0)]
          norm_num
          ring
        rw [h53]
        linarith
      have := (zpow_le_zpow_iff_right₀ (by norm_num : (1 : ℚ) < 2)).mp h1
      omega
    have hcE : c < (2 : ℚ) ^ E :=
      lt_of_lt_of_le hclt (zpow_le_zpow_right₀ (by norm_num) hEcE)
    have hu1 : u ≤ 1 / 2 ^ 22 := hule
    by_cases hE0 : 0 ≤ E
    · exfalso
      have hpowint : (2 : ℚ) ^ E = (((2 : Int) ^ E.toNat : Int) : ℚ) := by
        have h : (E.toNat : Int) = E := Int.toNat_of_nonneg hE0
        nth_rewrite 1 [← h]
        rw [zpow_natCast]
        push_cast
        rfl
      have hle : (2 : Int) ^ E.toNat ≤ k := by
        rw [← hkdef]
        apply Int.le_floor.mpr
        rw [← hpowint]
        exact hnorm
      have hle2 : (2 : ℚ) ^ E ≤ (k : ℚ) := by
        rw [hpowint]
        exact_mod_cast hle
      have : (1 : ℚ) / 2 ^ 22 < 1 := by norm_num
      linarith
    · have hE1 : E = -1 := by omega
      subst hE1
      have hu53 : u = 1 / 2 ^ 53 := by
        rw [← hudef]
        norm_num
      have hs1 : c + 1 / 2 < 1 := by
        have : (2 : ℚ) ^ ((-1 : Int) + 1) = 1 := by norm_num
        rw [this] at hslt
        exact hslt
      have hk0 : k = 0 := by
        have h1 : (k : ℚ) < 1 := by linarith
        have h2 : (-1 : ℚ) < (k : ℚ) := by linarith
        have h3 : k < 1 := by exact_mod_cast h1
        have h4 : -1 < k := by exact_mod_cast h2
        omega
      subst hk0
      have hclo : 1 / 2 - 1 / 2 ^ 54 ≤ c := by
        rw [hu53] at hhalf
        norm_num at hhalf ⊢
        linarith
      have hEc2 : Ec = -2 := by
        rw [← hEcdef]
        apply binary64Exponent_eq
        · rw [abs_of_nonneg hc0]
          norm_num at hclo ⊢
          linarith
        · rw [abs_of_nonneg hc0]
          norm_num
          linarith
        · norm_num
      subst hEc2
      have hRc : Rc = 2 ^ 53 - 1 := by
        have e54 : (2 : ℚ) ^ ((-2 : Int) - 52) = 1 / 2 ^ 54 := by norm_num
        rw [e54] at hcval
        have h1 : ((2 : ℚ) ^ 53 - 1) ≤ (Rc : ℚ) := by
          rw [hcval] at hclo
          norm_num at hclo ⊢
          linarith
        have h2 : (Rc : ℚ) < 2 ^ 53 := by
          have hchalf : c < 1 / 2 := by linarith
          rw [hcval] at hchalf
          norm_num at hchalf ⊢
          linarith
        have h3 : (2 : Int) ^ 53 - 1 ≤ Rc := by exact_mod_cast h1
        have h4 : Rc < (2 : Int) ^ 53 := by exact_mod_cast h2
        omega
      refine ⟨?_, by rw [hfloor]; norm_num⟩
      rw [hcval, hRc]
      norm_num

theorem truncToInt_of_nonneg (r : ℚ) (h : 0 ≤ r) : truncToInt r = ⌊r⌋ := by
  unfold truncToInt
  rw [if_neg (not_lt.mpr h)]

theorem truncToInt_neg_of_nonneg (r : ℚ) (h : 0 ≤ r) : truncToInt (-r) = -⌊r⌋ := by
  unfold truncToInt
  split_ifs with hneg
  · rw [neg_neg]
  · have h0 : r = 0 := le_antisymm (by linarith [not_lt.mp hneg]) h
    subst h0
    simp

theorem KiROUND_binary64_exact (c : ℚ) (hc : |c| ≤ 1518485687) (hdbl : toBinary64 c = c) :
    |((KiROUND_binary64 c : Int) : ℚ) - c| ≤ 1 / 2
      ∨ (c = 1 / 2 - 1 / 2 ^ 54 ∧ KiROUND_binary64 c = 1)
      ∨ (c = -(1 / 2 - 1 / 2 ^ 54) ∧ KiROUND_binary64 c = -1) := by
  obtain ⟨hov, _⟩ := KiROUND_binary64_near c hc
  have hc2 := abs_le.mp hc
  by_cases hneg : c < 0
  · have hval : KiROUND_binary64 c = -⌊toBinary64 (-c + 1 / 2)⌋ := by
      unfold KiROUND_binary64
      rw [hov]
      simp only [Bool.false_eq_true, if_false, if_pos hneg]
      have : c - 1 / 2 = -(-c + 1 / 2) := by ring
      rw [this, toBinary64_neg]
      exact truncToInt_neg_of_nonneg _ (toBinary64_nonneg _ (by linarith))
    have hdbl2 : toBinary64 (-c) = -c := by rw [toBinary64_neg, hdbl]
    rcases floor_toBinary64_add_half (-c) (by linarith) (by linarith) hdbl2 with h | ⟨h1, h2⟩
    · left
      rw [hval]
      push_cast
      rw [abs_le] at h ⊢
      constructor <;> linarith [h.1, h.2]
    · right
      right
      refine ⟨by linarith, ?_⟩
      rw [hval, h2]
  · have hc0 : 0 ≤ c := not_lt.mp hneg
    have hval : KiROUND_binary64 c = ⌊toBinary64 (c + 1 / 2)⌋ := by
      unfold KiROUND_binary64
      rw [hov]
      simp only [Bool.false_eq_true, if_false, if_neg hneg]
      exact truncToInt_of_nonneg _ (toBinary64_nonneg _ (by linarith))
    rcases floor_toBinary64_add_half c hc0 hc2.2 hdbl with h | ⟨h1, h2⟩
    · left
      rw [hval]
      exact h
    · right
      left
      exact ⟨h1, by rw [hval, h2]⟩

theorem Clamp_binary64_idem (z : ℚ) :
    toBinary64 (Clamp (-int_limit_binary64) (toBinary64 z) int_limit_binary64)
      = Clamp (-int_limit_binary64) (toBinary64 z) int_limit_binary64 := by
  have hL : toBinary64 int_limit_binary64 = int_limit_binary64 := by
    unfold int_limit_binary64
    exact toBinary64_idem _
  unfold Clamp
  split_ifs
  · rw [toBinary64_neg, hL]
  · exact hL
  · exact toBinary64_idem z

theorem parseInternalUnits_binary64_of_parseDouble (IU_PER_MM : ℚ) (lx : Lexer) (v : ℚ)
    (hv : parseDouble lx = Except.ok v) :
    parseInternalUnits_binary64 IU_PER_MM lx
      = Except.ok (KiROUND_binary64
          (Clamp (-int_limit_binary64) (toBinary64 (toBinary64 v * IU_PER_MM))
            int_limit_binary64)) := by
  unfold parseInternalUnits_binary64 parseDouble_binary64
  rw [hv]

/-- C3 (as amended): for every parsed value `v`, `parseInternalUnits` returns
the `KiROUND` of the clamped scaled value (clamp first, then round), computed
in `double` arithmetic. The rounding adds one half to the magnitude, rounds the
sum to a `double` and drops the fraction; it never takes its overflow branch.
The result differs from the clamped scaled value by at most one half, and no
integer is closer, except when that value is `±(1/2 - 2⁻⁵⁴)`, the `double`
next to one half: there the result is `±1`, at a distance of `1/2 + 2⁻⁵⁴`. -/
theorem parseInternalUnits_binary64_rounds_clamped (IU_PER_MM : ℚ) (lx : Lexer) (v : ℚ)
    (hv : parseDouble lx = Except.ok v) :
    let c := Clamp (-int_limit_binary64) (toBinary64 (toBinary64 v * IU_PER_MM))
      int_limit_binary64
    parseInternalUnits_binary64 IU_PER_MM lx = Except.ok (KiROUND_binary64 c)
      ∧ KiROUND_overflow_binary64 c = false
      ∧ KiROUND_binary64 c
          = truncToInt (if c < 0 then toBinary64 (c - 1 / 2) else toBinary64 (c + 1 / 2))
      ∧ ((|((KiROUND_binary64 c : Int) : ℚ) - c| ≤ 1 / 2
            ∧ ∀ m : Int, |((KiROUND_binary64 c : Int) : ℚ) - c| ≤ |(m : ℚ) - c|)
          ∨ (c = 1 / 2 - 1 / 2 ^ 54 ∧ KiROUND_binary64 c = 1)
          ∨ (c = -(1 / 2 - 1 / 2 ^ 54) ∧ KiROUND_binary64 c = -1))
      ∧ |((KiROUND_binary64 c : Int) : ℚ) - c| ≤ 1 / 2 + 1 / 2 ^ 54 := by
  intro c
  have hcabs : |c| ≤ 1518485687 := Clamp_binary64_abs_le _
  obtain ⟨hov, _⟩ := KiROUND_binary64_near c hcabs
  have hex := KiROUND_binary64_exact c hcabs (Clamp_binary64_idem _)
  refine ⟨parseInternalUnits_binary64_of_parseDouble IU_PER_MM lx v hv, hov, ?_, ?_, ?_⟩
  · unfold KiROUND_binary64
    rw [hov]
    simp
  · rcases hex with h | h | h
    · exact Or.inl ⟨h, fun m => abs_sub_le_of_near _ m _ h⟩
    · exact Or.inr (Or.inl h)
    · exact Or.inr (Or.inr h)
  · rcases hex with h | ⟨h1, h2⟩ | ⟨h1, h2⟩
    · have : (0 : ℚ) ≤ 1 / 2 ^ 54 := by norm_num
      linarith
    · rw [h2, h1]
      norm_num [abs_of_pos]
    · rw [h2, h1]
      norm_num [abs_of_neg]

theorem decimalParts_just_below_half :
    decimalParts "0.000049999999999999994" = some ⟨false, 0, 49999999999999994, 21⟩ := by
  decide

theorem parseDouble_just_below_half :
    parseDouble (lexerAtNumber "0.000049999999999999994")
      = Except.ok (24999999999999997 / 500000000000000000000) := by
  simp [parseDouble, CurText, lexerAtNumber, decimalLiteral, decimalParts_just_below_half,
    DecimalParts.value]
  norm_num

theorem toBinary64_just_below_half :
    toBinary64 (toBinary64 (24999999999999997 / 500000000000000000000) * 10000)
      = 1 / 2 - 1 / 2 ^ 54 := by
  rw [toBinary64_of_binade (24999999999999997 / 500000000000000000000) (-15)
    7378697629483820 (by norm_num [abs_of_pos]) (by norm_num [abs_of_pos]) (by norm_num)
    (by norm_num [roundHalfEven]) (by norm_num [DBL_MAX]) (by norm_num [DBL_MAX])]
  rw [toBinary64_of_binade _ (-2) 9007199254740991 (by norm_num [abs_of_pos])
    (by norm_num [abs_of_pos]) (by norm_num) (by norm_num [roundHalfEven])
    (by norm_num [DBL_MAX]) (by norm_num [DBL_MAX])]
  norm_num

theorem toBinary64_half_plus_just_below_half :
    toBinary64 (1 / 2 - 1 / 2 ^ 54 + 1 / 2) = 1 := by
  rw [toBinary64_of_binade _ (-1) 9007199254740992 (by norm_num [abs_of_pos])
    (by norm_num [abs_of_pos]) (by norm_num) (by norm_num [roundHalfEven])
    (by norm_num [DBL_MAX]) (by norm_num [DBL_MAX])]
  norm_num

theorem KiROUND_binary64_just_below_half : KiROUND_binary64 (1 / 2 - 1 / 2 ^ 54) = 1 := by
  have hneg : ¬ ((1 : ℚ) / 2 - 1 / 2 ^ 54 < 0) := by norm_num
  have hov : KiROUND_overflow_binary64 (1 / 2 - 1 / 2 ^ 54) = false := by
    unfold KiROUND_overflow_binary64
    simp only [if_neg hneg, toBinary64_half_plus_just_below_half]
    norm_num [INT_MAX, INT_MIN]
  unfold KiROUND_binary64
  rw [hov]
  simp only [if_neg hneg, toBinary64_half_plus_just_below_half]
  norm_num [truncToInt]

/-- C3 (as stated) fails: with 10000 units per millimetre the token
`0.000049999999999999994` scales, in `double` arithmetic, to `1/2 - 2⁻⁵⁴`, the
largest `double` below one half; the clamp leaves it as it is, and
`parseInternalUnits` returns 1, which is further than one half from that value,
while 0 is nearer. -/
theorem parseInternalUnits_binary64_not_nearest :
    parseDouble (lexerAtNumber "0.000049999999999999994")
        = Except.ok (24999999999999997 / 500000000000000000000)
      ∧ Clamp (-int_limit_binary64)
          (toBinary64 (toBinary64 (24999999999999997 / 500000000000000000000) * 10000))
          int_limit_binary64 = 1 / 2 - 1 / 2 ^ 54
      ∧ parseInternalUnits_binary64 10000 (lexerAtNumber "0.000049999999999999994")
          = Except.ok 1
      ∧ ¬ (|((1 : Int) : ℚ) - (1 / 2 - 1 / 2 ^ 54)| ≤ 1 / 2)
      ∧ |((0 : Int) : ℚ) - (1 / 2 - 1 / 2 ^ 54)| < |((1 : Int) : ℚ) - (1 / 2 - 1 / 2 ^ 54)| := by
  have hc : Clamp (-int_limit_binary64)
      (toBinary64 (toBinary64 (24999999999999997 / 500000000000000000000) * 10000))
      int_limit_binary64 = 1 / 2 - 1 / 2 ^ 54 := by
    rw [toBinary64_just_below_half, int_limit_binary64_val]
    norm_num [Clamp]
  refine ⟨parseDouble_just_below_half, hc, ?_, ?_, ?_⟩
  · rw [parseInternalUnits_binary64_of_parseDouble 10000 _ _ parseDouble_just_below_half, hc,
      KiROUND_binary64_just_below_half]
  · norm_num [abs_of_pos]
  · norm_num [abs_of_pos, abs_of_neg]

theorem Clamp_binary64_2p54 :
    Clamp (-int_limit_binary64) (toBinary64 (toBinary64 (127 / 50) * 10000))
      int_limit_binary64 = 25400 := by
  rw [toBinary64_of_binade (127 / 50) 1 5719571526760530 (by norm_num [abs_of_pos])
    (by norm_num [abs_of_pos]) (by norm_num) (by norm_num [roundHalfEven])
    (by norm_num [DBL_MAX]) (by norm_num [DBL_MAX])]
  rw [toBinary64_of_binade _ 14 6981898836377600 (by norm_num [abs_of_pos])
    (by norm_num [abs_of_pos]) (by norm_num) (by norm_num [roundHalfEven])
    (by norm_num [DBL_MAX]) (by norm_num [DBL_MAX])]
  rw [int_limit_binary64_val]
  norm_num [Clamp]

theorem KiROUND_binary64_25400 : KiROUND_binary64 25400 = 25400 := by
  have hneg : ¬ ((25400 : ℚ) < 0) := by norm_num
  have hfl : toBinary64 (25400 + 1 / 2) = 50801 / 2 := by
    rw [toBinary64_of_binade _ 14 6982036275331072 (by norm_num [abs_of_pos])
      (by norm_num [abs_of_pos]) (by norm_num) (by norm_num [roundHalfEven])
      (by norm_num [DBL_MAX]) (by norm_num [DBL_MAX])]
    norm_num
  have hov : KiROUND_overflow_binary64 25400 = false := by
    unfold KiROUND_overflow_binary64
    simp only [if_neg hneg, hfl]
    norm_num [INT_MAX, INT_MIN]
  unfold KiROUND_binary64
  rw [hov]
  simp only [if_neg hneg, hfl]
  norm_num [truncToInt]

theorem parseInternalUnits_binary64_rounds_clamped_witness :
    parseDouble (lexerAtNumber "2.54") = Except.ok (127 / 50)
      ∧ parseInternalUnits_binary64 10000 (lexerAtNumber "2.54") = Except.ok 25400
      ∧ |((25400 : Int) : ℚ) - 25400| ≤ 1 / 2 + 1 / 2 ^ 54 := by
  have h := parseInternalUnits_binary64_rounds_clamped 10000 (lexerAtNumber "2.54") (127 / 50)
    parseDouble_lexerAtNumber_2p54
  simp only [Clamp_binary64_2p54, KiROUND_binary64_25400] at h
  exact ⟨parseDouble_lexerAtNumber_2p54, h.1, h.2.2.2.2⟩

/-- C4 (as amended): every value returned by `parseInternalUnits` lies in the
signed 32-bit range, and the sum of two returned values lies within
`[-3036971374, 3036971374]`, twice the clamp bound. -/
theorem parseInternalUnits_sum_range (IU_PER_MM : ℚ) (lx1 lx2 : Lexer) (a b : Int)
    (ha : parseInternalUnits IU_PER_MM lx1 = Except.ok a)
    (hb : parseInternalUnits IU_PER_MM lx2 = Except.ok b) :
    (INT_MIN ≤ a ∧ a ≤ INT_MAX) ∧ (INT_MIN ≤ b ∧ b ≤ INT_MAX)
      ∧ -3036971374 ≤ a + b ∧ a + b ≤ 3036971374 := by
  have h1 := parseInternalUnits_range IU_PER_MM lx1 a ha
  have h2 := parseInternalUnits_range IU_PER_MM lx2 b hb
  unfold INT_MIN INT_MAX
  omega

theorem parseInternalUnits_lexerAtNumber_200000 :
    parseInternalUnits 10000 (lexerAtNumber "200000") = Except.ok 1518485687 := by
  rw [parseInternalUnits_of_parseDouble 10000 _ 200000 parseDouble_lexerAtNumber_200000]
  have hc : Clamp (-int_limit) ((200000 : ℚ) * 10000) int_limit = int_limit := by
    rw [int_limit_val]
    norm_num [Clamp]
  rw [hc, KiROUND_int_limit]

theorem parseInternalUnits_sum_range_witness :
    parseInternalUnits 10000 (lexerAtNumber "200000") = Except.ok 1518485687
      ∧ parseInternalUnits 10000 (lexerAtNumber "2.54") = Except.ok 25400
      ∧ (INT_MIN ≤ (1518485687 : Int) ∧ (1518485687 : Int) ≤ INT_MAX)
      ∧ (INT_MIN ≤ (25400 : Int) ∧ (25400 : Int) ≤ INT_MAX)
      ∧ -3036971374 ≤ (1518485687 : Int) + 25400
      ∧ (1518485687 : Int) + 25400 ≤ 3036971374 :=
  have h2 : parseInternalUnits 10000 (lexerAtNumber "2.54") = Except.ok 25400 := by
    rw [parseInternalUnits_of_parseDouble 10000 _ _ parseDouble_lexerAtNumber_2p54, int_limit_val]
    norm_num [Clamp, KiROUND, KiROUND_overflow, truncToInt, INT_MAX, INT_MIN]
  ⟨parseInternalUnits_lexerAtNumber_200000, h2,
    parseInternalUnits_sum_range 10000 (lexerAtNumber "200000") (lexerAtNumber "2.54")
      1518485687 25400 parseInternalUnits_lexerAtNumber_200000 h2⟩

/-- C4 (as stated) fails: with 10000 units per millimetre the value 200000 is
converted to 1518485687, and the sum of two such results exceeds `INT32_MAX`. -/
theorem parseInternalUnits_sum_overflows :
    parseInternalUnits 10000 (lexerAtNumber "200000") = Except.ok 1518485687
      ∧ ¬ ((1518485687 : Int) + 1518485687 ≤ INT_MAX) := by
  refine ⟨parseInternalUnits_lexerAtNumber_200000, ?_⟩
  unfold INT_MAX
  omega

/-! ## Coordinates -/

theorem parseDouble_eq_ok_iff (lx : Lexer) (d : ℚ) :
    parseDouble lx = Except.ok d ↔ decimalLiteral (CurText lx) = some d := by
  unfold parseDouble
  cases h : decimalLiteral (CurText lx) with
  | none => simp
  | some v => simp

theorem parseInternalUnits_aExpected_of_number (IU_PER_MM : ℚ) (aExpected : String)
    (lx : Lexer) (d : ℚ) (hk : (NextTok lx).cur.kind = TokKind.number)
    (hd : decimalLiteral (NextTok lx).cur.text = some d) :
    parseInternalUnits_aExpected IU_PER_MM aExpected lx
      = Except.ok (KiROUND (Clamp (-int_limit) (d * IU_PER_MM) int_limit), NextTok lx) := by
  have hp : parseDouble (NextTok lx) = Except.ok d :=
    (parseDouble_eq_ok_iff (NextTok lx) d).mpr hd
  simp [parseInternalUnits_aExpected, parseDouble_aExpected, NeedNUMBER, hk, hp]

theorem parseInternalUnits_aExpected_of_not_number (IU_PER_MM : ℚ) (aExpected : String)
    (lx : Lexer) (hk : (NextTok lx).cur.kind ≠ TokKind.number) :
    parseInternalUnits_aExpected IU_PER_MM aExpected lx
      = Except.error (ParseError.structural aExpected (NextTok lx).pos) := by
  simp [parseInternalUnits_aExpected, parseDouble_aExpected, NeedNUMBER, hk]

theorem NextTok_pos (lx : Lexer) : (NextTok lx).pos = lx.pos + 1 := by
  unfold NextTok
  cases lx.rest <;> rfl

theorem NextTok_cons (lx : Lexer) (t : Token) (ts : List Token) (h : lx.rest = t :: ts) :
    NextTok lx = ⟨t, ts, lx.pos + 1⟩ := by
  unfold NextTok
  rw [h]

theorem NextTok_cur_mem (lx : Lexer) (h : (NextTok lx).cur.kind = TokKind.number) :
    (NextTok lx).cur ∈ lx.rest := by
  unfold NextTok at h ⊢
  cases hr : lx.rest with
  | nil => rw [hr] at h; simp [eofToken] at h
  | cons t ts => simp

theorem NextTok_rest_subset (lx : Lexer) (t : Token) (h : t ∈ (NextTok lx).rest) :
    t ∈ lx.rest := by
  unfold NextTok at h
  cases hr : lx.rest with
  | nil => rw [hr] at h; simp at h
  | cons t1 ts => rw [hr] at h; exact List.mem_cons_of_mem _ h

theorem WellTyped_NextTok (lx : Lexer) (h : lx.WellTyped) : (NextTok lx).WellTyped :=
  fun t ht hk => h t (NextTok_rest_subset lx t ht) hk

theorem WellTyped_next_literal (lx : Lexer) (h : lx.WellTyped)
    (hk : (NextTok lx).cur.kind = TokKind.number) :
    ∃ d, decimalLiteral (NextTok lx).cur.text = some d := by
  have := h _ (NextTok_cur_mem lx hk) hk
  exact Option.isSome_iff_exists.mp this

/-- C5: when the next two tokens are numbers with values `n1` and `n2`,
`parseXY` returns the point whose x is the `parseInternalUnits` conversion of
the first token and whose y is that of the second, and leaves the lexer on the
second token: exactly two tokens are consumed. -/
theorem parseXY_of_two_numbers (IU_PER_MM : ℚ) (lx : Lexer) (t1 t2 : Token)
    (ts : List Token) (n1 n2 : ℚ)
    (hrest : lx.rest = t1 :: t2 :: ts)
    (hk1 : t1.kind = TokKind.number) (hk2 : t2.kind = TokKind.number)
    (h1 : decimalLiteral t1.text = some n1) (h2 : decimalLiteral t2.text = some n2) :
    parseXY IU_PER_MM lx
        = Except.ok (⟨KiROUND (Clamp (-int_limit) (n1 * IU_PER_MM) int_limit),
                      KiROUND (Clamp (-int_limit) (n2 * IU_PER_MM) int_limit)⟩,
                     ⟨t2, ts, lx.pos + 2⟩)
      ∧ parseInternalUnits IU_PER_MM ⟨t1, t2 :: ts, lx.pos + 1⟩
          = Except.ok (KiROUND (Clamp (-int_limit) (n1 * IU_PER_MM) int_limit))
      ∧ parseInternalUnits IU_PER_MM ⟨t2, ts, lx.pos + 2⟩
          = Except.ok (KiROUND (Clamp (-int_limit) (n2 * IU_PER_MM) int_limit)) := by
  have e1 : NextTok lx = ⟨t1, t2 :: ts, lx.pos + 1⟩ := NextTok_cons lx t1 (t2 :: ts) hrest
  have e2 : NextTok (⟨t1, t2 :: ts, lx.pos + 1⟩ : Lexer) = ⟨t2, ts, lx.pos + 2⟩ :=
    NextTok_cons _ t2 ts rfl
  refine ⟨?_, ?_, ?_⟩
  · unfold parseXY
    rw [parseInternalUnits_aExpected_of_number IU_PER_MM "X coordinate" lx n1
      (by rw [e1]; exact hk1) (by rw [e1]; exact h1)]
    simp only [e1]
    rw [parseInternalUnits_aExpected_of_number IU_PER_MM "Y coordinate" _ n2
      (by rw [e2]; exact hk2) (by rw [e2]; exact h2)]
    simp only [e2]
  · exact parseInternalUnits_of_parseDouble _ _ _
      ((parseDouble_eq_ok_iff _ _).mpr h1)
  · exact parseInternalUnits_of_parseDouble _ _ _
      ((parseDouble_eq_ok_iff _ _).mpr h2)

theorem decimalLiteral_2p54 : decimalLiteral "2.54" = some (127 / 50) := by
  simp [decimalLiteral, decimalParts_2p54, DecimalParts.value]
  norm_num

theorem KiROUND_Clamp_2p54 :
    KiROUND (Clamp (-int_limit) (127 / 50 * 10000) int_limit) = 25400 := by
  rw [int_limit_val]
  norm_num [Clamp, KiROUND, KiROUND_overflow, truncToInt, INT_MAX, INT_MIN]

theorem KiROUND_Clamp_200000 :
    KiROUND (Clamp (-int_limit) (200000 * 10000) int_limit) = 1518485687 := by
  have hc : Clamp (-int_limit) ((200000 : ℚ) * 10000) int_limit = int_limit := by
    rw [int_limit_val]
    norm_num [Clamp]
  rw [hc, KiROUND_int_limit]

theorem parseXY_of_two_numbers_witness :
    lexerAtXY.rest
        = ⟨TokKind.number, "2.54"⟩ :: ⟨TokKind.number, "200000"⟩ :: [⟨TokKind.right, ")"⟩]
      ∧ decimalLiteral "2.54" = some (127 / 50)
      ∧ decimalLiteral "200000" = some 200000
      ∧ parseXY 10000 lexerAtXY
          = Except.ok (⟨25400, 1518485687⟩,
              ⟨⟨TokKind.number, "200000"⟩, [⟨TokKind.right, ")"⟩], 4⟩) :=
  ⟨rfl, decimalLiteral_2p54, decimalLiteral_200000, by
    have h := (parseXY_of_two_numbers 10000 lexerAtXY ⟨TokKind.number, "2.54"⟩
      ⟨TokKind.number, "200000"⟩ [⟨TokKind.right, ")"⟩] (127 / 50) 200000 rfl rfl rfl
      decimalLiteral_2p54 decimalLiteral_200000).1
    rw [KiROUND_Clamp_2p54, KiROUND_Clamp_200000] at h
    exact h⟩

/-- C6: on a token stream typed by the lexer, `parseXY` fails with a structural
error naming "X coordinate" when the next token is not a number, fails with a
structural error naming "Y coordinate" when the next token is a number and the
one after it is not, and returns a point when both are numbers; so it returns a
point if and only if both tokens are numbers. -/
theorem parseXY_result_by_token_kinds (IU_PER_MM : ℚ) (lx : Lexer) (hwt : lx.WellTyped) :
    (((NextTok lx).cur.kind ≠ TokKind.number
        ∧ parseXY IU_PER_MM lx
            = Except.error (ParseError.structural "X coordinate" (lx.pos + 1)))
      ∨ ((NextTok lx).cur.kind = TokKind.number
        ∧ (NextTok (NextTok lx)).cur.kind ≠ TokKind.number
        ∧ parseXY IU_PER_MM lx
            = Except.error (ParseError.structural "Y coordinate" (lx.pos + 2)))
      ∨ ((NextTok lx).cur.kind = TokKind.number
        ∧ (NextTok (NextTok lx)).cur.kind = TokKind.number
        ∧ ∃ pt : wxPoint, ∃ lx2 : Lexer, parseXY IU_PER_MM lx = Except.ok (pt, lx2)))
    ∧ ((∃ pt : wxPoint, ∃ lx2 : Lexer, parseXY IU_PER_MM lx = Except.ok (pt, lx2))
        ↔ ((NextTok lx).cur.kind = TokKind.number
            ∧ (NextTok (NextTok lx)).cur.kind = TokKind.number)) := by
  by_cases hk1 : (NextTok lx).cur.kind = TokKind.number
  · obtain ⟨d1, hd1⟩ := WellTyped_next_literal lx hwt hk1
    have hx := parseInternalUnits_aExpected_of_number IU_PER_MM "X coordinate" lx d1 hk1 hd1
    by_cases hk2 : (NextTok (NextTok lx)).cur.kind = TokKind.number
    · obtain ⟨d2, hd2⟩ := WellTyped_next_literal _ (WellTyped_NextTok lx hwt) hk2
      have hy := parseInternalUnits_aExpected_of_number IU_PER_MM "Y coordinate"
        (NextTok lx) d2 hk2 hd2
      have hok : ∃ pt : wxPoint, ∃ lx2 : Lexer, parseXY IU_PER_MM lx = Except.ok (pt, lx2) := by
        refine ⟨⟨KiROUND (Clamp (-int_limit) (d1 * IU_PER_MM) int_limit),
          KiROUND (Clamp (-int_limit) (d2 * IU_PER_MM) int_limit)⟩,
          NextTok (NextTok lx), ?_⟩
        unfold parseXY
        rw [hx]
        simp only [hy]
      exact ⟨Or.inr (Or.inr ⟨hk1, hk2, hok⟩), ⟨fun _ => ⟨hk1, hk2⟩, fun _ => hok⟩⟩
    · have hy := parseInternalUnits_aExpected_of_not_number IU_PER_MM "Y coordinate"
        (NextTok lx) hk2
      have herr : parseXY IU_PER_MM lx
          = Except.error (ParseError.structural "Y coordinate" (lx.pos + 2)) := by
        unfold parseXY
        rw [hx]
        simp only [hy, NextTok_pos]
      refine ⟨Or.inr (Or.inl ⟨hk1, hk2, herr⟩), ⟨?_, fun h => absurd h.2 hk2⟩⟩
      rintro ⟨pt, lx2, h⟩
      rw [herr] at h
      cases h
  · have hx := parseInternalUnits_aExpected_of_not_number IU_PER_MM "X coordinate" lx hk1
    have herr : parseXY IU_PER_MM lx
        = Except.error (ParseError.structural "X coordinate" (lx.pos + 1)) := by
      unfold parseXY
      rw [hx]
      simp only [NextTok_pos]
    refine ⟨Or.inl ⟨hk1, herr⟩, ⟨?_, fun h => absurd h.1 hk1⟩⟩
    rintro ⟨pt, lx2, h⟩
    rw [herr] at h
    cases h

theorem decimalLiteral_isSome_2p54 : (decimalLiteral "2.54").isSome = true := by
  rw [decimalLiteral_2p54]
  rfl

theorem lexerAtBadY_WellTyped : lexerAtBadY.WellTyped := by
  intro t ht hk
  simp only [lexerAtBadY, List.mem_cons, List.mem_singleton, List.not_mem_nil, or_false] at ht
  rcases ht with rfl | rfl | rfl
  · exact decimalLiteral_isSome_2p54
  · cases hk
  · cases hk

theorem parseXY_result_by_token_kinds_witness :
    lexerAtBadY.WellTyped
      ∧ parseXY 10000 lexerAtBadY = Except.error (ParseError.structural "Y coordinate" 4)
      ∧ ¬ (∃ pt : wxPoint, ∃ lx2 : Lexer, parseXY 10000 lexerAtBadY = Except.ok (pt, lx2)) :=
  ⟨lexerAtBadY_WellTyped,
    by
      rcases (parseXY_result_by_token_kinds 10000 lexerAtBadY lexerAtBadY_WellTyped).1 with
        h | h | h
      · exact absurd rfl h.1
      · exact h.2.2
      · exact absurd h.2.1 (by decide),
    fun h => absurd
      (((parseXY_result_by_token_kinds 10000 lexerAtBadY lexerAtBadY_WellTyped).2.mp h).2)
      (by decide)⟩

/-! ## Numeric helpers -/

theorem strtol_of_no_digits (text : String) (base : Nat) (h : hasDigits text base = false) :
    strtol text base = 0 := by
  unfold hasDigits at h
  simp only [Bool.not_eq_false', List.isEmpty_iff] at h
  unfold strtol
  simp only [h, digitsValue, List.foldl_nil, LONG_MIN, LONG_MAX]
  split_ifs <;> simp_all

/-- C7 (as amended): `parseDouble` returns a value exactly when the text of the
current token is a decimal literal and fails with a numeric-format error exactly
when it is not; `parseInt` (current token, base 10) and `parseHex` (next token,
base 16) raise no error: they return the `strtol` conversion of the text, which
is 0 when the text holds no digit of the base. -/
theorem numeric_helpers_outcome (lx : Lexer) :
    (∀ d : ℚ, parseDouble lx = Except.ok d ↔ decimalLiteral (CurText lx) = some d)
      ∧ (parseDouble lx = Except.error (ParseError.numericFormat (CurText lx) lx.pos)
          ↔ decimalLiteral (CurText lx) = none)
      ∧ parseInt lx = Except.ok (toInt32 (strtol (CurText lx) 10))
      ∧ parseHex lx = Except.ok (strtol (CurText (NextTok lx)) 16, NextTok lx)
      ∧ (hasDigits (CurText lx) 10 = true ∨ parseInt lx = Except.ok 0)
      ∧ (hasDigits (CurText (NextTok lx)) 16 = true
          ∨ parseHex lx = Except.ok (0, NextTok lx)) := by
  refine ⟨parseDouble_eq_ok_iff lx, ?_, rfl, rfl, ?_, ?_⟩
  · unfold parseDouble
    cases h : decimalLiteral (CurText lx) with
    | none => simp
    | some v => simp
  · cases h : hasDigits (CurText lx) 10 with
    | true => exact Or.inl rfl
    | false =>
      right
      unfold parseInt
      rw [strtol_of_no_digits _ _ h]
      rfl
  · cases h : hasDigits (CurText (NextTok lx)) 16 with
    | true => exact Or.inl rfl
    | false =>
      right
      unfold parseHex
      simp only [strtol_of_no_digits _ _ h]

/-- C7 (as stated) fails: the text `abc` is not a base-10 number and `xyz` is
not a base-16 number, yet `parseInt` on the token `abc` and `parseHex` before
the token `xyz` both return the value 0 instead of failing. -/
theorem parseInt_parseHex_return_on_non_number :
    hasDigits "abc" 10 = false
      ∧ decimalLiteral "abc" = none
      ∧ parseInt lexerAtSymbols = Except.ok 0
      ∧ hasDigits "xyz" 16 = false
      ∧ parseHex lexerAtSymbols = Except.ok (0, ⟨⟨TokKind.symbol, "xyz"⟩, [], 2⟩) := by
  have h1 : hasDigits "abc" 10 = false := by decide
  have h2 : hasDigits "xyz" 16 = false := by decide
  have h3 : decimalParts "abc" = none := by decide
  refine ⟨h1, ?_, ?_, h2, ?_⟩
  · simp [decimalLiteral, h3]
  · have : strtol (CurText lexerAtSymbols) 10 = 0 := strtol_of_no_digits _ _ h1
    unfold parseInt
    rw [this]
    rfl
  · have hn : NextTok lexerAtSymbols = ⟨⟨TokKind.symbol, "xyz"⟩, [], 2⟩ := rfl
    have h0 : strtol (CurText (NextTok lexerAtSymbols)) 16 = 0 := strtol_of_no_digits _ _ h2
    unfold parseHex
    simp only [h0]
    rw [hn]

/-! ## Stroke parameters -/

/-- C10: a `STROKE_PARAMS` constructed with no arguments has width
`Mils2iu( DEFAULT_LINE_THICKNESS )`, dash type `PLOT_DASH_TYPE::DEFAULT` and
colour `COLOR4D::UNSPECIFIED`; constructed with explicit arguments it stores each
of the three unchanged. -/
theorem STROKE_PARAMS_construct_members {PLOT_DASH_TYPE COLOR4D : Type}
    (env : StrokeDefaults PLOT_DASH_TYPE COLOR4D) :
    ((STROKE_PARAMS.construct env none none none).m_Width
          = env.Mils2iu env.DEFAULT_LINE_THICKNESS
        ∧ (STROKE_PARAMS.construct env none none none).m_Type = env.DEFAULT
        ∧ (STROKE_PARAMS.construct env none none none).m_Color = env.UNSPECIFIED)
      ∧ ∀ (aWidth : Int) (aType : PLOT_DASH_TYPE) (aColor : COLOR4D),
          (STROKE_PARAMS.construct env (some aWidth) (some aType) (some aColor)).m_Width = aWidth
          ∧ (STROKE_PARAMS.construct env (some aWidth) (some aType) (some aColor)).m_Type = aType
          ∧ (STROKE_PARAMS.construct env (some aWidth) (some aType) (some aColor)).m_Color
              = aColor :=
  ⟨⟨rfl, rfl, rfl⟩, fun _ _ _ => ⟨rfl, rfl, rfl⟩⟩

/-! ## Version gate -/

theorem parseHeader_of_tokens (keyword : String) (p : SCH_SEXPR_PARSER) (N G : Token)
    (ts : List Token)
    (hcur : p.lexer.cur = ⟨TokKind.symbol, keyword⟩)
    (hrest : p.lexer.rest = headerTokens N G ts)
    (hN : N.kind = TokKind.number)
    (hG : G.kind = TokKind.symbol ∨ G.kind = TokKind.string) :
    parseHeader keyword p
      = Except.ok { p with
          lexer := ⟨⟨TokKind.right, ")"⟩, ts, p.lexer.pos + 8⟩,
          m_requiredVersion := toInt32 (strtol N.text 10) } := by
  unfold parseHeader
  rw [if_pos hcur]
  simp [NeedLEFT, NeedRIGHT, NeedKeyword, NeedSYMBOL, NeedNUMBER, parseInt_aExpected, parseInt,
    NextTok, CurText, hrest, headerTokens, hN, hG]

theorem IsTooRecent_eq_false_iff (maxVersion : Int) (p : SCH_SEXPR_PARSER) :
    IsTooRecent maxVersion p = false ↔ p.m_requiredVersion ≤ maxVersion := by
  simp [IsTooRecent]

theorem IsTooRecent_eq_true_iff (maxVersion : Int) (p : SCH_SEXPR_PARSER) :
    IsTooRecent maxVersion p = true ↔ maxVersion + 1 ≤ p.m_requiredVersion := by
  simp [IsTooRecent, Int.add_one_le_iff]

/-- C8: after `parseHeader` has read a header declaring version `N`,
`IsTooRecent()` is false exactly when `N` is at most the maximum supported
version, and true exactly when `N` is at least the maximum plus one (so it is
true for a document declaring the maximum plus one). -/
theorem IsTooRecent_after_parseHeader (maxVersion : Int) (keyword : String)
    (p : SCH_SEXPR_PARSER) (N G : Token) (ts : List Token)
    (hcur : p.lexer.cur = ⟨TokKind.symbol, keyword⟩)
    (hrest : p.lexer.rest = headerTokens N G ts)
    (hN : N.kind = TokKind.number)
    (hG : G.kind = TokKind.symbol ∨ G.kind = TokKind.string) :
    ∃ p1 : SCH_SEXPR_PARSER, parseHeader keyword p = Except.ok p1
      ∧ p1.m_requiredVersion = toInt32 (strtol N.text 10)
      ∧ (IsTooRecent maxVersion p1 = false ↔ toInt32 (strtol N.text 10) ≤ maxVersion)
      ∧ (IsTooRecent maxVersion p1 = true ↔ maxVersion + 1 ≤ toInt32 (strtol N.text 10)) :=
  ⟨_, parseHeader_of_tokens keyword p N G ts hcur hrest hN hG, rfl,
    IsTooRecent_eq_false_iff maxVersion _, IsTooRecent_eq_true_iff maxVersion _⟩

theorem toInt32_strtol_20200310 : toInt32 (strtol "20200310" 10) = 20200310 := by
  decide

theorem toInt32_strtol_20200311 : toInt32 (strtol "20200311" 10) = 20200311 := by
  decide

theorem IsTooRecent_after_parseHeader_witness :
    (∃ p1 : SCH_SEXPR_PARSER,
        parseHeader "kicad_sch"
            (parserAtHeader "kicad_sch"
              (headerTokens ⟨TokKind.number, "20200310"⟩ ⟨TokKind.symbol, "eeschema"⟩ []))
          = Except.ok p1
        ∧ IsTooRecent 20200310 p1 = false)
      ∧ (∃ p1 : SCH_SEXPR_PARSER,
        parseHeader "kicad_sch"
            (parserAtHeader "kicad_sch"
              (headerTokens ⟨TokKind.number, "20200311"⟩ ⟨TokKind.symbol, "eeschema"⟩ []))
          = Except.ok p1
        ∧ IsTooRecent 20200310 p1 = true) := by
  constructor
  · obtain ⟨p1, h1, _, h3, _⟩ := IsTooRecent_after_parseHeader 20200310 "kicad_sch"
      (parserAtHeader "kicad_sch"
        (headerTokens ⟨TokKind.number, "20200310"⟩ ⟨TokKind.symbol, "eeschema"⟩ []))
      ⟨TokKind.number, "20200310"⟩ ⟨TokKind.symbol, "eeschema"⟩ [] rfl rfl rfl (Or.inl rfl)
    exact ⟨p1, h1, h3.mpr (by rw [toInt32_strtol_20200310])⟩
  · obtain ⟨p1, h1, _, _, h4⟩ := IsTooRecent_after_parseHeader 20200310 "kicad_sch"
      (parserAtHeader "kicad_sch"
        (headerTokens ⟨TokKind.number, "20200311"⟩ ⟨TokKind.symbol, "eeschema"⟩ []))
      ⟨TokKind.number, "20200311"⟩ ⟨TokKind.symbol, "eeschema"⟩ [] rfl rfl rfl (Or.inl rfl)
    exact ⟨p1, h1, h4.mpr (by rw [toInt32_strtol_20200311]; decide)⟩

theorem NeedLEFT_NextTok_of_document (p : SCH_SEXPR_PARSER) (keyword : String) (N G : Token)
    (ts : List Token) (h : p.lexer.rest = documentTokens keyword N G ts) :
    ∃ lx1 : Lexer, NeedLEFT p.lexer = Except.ok lx1
      ∧ (NextTok lx1).cur = ⟨TokKind.symbol, keyword⟩
      ∧ (NextTok lx1).rest = headerTokens N G ts := by
  refine ⟨⟨⟨TokKind.left, "("⟩, ⟨TokKind.symbol, keyword⟩ :: headerTokens N G ts,
    p.lexer.pos + 1⟩, ?_, rfl, rfl⟩
  simp [NeedLEFT, NextTok, h, documentTokens]

/-- C9: when a document declares a version above the maximum supported one,
`ParseLib` and `ParseSchematic` return right after the header without raising,
whatever tokens follow and whatever the body loop would do with them: the
library map and the sheet come back unchanged and no token after the header is
read. -/
theorem ParseLib_ParseSchematic_too_recent {LIB_PART_MAP SCH_SHEET : Type}
    (maxVersion : Int)
    (parseSymbols : SCH_SEXPR_PARSER → LIB_PART_MAP →
      Except ParseError (SCH_SEXPR_PARSER × LIB_PART_MAP))
    (parseItems : SCH_SEXPR_PARSER → SCH_SHEET →
      Except ParseError (SCH_SEXPR_PARSER × SCH_SHEET))
    (pL pS : SCH_SEXPR_PARSER) (aSymbolLibMap : LIB_PART_MAP) (aSheet : SCH_SHEET)
    (N G : Token) (tsL tsS : List Token)
    (hL : pL.lexer.rest = documentTokens "kicad_symbol_lib" N G tsL)
    (hS : pS.lexer.rest = documentTokens "kicad_sch" N G tsS)
    (hN : N.kind = TokKind.number)
    (hG : G.kind = TokKind.symbol ∨ G.kind = TokKind.string)
    (hrecent : maxVersion < toInt32 (strtol N.text 10)) :
    (∃ p1 : SCH_SEXPR_PARSER,
        ParseLib maxVersion parseSymbols pL aSymbolLibMap = Except.ok (p1, aSymbolLibMap)
        ∧ IsTooRecent maxVersion p1 = true ∧ p1.lexer.rest = tsL)
      ∧ (∃ p1 : SCH_SEXPR_PARSER,
        ParseSchematic maxVersion parseItems pS aSheet = Except.ok (p1, aSheet)
        ∧ IsTooRecent maxVersion p1 = true ∧ p1.lexer.rest = tsS) := by
  constructor
  · obtain ⟨lx1, h1, h2, h3⟩ := NeedLEFT_NextTok_of_document pL _ N G tsL hL
    have hh := parseHeader_of_tokens "kicad_symbol_lib" { pL with lexer := NextTok lx1 }
      N G tsL h2 h3 hN hG
    have ht : IsTooRecent maxVersion
        { pL with
          lexer := ⟨⟨TokKind.right, ")"⟩, tsL, (NextTok lx1).pos + 8⟩,
          m_requiredVersion := toInt32 (strtol N.text 10) } = true := by
      simp [IsTooRecent, hrecent]
    refine ⟨_, ?_, ht, rfl⟩
    unfold ParseLib
    rw [h1]
    simp only [hh]
    rw [if_pos ht]
  · obtain ⟨lx1, h1, h2, h3⟩ := NeedLEFT_NextTok_of_document pS _ N G tsS hS
    have hh := parseHeader_of_tokens "kicad_sch" { pS with lexer := NextTok lx1 }
      N G tsS h2 h3 hN hG
    have ht : IsTooRecent maxVersion
        { pS with
          lexer := ⟨⟨TokKind.right, ")"⟩, tsS, (NextTok lx1).pos + 8⟩,
          m_requiredVersion := toInt32 (strtol N.text 10) } = true := by
      simp [IsTooRecent, hrecent]
    refine ⟨_, ?_, ht, rfl⟩
    unfold ParseSchematic
    rw [h1]
    simp only [hh]
    rw [if_pos ht]

theorem ParseLib_ParseSchematic_too_recent_witness :
    (20200310 : Int) < toInt32 (strtol "20200311" 10)
      ∧ (∃ p1 : SCH_SEXPR_PARSER,
        ParseLib 20200310 rejectBody
            (newParser (documentTokens "kicad_symbol_lib" ⟨TokKind.number, "20200311"⟩
              ⟨TokKind.symbol, "eeschema"⟩ [⟨TokKind.right, ")"⟩, ⟨TokKind.right, ")"⟩]))
            ["R"]
          = Except.ok (p1, ["R"]))
      ∧ (∃ p1 : SCH_SEXPR_PARSER,
        ParseSchematic 20200310 rejectBody
            (newParser (documentTokens "kicad_sch" ⟨TokKind.number, "20200311"⟩
              ⟨TokKind.symbol, "eeschema"⟩ [⟨TokKind.symbol, "wire"⟩]))
            (0 : Nat)
          = Except.ok (p1, 0)) := by
  have hlt : (20200310 : Int) < toInt32 (strtol "20200311" 10) := by
    rw [toInt32_strtol_20200311]
    decide
  have h := ParseLib_ParseSchematic_too_recent 20200310
    (rejectBody : SCH_SEXPR_PARSER → List String → _) (rejectBody : SCH_SEXPR_PARSER → Nat → _)
    (newParser (documentTokens "kicad_symbol_lib" ⟨TokKind.number, "20200311"⟩
      ⟨TokKind.symbol, "eeschema"⟩ [⟨TokKind.right, ")"⟩, ⟨TokKind.right, ")"⟩]))
    (newParser (documentTokens "kicad_sch" ⟨TokKind.number, "20200311"⟩
      ⟨TokKind.symbol, "eeschema"⟩ [⟨TokKind.symbol, "wire"⟩]))
    ["R"] 0 ⟨TokKind.number, "20200311"⟩ ⟨TokKind.symbol, "eeschema"⟩
    [⟨TokKind.right, ")"⟩, ⟨TokKind.right, ")"⟩] [⟨TokKind.symbol, "wire"⟩]
    rfl rfl rfl (Or.inl rfl) hlt
  obtain ⟨⟨p1, h1, _, _⟩, ⟨p2, h2, _, _⟩⟩ := h
  exact ⟨hlt, ⟨p1, h1⟩, ⟨p2, h2⟩⟩

/-! ## Range of the converted values -/

theorem parseInternalUnits_aExpected_ok_inv (IU_PER_MM : ℚ) (aExpected : String)
    (lx lx1 : Lexer) (n : Int)
    (h : parseInternalUnits_aExpected IU_PER_MM aExpected lx = Except.ok (n, lx1)) :
    lx1 = NextTok lx ∧ (NextTok lx).cur.kind = TokKind.number
      ∧ ∃ d : ℚ, decimalLiteral (NextTok lx).cur.text = some d
          ∧ n = KiROUND (Clamp (-int_limit) (d * IU_PER_MM) int_limit) := by
  by_cases hk : (NextTok lx).cur.kind = TokKind.number
  · cases hd : decimalLiteral (NextTok lx).cur.text with
    | none =>
      have hp : parseDouble (NextTok lx)
          = Except.error (ParseError.numericFormat (CurText (NextTok lx)) (NextTok lx).pos) := by
        unfold parseDouble
        simp only [CurText, hd]
      simp [parseInternalUnits_aExpected, parseDouble_aExpected, NeedNUMBER, hk, hp] at h
    | some d =>
      rw [parseInternalUnits_aExpected_of_number IU_PER_MM aExpected lx d hk hd] at h
      injection h with h
      injection h with h1 h2
      exact ⟨h2.symm, hk, d, rfl, h1.symm⟩
  · rw [parseInternalUnits_aExpected_of_not_number IU_PER_MM aExpected lx hk] at h
    cases h

theorem parseInternalUnits_aExpected_range (IU_PER_MM : ℚ) (aExpected : String)
    (lx lx1 : Lexer) (n : Int)
    (h : parseInternalUnits_aExpected IU_PER_MM aExpected lx = Except.ok (n, lx1)) :
    -1518485687 ≤ n ∧ n ≤ 1518485687 := by
  obtain ⟨_, _, d, _, hn⟩ := parseInternalUnits_aExpected_ok_inv IU_PER_MM aExpected lx lx1 n h
  rw [hn]
  exact KiROUND_abs_le _ (Clamp_abs_le _)

/-- C19: for every input value, `parseInternalUnits` returns an integer in
`[-1518485687, 1518485687]`, the rounding of `INT32_MAX * 0.7071`; the value
fits a signed 32-bit `int` and the overflow branch of the rounding is not
taken. The same range holds for the overload that first requires a number
token. -/
theorem parseInternalUnits_fits_int (IU_PER_MM : ℚ) (lx : Lexer) (v : ℚ)
    (hv : parseDouble lx = Except.ok v) :
    (∃ n : Int, parseInternalUnits IU_PER_MM lx = Except.ok n
        ∧ (-1518485687 ≤ n ∧ n ≤ 1518485687)
        ∧ (INT_MIN ≤ n ∧ n ≤ INT_MAX))
      ∧ KiROUND_overflow (Clamp (-int_limit) (v * IU_PER_MM) int_limit) = false
      ∧ KiROUND int_limit = 1518485687
      ∧ ∀ (aExpected : String) (lx2 : Lexer),
          match parseInternalUnits_aExpected IU_PER_MM aExpected lx2 with
          | Except.ok r => -1518485687 ≤ r.1 ∧ r.1 ≤ 1518485687
          | Except.error _ => True := by
  have h := parseInternalUnits_of_parseDouble IU_PER_MM lx v hv
  have hr := parseInternalUnits_range IU_PER_MM lx _ h
  refine ⟨⟨_, h, hr, ?_⟩, KiROUND_overflow_of_abs_le _ (Clamp_abs_le _), KiROUND_int_limit, ?_⟩
  · unfold INT_MIN INT_MAX
    omega
  · intro aExpected lx2
    cases hx : parseInternalUnits_aExpected IU_PER_MM aExpected lx2 with
    | error e => trivial
    | ok r =>
      obtain ⟨n, lx3⟩ := r
      exact parseInternalUnits_aExpected_range IU_PER_MM aExpected lx2 lx3 n hx

theorem parseInternalUnits_fits_int_witness :
    parseDouble (lexerAtNumber "200000") = Except.ok 200000
      ∧ parseInternalUnits 10000 (lexerAtNumber "200000") = Except.ok 1518485687
      ∧ KiROUND_overflow (Clamp (-int_limit) (200000 * 10000) int_limit) = false :=
  ⟨parseDouble_lexerAtNumber_200000, parseInternalUnits_lexerAtNumber_200000,
    (parseInternalUnits_fits_int 10000 (lexerAtNumber "200000") 200000
      parseDouble_lexerAtNumber_200000).2.1⟩

theorem parseXY_ok_inv (IU_PER_MM : ℚ) (lx lx2 : Lexer) (pt : wxPoint)
    (h : parseXY IU_PER_MM lx = Except.ok (pt, lx2)) :
    ∃ lx1 : Lexer,
      parseInternalUnits_aExpected IU_PER_MM "X coordinate" lx = Except.ok (pt.x, lx1)
        ∧ parseInternalUnits_aExpected IU_PER_MM "Y coordinate" lx1 = Except.ok (pt.y, lx2) := by
  unfold parseXY at h
  cases hx : parseInternalUnits_aExpected IU_PER_MM "X coordinate" lx with
  | error e => rw [hx] at h; cases h
  | ok r =>
    obtain ⟨x, lx1⟩ := r
    rw [hx] at h
    simp only at h
    cases hy : parseInternalUnits_aExpected IU_PER_MM "Y coordinate" lx1 with
    | error e => rw [hy] at h; cases h
    | ok r2 =>
      obtain ⟨y, lx3⟩ := r2
      rw [hy] at h
      simp only at h
      injection h with h
      injection h with h1 h2
      subst h1 h2
      exact ⟨lx1, rfl, hy⟩

theorem mul_self_le_of_range (x : Int) (h : -1518485687 ≤ x ∧ x ≤ 1518485687) :
    x * x ≤ 1518485687 * 1518485687 := by
  have h1 : |x| ≤ 1518485687 := abs_le.mpr h
  have h2 := mul_self_le_mul_self (abs_nonneg x) h1
  rwa [abs_mul_abs_self] at h2

/-- C20: for every point `(x, y)` returned by `parseXY`,
`x*x + y*y <= INT32_MAX * INT32_MAX`: the Euclidean magnitude of a parsed point
never exceeds the signed 32-bit maximum. -/
theorem parseXY_magnitude_le (IU_PER_MM : ℚ) (lx lx2 : Lexer) (pt : wxPoint)
    (h : parseXY IU_PER_MM lx = Except.ok (pt, lx2)) :
    pt.x * pt.x + pt.y * pt.y ≤ INT_MAX * INT_MAX := by
  obtain ⟨lx1, hx, hy⟩ := parseXY_ok_inv IU_PER_MM lx lx2 pt h
  have h1 := mul_self_le_of_range _ (parseInternalUnits_aExpected_range _ _ _ _ _ hx)
  have h2 := mul_self_le_of_range _ (parseInternalUnits_aExpected_range _ _ _ _ _ hy)
  unfold INT_MAX
  omega

theorem parseXY_lexerAtXY :
    parseXY 10000 lexerAtXY
      = Except.ok (⟨25400, 1518485687⟩,
          ⟨⟨TokKind.number, "200000"⟩, [⟨TokKind.right, ")"⟩], 4⟩) := by
  have e1 : NextTok lexerAtXY
      = ⟨⟨TokKind.number, "2.54"⟩,
          [⟨TokKind.number, "200000"⟩, ⟨TokKind.right, ")"⟩], 3⟩ := rfl
  have e2 : NextTok (⟨⟨TokKind.number, "2.54"⟩,
        [⟨TokKind.number, "200000"⟩, ⟨TokKind.right, ")"⟩], 3⟩ : Lexer)
      = ⟨⟨TokKind.number, "200000"⟩, [⟨TokKind.right, ")"⟩], 4⟩ := rfl
  unfold parseXY
  rw [parseInternalUnits_aExpected_of_number 10000 "X coordinate" lexerAtXY (127 / 50)
    (by rw [e1]) (by rw [e1]; exact decimalLiteral_2p54)]
  simp only [e1]
  rw [parseInternalUnits_aExpected_of_number 10000 "Y coordinate" _ 200000
    (by rw [e2]) (by rw [e2]; exact decimalLiteral_200000)]
  simp only [e2, KiROUND_Clamp_2p54, KiROUND_Clamp_200000]

theorem parseXY_magnitude_le_witness :
    parseXY 10000 lexerAtXY
        = Except.ok (⟨25400, 1518485687⟩,
            ⟨⟨TokKind.number, "200000"⟩, [⟨TokKind.right, ")"⟩], 4⟩)
      ∧ (25400 : Int) * 25400 + 1518485687 * 1518485687 ≤ INT_MAX * INT_MAX :=
  ⟨parseXY_lexerAtXY,
    parseXY_magnitude_le 10000 lexerAtXY _ ⟨25400, 1518485687⟩ parseXY_lexerAtXY⟩

/-! ## The symbol view -/

theorem DisplayComponent_fields_eq (v : SCH_VIEW) (items : List LIB_ITEM) :
    DisplayComponent_fields v items
      = { v with m_allItems :=
            v.m_allItems ++ (shownFields items).map (fun i => VIEW_ITEM.item i.addr) } := by
  induction items generalizing v with
  | nil => simp [DisplayComponent_fields, shownFields]
  | cons a l ih =>
    have hstep : DisplayComponent_fields v (a :: l)
        = DisplayComponent_fields
            (if a.type ≠ KICAD_T.LIB_FIELD_T then v
              else if a.text.isEmpty then v
              else v.Add (VIEW_ITEM.item a.addr)) l := by
      simp only [DisplayComponent_fields, List.foldl_cons]
    rw [hstep, ih]
    by_cases ht : a.type = KICAD_T.LIB_FIELD_T
    · by_cases he : a.text.isEmpty = true
      · simp [shownFields, List.filter_cons, ht, he]
      · simp [shownFields, List.filter_cons, ht, he, SCH_VIEW.Add]
    · simp [shownFields, List.filter_cons, ht]

theorem DisplayComponent_drawn_alias_eq (v : SCH_VIEW) (items : List LIB_ITEM) :
    DisplayComponent_drawn v true items
      = { v with m_allItems :=
            v.m_allItems ++ (nonFields items).map (fun i => VIEW_ITEM.item i.addr) } := by
  induction items generalizing v with
  | nil => simp [DisplayComponent_drawn, nonFields]
  | cons a l ih =>
    have hstep : DisplayComponent_drawn v true (a :: l)
        = DisplayComponent_drawn
            (if a.type = KICAD_T.LIB_FIELD_T then v else v.Add (VIEW_ITEM.item a.addr))
            true l := by
      simp only [DisplayComponent_drawn, List.foldl_cons, true_and]
    rw [hstep, ih]
    by_cases ht : a.type = KICAD_T.LIB_FIELD_T
    · simp [nonFields, List.filter_cons, ht]
    · simp [nonFields, List.filter_cons, ht, SCH_VIEW.Add]

theorem DisplayComponent_alias_items (v : SCH_VIEW) (part parent : LIB_PART)
    (halias : part.IsAlias = true) (hparent : part.lockParent = some parent) :
    (DisplayComponent v (some part)).m_allItems
      = (shownFields part.GetDrawItems).map (fun i => VIEW_ITEM.item i.addr)
        ++ (nonFields parent.GetDrawItems).map (fun i => VIEW_ITEM.item i.addr)
        ++ [VIEW_ITEM.selectionArea, VIEW_ITEM.preview] := by
  simp [DisplayComponent, halias, hparent, DisplayComponent_fields_eq,
    DisplayComponent_drawn_alias_eq, SCH_VIEW.resetPreview, SCH_VIEW.Add, SCH_VIEW.Clear]


theorem shown_items_nodup (own drawn : List LIB_ITEM)
    (h : ((own ++ drawn).map LIB_ITEM.addr).Nodup) :
    (((shownFields own) ++ (nonFields drawn)).map (fun i => VIEW_ITEM.item i.addr)).Nodup := by
  have hsub : ((shownFields own) ++ (nonFields drawn)).Sublist (own ++ drawn) :=
    List.Sublist.append (List.filter_sublist _) (List.filter_sublist _)
  have h1 : (((shownFields own) ++ (nonFields drawn)).map LIB_ITEM.addr).Nodup :=
    List.Nodup.sublist (hsub.map _) h
  have h2 := List.Nodup.map (f := VIEW_ITEM.item)
    (fun a b hab => by injection hab) h1
  simpa [List.map_map, Function.comp_def] using h2

theorem count_shown_eq_one (own drawn : List LIB_ITEM)
    (h : ((own ++ drawn).map LIB_ITEM.addr).Nodup) (i : LIB_ITEM)
    (hi : i ∈ shownFields own ++ nonFields drawn) :
    List.count (VIEW_ITEM.item i.addr)
        ((shownFields own).map (fun i => VIEW_ITEM.item i.addr)
          ++ (nonFields drawn).map (fun i => VIEW_ITEM.item i.addr)
          ++ [VIEW_ITEM.selectionArea, VIEW_ITEM.preview]) = 1 := by
  have hnd := shown_items_nodup own drawn h
  have hmem : VIEW_ITEM.item i.addr
      ∈ ((shownFields own) ++ (nonFields drawn)).map (fun i => VIEW_ITEM.item i.addr) :=
    List.mem_map_of_mem _ hi
  have h1 := List.count_eq_one_of_mem hnd hmem
  rw [List.map_append] at h1
  rw [List.count_append, h1]
  simp

/-- C14: for every alias symbol whose parent can be resolved, `DisplayComponent`
leaves in the view the alias's own fields that have a non-empty text, followed
by the draw items of the parent that are not fields (then the selection area
and the preview group). The symbol's items being distinct objects, each of
those is shown exactly once, and no field of the parent is shown. -/
theorem DisplayComponent_alias_shows (v : SCH_VIEW) (part parent : LIB_PART)
    (halias : part.IsAlias = true) (hparent : part.lockParent = some parent)
    (hdistinct : ((part.GetDrawItems ++ parent.GetDrawItems).map LIB_ITEM.addr).Nodup) :
    (DisplayComponent v (some part)).m_allItems
        = (shownFields part.GetDrawItems).map (fun i => VIEW_ITEM.item i.addr)
          ++ (nonFields parent.GetDrawItems).map (fun i => VIEW_ITEM.item i.addr)
          ++ [VIEW_ITEM.selectionArea, VIEW_ITEM.preview]
      ∧ (∀ i ∈ part.GetDrawItems, i.type = KICAD_T.LIB_FIELD_T → i.text.isEmpty = false →
          List.count (VIEW_ITEM.item i.addr) (DisplayComponent v (some part)).m_allItems = 1)
      ∧ (∀ i ∈ parent.GetDrawItems, i.type ≠ KICAD_T.LIB_FIELD_T →
          List.count (VIEW_ITEM.item i.addr) (DisplayComponent v (some part)).m_allItems = 1)
      ∧ (∀ i ∈ parent.GetDrawItems, i.type = KICAD_T.LIB_FIELD_T →
          VIEW_ITEM.item i.addr ∉ (DisplayComponent v (some part)).m_allItems) := by
  have heq := DisplayComponent_alias_items v part parent halias hparent
  refine ⟨heq, ?_, ?_, ?_⟩
  · intro i hi ht he
    rw [heq]
    apply count_shown_eq_one _ _ hdistinct
    apply List.mem_append_left
    simp [shownFields, hi, ht, he]
  · intro i hi ht
    rw [heq]
    apply count_shown_eq_one _ _ hdistinct
    apply List.mem_append_right
    simp [nonFields, hi, ht]
  · intro i hi ht hmem
    rw [heq] at hmem
    have hinj := List.inj_on_of_nodup_map hdistinct
    have himem : i ∈ part.GetDrawItems ++ parent.GetDrawItems := List.mem_append_right _ hi
    simp only [List.mem_append, List.mem_map, List.mem_cons, List.mem_singleton,
      List.not_mem_nil, or_false] at hmem
    rcases hmem with (⟨a, ha, hae⟩ | ⟨b, hb, hbe⟩) | h3
    · have haddr : a.addr = i.addr := by injection hae
      have hamem : a ∈ part.GetDrawItems := (List.mem_filter.mp ha).1
      have hai : a = i := hinj (List.mem_append_left _ hamem) himem haddr
      subst hai
      -- the same object would occur in both lists
      have hcount := List.nodup_append.mp
        (by simpa [List.map_append] using hdistinct :
          (part.GetDrawItems.map LIB_ITEM.addr ++ parent.GetDrawItems.map LIB_ITEM.addr).Nodup)
      exact hcount.2.2 (List.mem_map_of_mem _ hamem) (List.mem_map_of_mem _ hi)
    · have haddr : b.addr = i.addr := by injection hbe
      have hb2 := List.mem_filter.mp hb
      have hbi : b = i := hinj (List.mem_append_right _ hb2.1) himem haddr
      subst hbi
      simp [ht] at hb2
    · rcases h3 with h3 | h3 <;> cases h3

theorem DisplayComponent_alias_shows_witness :
    exampleAlias.IsAlias = true
      ∧ exampleAlias.lockParent = some exampleParent
      ∧ ((exampleAlias.GetDrawItems ++ exampleParent.GetDrawItems).map LIB_ITEM.addr).Nodup
      ∧ (DisplayComponent emptyView (some exampleAlias)).m_allItems
          = [VIEW_ITEM.item 20, VIEW_ITEM.item 11, VIEW_ITEM.item 12,
              VIEW_ITEM.selectionArea, VIEW_ITEM.preview] :=
  ⟨rfl, rfl, by decide,
    (DisplayComponent_alias_shows emptyView exampleAlias exampleParent rfl rfl
      (by decide)).1.trans (by decide)⟩

/-! ## Project data on demand -/

/-- C13: `PROJECT::SchLibs` does not propagate a library load failure. When the
project has no library set yet and `LoadAllLibraries` raises a `PARSE_ERROR` or
an `IO_ERROR`, the error is caught and reported to the user (the list of
libraries not found, or the error text), and `SchLibs` returns normally the
non-null library set that it registered with the project. -/
theorem SchLibs_catches_load_failure
    (LoadAllLibraries : PROJECT → PART_LIBS → PART_LIBS × Option Thrown)
    (prj : PROJECT) (e : Thrown)
    (hnone : prj.ELEM_SCH_PART_LIBS = none)
    (hraise : (LoadAllLibraries { prj with ELEM_SCH_PART_LIBS := some ⟨[]⟩ } ⟨[]⟩).2 = some e)
    (hkind : (∃ inputLine, e = Thrown.PARSE_ERROR inputLine)
      ∨ (∃ what, e = Thrown.IO_ERROR what)) :
    ∃ libs : PART_LIBS,
      (PROJECT.SchLibs LoadAllLibraries prj).result = Except.ok (some libs)
        ∧ (PROJECT.SchLibs LoadAllLibraries prj).project.ELEM_SCH_PART_LIBS = some libs
        ∧ libs = (LoadAllLibraries { prj with ELEM_SCH_PART_LIBS := some ⟨[]⟩ } ⟨[]⟩).1
        ∧ ((∃ inputLine, e = Thrown.PARSE_ERROR inputLine
              ∧ (PROJECT.SchLibs LoadAllLibraries prj).reports
                  = [UserReport.notFound inputLine])
          ∨ (∃ what, e = Thrown.IO_ERROR what
              ∧ (PROJECT.SchLibs LoadAllLibraries prj).reports
                  = [UserReport.displayError what])) := by
  refine ⟨(LoadAllLibraries { prj with ELEM_SCH_PART_LIBS := some ⟨[]⟩ } ⟨[]⟩).1, ?_⟩
  rcases hkind with ⟨inputLine, rfl⟩ | ⟨what, rfl⟩
  · refine ⟨?_, ?_, rfl, Or.inl ⟨inputLine, rfl, ?_⟩⟩ <;>
      simp [PROJECT.SchLibs, hnone, hraise]
  · refine ⟨?_, ?_, rfl, Or.inr ⟨what, rfl, ?_⟩⟩ <;>
      simp [PROJECT.SchLibs, hnone, hraise]

theorem SchLibs_catches_load_failure_witness :
    (⟨none⟩ : PROJECT).ELEM_SCH_PART_LIBS = none
      ∧ (loadWithMissing { (⟨none⟩ : PROJECT) with ELEM_SCH_PART_LIBS := some ⟨[]⟩ } ⟨[]⟩).2
          = some (Thrown.PARSE_ERROR "power, conn")
      ∧ ∃ libs : PART_LIBS,
          (PROJECT.SchLibs loadWithMissing ⟨none⟩).result = Except.ok (some libs)
            ∧ (PROJECT.SchLibs loadWithMissing ⟨none⟩).project.ELEM_SCH_PART_LIBS = some libs
            ∧ libs = ⟨["device"]⟩ := by
  refine ⟨rfl, rfl, ?_⟩
  obtain ⟨libs, h1, h2, h3, _⟩ := SchLibs_catches_load_failure loadWithMissing ⟨none⟩
    (Thrown.PARSE_ERROR "power, conn") rfl rfl (Or.inl ⟨_, rfl⟩)
  exact ⟨libs, h1, h2, h3⟩

/-! ## Adding an item to the screen -/

theorem trimAll_data (i : wxPoint) (l : List wxPoint) (g : SCH_EDIT_FRAME) :
    (l.foldl (fun acc j => acc.call (FrameCall.TrimWire i j)) g).screenItems = g.screenItems
      ∧ (l.foldl (fun acc j => acc.call (FrameCall.TrimWire i j)) g).sheetPins = g.sheetPins
      ∧ (l.foldl (fun acc j => acc.call (FrameCall.TrimWire i j)) g).undoList
          = g.undoList := by
  induction l generalizing g with
  | nil => exact ⟨rfl, rfl, rfl⟩
  | cons a l ih =>
    simp only [List.foldl_cons]
    exact ih (g.call (FrameCall.TrimWire i a))

theorem connectPoints_data (IsJunctionNeeded : SCH_EDIT_FRAME → wxPoint → Bool)
    (pts : List wxPoint) (f : SCH_EDIT_FRAME) :
    (connectPoints IsJunctionNeeded f pts).screenItems = f.screenItems
      ∧ (connectPoints IsJunctionNeeded f pts).sheetPins = f.sheetPins
      ∧ (connectPoints IsJunctionNeeded f pts).undoList = f.undoList := by
  induction pts generalizing f with
  | nil => exact ⟨rfl, rfl, rfl⟩
  | cons i rest ih =>
    simp only [connectPoints]
    obtain ⟨h1, h2, h3⟩ := trimAll_data i rest f
    split_ifs with hj
    · obtain ⟨k1, k2, k3⟩ := ih
        ((rest.foldl (fun acc j => acc.call (FrameCall.TrimWire i j)) f).call
          (FrameCall.AddJunction i))
      exact ⟨k1.trans h1, k2.trans h2, k3.trans h3⟩
    · obtain ⟨k1, k2, k3⟩ := ih (rest.foldl (fun acc j => acc.call (FrameCall.TrimWire i j)) f)
      exact ⟨k1.trans h1, k2.trans h2, k3.trans h3⟩

theorem refreshAll_data (l : List Nat) (g : SCH_EDIT_FRAME) :
    (l.foldl (fun acc i => acc.call (FrameCall.RefreshItem i)) g).screenItems = g.screenItems
      ∧ (l.foldl (fun acc i => acc.call (FrameCall.RefreshItem i)) g).sheetPins = g.sheetPins
      ∧ (l.foldl (fun acc i => acc.call (FrameCall.RefreshItem i)) g).undoList
          = g.undoList := by
  induction l generalizing g with
  | nil => exact ⟨rfl, rfl, rfl⟩
  | cons a l ih =>
    simp only [List.foldl_cons]
    exact ih (g.call (FrameCall.RefreshItem a))

theorem upkeep_data (IsJunctionNeeded : SCH_EDIT_FRAME → wxPoint → Bool)
    (ConnectedItems : SCH_EDIT_FRAME → SCH_ITEM → List Nat)
    (f : SCH_EDIT_FRAME) (aItem : SCH_ITEM) :
    (AddItemToScreenAndUndoList_upkeep IsJunctionNeeded ConnectedItems f aItem).screenItems
        = f.screenItems
      ∧ (AddItemToScreenAndUndoList_upkeep IsJunctionNeeded ConnectedItems f aItem).sheetPins
          = f.sheetPins
      ∧ (AddItemToScreenAndUndoList_upkeep IsJunctionNeeded ConnectedItems f aItem).undoList
          = f.undoList := by
  unfold AddItemToScreenAndUndoList_upkeep
  by_cases hc : ¬ aItem.isMoving = true ∧ aItem.isConnectable = true
  · simp only [hc, not_false_eq_true, and_self, if_true]
    obtain ⟨a1, a2, a3⟩ := refreshAll_data
      (ConnectedItems ((connectPoints IsJunctionNeeded
        (({ f with screenModified := true }).call (FrameCall.RefreshItem aItem.addr))
        aItem.connectionPoints).call FrameCall.TestDanglingEnds) aItem)
      ((connectPoints IsJunctionNeeded
        (({ f with screenModified := true }).call (FrameCall.RefreshItem aItem.addr))
        aItem.connectionPoints).call FrameCall.TestDanglingEnds)
    obtain ⟨b1, b2, b3⟩ := connectPoints_data IsJunctionNeeded aItem.connectionPoints
      (({ f with screenModified := true }).call (FrameCall.RefreshItem aItem.addr))
    refine ⟨?_, ?_, ?_⟩
    · exact a1.trans b1
    · exact a2.trans b2
    · exact a3.trans b3
  · simp only [hc, if_false]
    exact ⟨rfl, rfl, rfl⟩

theorem new_pin_data (f : SCH_EDIT_FRAME) (aItem : SCH_ITEM) (sheet : Nat)
    (aUndoAppend : Bool) (htype : aItem.type = KICAD_T.SCH_SHEET_PIN_T) :
    (AddItemToScreenAndUndoList_new f aItem sheet (some sheet) aUndoAppend).screenItems
        = f.screenItems
      ∧ (AddItemToScreenAndUndoList_new f aItem sheet (some sheet) aUndoAppend).sheetPins
          = (fun s => if s = sheet then f.sheetPins s ++ [aItem.addr] else f.sheetPins s)
      ∧ (AddItemToScreenAndUndoList_new f aItem sheet (some sheet) aUndoAppend).undoList
          = f.undoList ++ [⟨sheet, UNDO_REDO_T.UR_CHANGED, aUndoAppend⟩] := by
  unfold AddItemToScreenAndUndoList_new
  simp only [htype, if_true]
  split_ifs <;> exact ⟨rfl, rfl, rfl⟩

/-- C15: sheet pins are owned by their parent sheet. When
`AddItemToScreenAndUndoList` is given a new sheet pin whose parent is a sheet,
the pin is added at the end of that sheet's pin list (no other sheet's pins
change), the function adds nothing to the draw list of the screen, so the pin
is not added to it, and the one undo entry it saves is the parent sheet recorded
as changed. The upkeep calls made afterwards to code outside src/
(connectivity, junctions, refresh) are recorded, not interpreted. -/
theorem AddItemToScreenAndUndoList_new_sheet_pin
    (IsJunctionNeeded : SCH_EDIT_FRAME → wxPoint → Bool)
    (ConnectedItems : SCH_EDIT_FRAME → SCH_ITEM → List Nat)
    (f : SCH_EDIT_FRAME) (pin : SCH_ITEM) (sheet : Nat) (aUndoAppend : Bool)
    (htype : pin.type = KICAD_T.SCH_SHEET_PIN_T)
    (hparent : pin.parent = some (sheet, KICAD_T.SCH_SHEET_T))
    (hnew : pin.isNew = true) :
    (AddItemToScreenAndUndoList IsJunctionNeeded ConnectedItems f (some pin)
          aUndoAppend).1.sheetPins sheet = f.sheetPins sheet ++ [pin.addr]
      ∧ (∀ other : Nat, other ≠ sheet →
          (AddItemToScreenAndUndoList IsJunctionNeeded ConnectedItems f (some pin)
            aUndoAppend).1.sheetPins other = f.sheetPins other)
      ∧ (AddItemToScreenAndUndoList IsJunctionNeeded ConnectedItems f (some pin)
          aUndoAppend).1.screenItems = f.screenItems
      ∧ (AddItemToScreenAndUndoList IsJunctionNeeded ConnectedItems f (some pin)
          aUndoAppend).1.undoList
            = f.undoList ++ [⟨sheet, UNDO_REDO_T.UR_CHANGED, aUndoAppend⟩] := by
  have hrun : (AddItemToScreenAndUndoList IsJunctionNeeded ConnectedItems f (some pin)
      aUndoAppend).1
      = AddItemToScreenAndUndoList_upkeep IsJunctionNeeded ConnectedItems
          (AddItemToScreenAndUndoList_new f pin sheet (some sheet) aUndoAppend)
          { pin with isNew := false } := by
    simp [AddItemToScreenAndUndoList, AddItemToScreenAndUndoList_body, htype, hparent, hnew]
  obtain ⟨u1, u2, u3⟩ := upkeep_data IsJunctionNeeded ConnectedItems
    (AddItemToScreenAndUndoList_new f pin sheet (some sheet) aUndoAppend)
    { pin with isNew := false }
  obtain ⟨n1, n2, n3⟩ := new_pin_data f pin sheet aUndoAppend htype
  rw [hrun, u1, u2, u3, n1, n2, n3]
  refine ⟨by simp, ?_, rfl, rfl⟩
  intro other hother
  simp [hother]

theorem AddItemToScreenAndUndoList_new_sheet_pin_witness :
    examplePin.type = KICAD_T.SCH_SHEET_PIN_T
      ∧ examplePin.parent = some (1, KICAD_T.SCH_SHEET_T)
      ∧ examplePin.isNew = true
      ∧ (AddItemToScreenAndUndoList (fun _ _ => true) (fun _ _ => [1]) exampleFrame
            (some examplePin) false).1.sheetPins 1 = [2]
      ∧ (AddItemToScreenAndUndoList (fun _ _ => true) (fun _ _ => [1]) exampleFrame
            (some examplePin) false).1.screenItems = [1]
      ∧ (AddItemToScreenAndUndoList (fun _ _ => true) (fun _ _ => [1]) exampleFrame
            (some examplePin) false).1.undoList
          = [⟨1, UNDO_REDO_T.UR_CHANGED, false⟩] := by
  obtain ⟨h1, _, h3, h4⟩ := AddItemToScreenAndUndoList_new_sheet_pin (fun _ _ => true)
    (fun _ _ => [1]) exampleFrame examplePin 1 false rfl rfl rfl
  exact ⟨rfl, rfl, rfl, h1, h3, h4⟩

/-! ## Graphic-item sub-parsers -/

theorem parsePin_unknown_type (IU_PER_MM : ℚ) (lx : Lexer) (name number type : Token)
    (rest : List Token)
    (hcur : lx.cur = ⟨TokKind.symbol, "pin"⟩)
    (hrest : lx.rest = name :: number :: type :: rest)
    (hname : name.kind = TokKind.symbol ∨ name.kind = TokKind.string)
    (hnumber : number.kind = TokKind.symbol ∨ number.kind = TokKind.string)
    (htype : electricalTypeOfToken type = none) :
    parsePin IU_PER_MM lx
      = Except.error (ParseError.unknownEnumeration type.text (lx.pos + 3)) := by
  unfold parsePin
  rw [if_pos hcur]
  simp [NeedSYMBOL, NextTok, hrest, hname, hnumber, htype]

theorem parsePin_known_type (IU_PER_MM : ℚ) (lx : Lexer)
    (name number type shape X Y A L : Token) (tail : List Token) (x y a l : ℚ)
    (ty : ELECTRICAL_PINTYPE)
    (hcur : lx.cur = ⟨TokKind.symbol, "pin"⟩)
    (hrest : lx.rest = name :: number :: type :: shape ::
      ⟨TokKind.left, "("⟩ :: ⟨TokKind.symbol, "at"⟩ :: X :: Y :: A :: ⟨TokKind.right, ")"⟩ ::
      ⟨TokKind.left, "("⟩ :: ⟨TokKind.symbol, "length"⟩ :: L :: ⟨TokKind.right, ")"⟩ :: tail)
    (hname : name.kind = TokKind.symbol ∨ name.kind = TokKind.string)
    (hnumber : number.kind = TokKind.symbol ∨ number.kind = TokKind.string)
    (hshape : shape.kind = TokKind.symbol ∨ shape.kind = TokKind.string)
    (hX : X.kind = TokKind.number) (hx : decimalLiteral X.text = some x)
    (hY : Y.kind = TokKind.number) (hy : decimalLiteral Y.text = some y)
    (hA : A.kind = TokKind.number) (ha : decimalLiteral A.text = some a)
    (hL : L.kind = TokKind.number) (hl : decimalLiteral L.text = some l)
    (htail : (skipToClose 0 tail).isSome = true)
    (htype : electricalTypeOfToken type = some ty) :
    ∃ (pin : LIB_PIN) (lx2 : Lexer), parsePin IU_PER_MM lx = Except.ok (pin, lx2)
      ∧ pin.m_type = ty ∧ pin.m_name = name.text ∧ pin.m_number = number.text := by
  obtain ⟨r, hr⟩ := Option.isSome_iff_exists.mp htail
  obtain ⟨c, rs, n⟩ := r
  unfold parsePin
  rw [if_pos hcur]
  simp [NeedSYMBOL, NeedGroup, NeedRIGHT, NeedNUMBER, skipGroup, parseXY,
    parseInternalUnits_aExpected, parseDouble_aExpected, parseDouble, CurText, NextTok, hrest,
    hname, hnumber, hshape, hX, hx, hY, hy, hA, ha, hL, hl, hr, htype]


theorem lookup_eq_none_iff {β : Type} (l : List (String × β)) (a : String) :
    l.lookup a = none ↔ a ∉ l.map Prod.fst := by
  induction l with
  | nil => simp
  | cons p l ih =>
    obtain ⟨k, v⟩ := p
    by_cases hk : a = k
    · subst hk
      simp [List.lookup]
    · have hne : (a == k) = false := by simpa using hk
      simp [List.lookup, hne, ih, hk]

theorem electricalTypeOfToken_eq_none_iff (t : Token) :
    electricalTypeOfToken t = none
      ↔ ¬ (t.kind = TokKind.symbol ∧ t.text ∈ electricalTypeNames) := by
  unfold electricalTypeOfToken electricalTypeNames
  by_cases hk : t.kind = TokKind.symbol
  · simp only [hk, if_true, true_and]
    exact lookup_eq_none_iff _ _
  · simp [hk]

/-- C17: `parsePin` fails with an unknown-enumeration error for every
electrical-type token outside the fixed set of eleven (input, output,
bidirectional, tri-state, passive, power-in, power-out, open-collector,
open-emitter, unspecified, no-connect), whatever follows it; for a token in the
set, in a well-formed pin group, it yields a pin carrying that electrical type
with the given name and number. -/
theorem parsePin_validates_electrical_type (IU_PER_MM : ℚ) (lx : Lexer)
    (name number type shape X Y A L : Token) (tail : List Token) (x y a l : ℚ)
    (hcur : lx.cur = ⟨TokKind.symbol, "pin"⟩)
    (hrest : lx.rest = name :: number :: type :: shape ::
      ⟨TokKind.left, "("⟩ :: ⟨TokKind.symbol, "at"⟩ :: X :: Y :: A :: ⟨TokKind.right, ")"⟩ ::
      ⟨TokKind.left, "("⟩ :: ⟨TokKind.symbol, "length"⟩ :: L :: ⟨TokKind.right, ")"⟩ :: tail)
    (hname : name.kind = TokKind.symbol ∨ name.kind = TokKind.string)
    (hnumber : number.kind = TokKind.symbol ∨ number.kind = TokKind.string)
    (hshape : shape.kind = TokKind.symbol ∨ shape.kind = TokKind.string)
    (hX : X.kind = TokKind.number) (hx : decimalLiteral X.text = some x)
    (hY : Y.kind = TokKind.number) (hy : decimalLiteral Y.text = some y)
    (hA : A.kind = TokKind.number) (ha : decimalLiteral A.text = some a)
    (hL : L.kind = TokKind.number) (hl : decimalLiteral L.text = some l)
    (htail : (skipToClose 0 tail).isSome = true) :
    (match electricalTypeOfToken type with
      | none =>
        parsePin IU_PER_MM lx
          = Except.error (ParseError.unknownEnumeration type.text (lx.pos + 3))
      | some ty =>
        ∃ (pin : LIB_PIN) (lx2 : Lexer), parsePin IU_PER_MM lx = Except.ok (pin, lx2)
          ∧ pin.m_type = ty ∧ pin.m_name = name.text ∧ pin.m_number = number.text)
      ∧ (electricalTypeOfToken type = none
          ↔ ¬ (type.kind = TokKind.symbol ∧ type.text ∈ electricalTypeNames))
      ∧ ∀ (lx2 : Lexer) (name2 number2 type2 : Token) (rest2 : List Token),
          lx2.cur = ⟨TokKind.symbol, "pin"⟩ →
          lx2.rest = name2 :: number2 :: type2 :: rest2 →
          (name2.kind = TokKind.symbol ∨ name2.kind = TokKind.string) →
          (number2.kind = TokKind.symbol ∨ number2.kind = TokKind.string) →
          ¬ (type2.kind = TokKind.symbol ∧ type2.text ∈ electricalTypeNames) →
          parsePin IU_PER_MM lx2
            = Except.error (ParseError.unknownEnumeration type2.text (lx2.pos + 3)) := by
  refine ⟨?_, electricalTypeOfToken_eq_none_iff type, ?_⟩
  · cases htype : electricalTypeOfToken type with
    | none =>
      exact parsePin_unknown_type IU_PER_MM lx name number type _ hcur hrest hname hnumber htype
    | some ty =>
      exact parsePin_known_type IU_PER_MM lx name number type shape X Y A L tail x y a l ty
        hcur hrest hname hnumber hshape hX hx hY hy hA ha hL hl htail htype
  · intro lx2 name2 number2 type2 rest2 hc hr hn hm hout
    exact parsePin_unknown_type IU_PER_MM lx2 name2 number2 type2 rest2 hc hr hn hm
      ((electricalTypeOfToken_eq_none_iff type2).mpr hout)

theorem decimalParts_0 : decimalParts "0" = some ⟨false, 0, 0, 0⟩ := by
  decide

theorem decimalLiteral_0 : decimalLiteral "0" = some 0 := by
  simp [decimalLiteral, decimalParts_0, DecimalParts.value]

theorem parsePin_validates_electrical_type_witness :
    (∃ (pin : LIB_PIN) (lx2 : Lexer),
        parsePin 10000 (lexerAtPin ⟨TokKind.symbol, "input"⟩) = Except.ok (pin, lx2)
          ∧ pin.m_type = ELECTRICAL_PINTYPE.PT_INPUT ∧ pin.m_name = "A" ∧ pin.m_number = "1")
      ∧ parsePin 10000 (lexerAtPin ⟨TokKind.symbol, "bogus"⟩)
          = Except.error (ParseError.unknownEnumeration "bogus" 5) := by
  constructor
  · have h := (parsePin_validates_electrical_type 10000 (lexerAtPin ⟨TokKind.symbol, "input"⟩)
      ⟨TokKind.string, "A"⟩ ⟨TokKind.string, "1"⟩ ⟨TokKind.symbol, "input"⟩
      ⟨TokKind.symbol, "line"⟩ ⟨TokKind.number, "0"⟩ ⟨TokKind.number, "0"⟩
      ⟨TokKind.number, "0"⟩ ⟨TokKind.number, "2.54"⟩ [⟨TokKind.right, ")"⟩] 0 0 0 (127 / 50)
      rfl rfl (Or.inr rfl) (Or.inr rfl) (Or.inl rfl) rfl decimalLiteral_0 rfl decimalLiteral_0
      rfl decimalLiteral_0 rfl decimalLiteral_2p54 (by decide)).1
    have ht : electricalTypeOfToken ⟨TokKind.symbol, "input"⟩
        = some ELECTRICAL_PINTYPE.PT_INPUT := by decide
    rw [ht] at h
    exact h
  · have h := (parsePin_validates_electrical_type 10000 (lexerAtPin ⟨TokKind.symbol, "bogus"⟩)
      ⟨TokKind.string, "A"⟩ ⟨TokKind.string, "1"⟩ ⟨TokKind.symbol, "bogus"⟩
      ⟨TokKind.symbol, "line"⟩ ⟨TokKind.number, "0"⟩ ⟨TokKind.number, "0"⟩
      ⟨TokKind.number, "0"⟩ ⟨TokKind.number, "2.54"⟩ [⟨TokKind.right, ")"⟩] 0 0 0 (127 / 50)
      rfl rfl (Or.inr rfl) (Or.inr rfl) (Or.inl rfl) rfl decimalLiteral_0 rfl decimalLiteral_0
      rfl decimalLiteral_0 rfl decimalLiteral_2p54 (by decide)).1
    have ht : electricalTypeOfToken ⟨TokKind.symbol, "bogus"⟩ = none := by decide
    rw [ht] at h
    exact h


theorem NeedGroup_of_tokens (keyword : String) (lx : Lexer) (l : Token) (rest : List Token)
    (hrest : lx.rest = l :: ⟨TokKind.symbol, keyword⟩ :: rest) (hl : l.kind = TokKind.left) :
    NeedGroup keyword lx = Except.ok ⟨⟨TokKind.symbol, keyword⟩, rest, lx.pos + 2⟩ := by
  simp [NeedGroup, NextTok, hrest, hl]

theorem NeedGroup_missing (keyword : String) (lx : Lexer)
    (h : ¬ ((NextTok lx).cur.kind = TokKind.left
      ∧ (NextTok (NextTok lx)).cur = ⟨TokKind.symbol, keyword⟩)) :
    ∃ pos : Nat, NeedGroup keyword lx = Except.error (ParseError.structural keyword pos) := by
  unfold NeedGroup
  by_cases h1 : (NextTok lx).cur.kind = TokKind.left
  · have h2 : ¬ (NextTok (NextTok lx)).cur = ⟨TokKind.symbol, keyword⟩ := fun h2 => h ⟨h1, h2⟩
    exact ⟨(NextTok (NextTok lx)).pos, by simp [h1, h2]⟩
  · exact ⟨(NextTok lx).pos, by simp [h1]⟩

theorem parseRectangle_after_start {Stroke Fill : Type} (IU_PER_MM : ℚ)
    (parseStroke : Lexer → Except ParseError (Stroke × Lexer))
    (parseFill : Lexer → Except ParseError (Fill × Lexer))
    (lx : Lexer) (X Y : Token) (rest : List Token) (x y : ℚ) (e : ParseError)
    (hcur : lx.cur = ⟨TokKind.symbol, "rectangle"⟩)
    (hrest : lx.rest = ⟨TokKind.left, "("⟩ :: ⟨TokKind.symbol, "start"⟩ :: X :: Y ::
      ⟨TokKind.right, ")"⟩ :: rest)
    (hX : X.kind = TokKind.number) (hx : decimalLiteral X.text = some x)
    (hY : Y.kind = TokKind.number) (hy : decimalLiteral Y.text = some y)
    (he : NeedGroup "end" ⟨⟨TokKind.right, ")"⟩, rest, lx.pos + 5⟩ = Except.error e) :
    parseRectangle IU_PER_MM parseStroke parseFill lx = Except.error e := by
  have hxy : parseXY IU_PER_MM
      (⟨⟨TokKind.symbol, "start"⟩, X :: Y :: ⟨TokKind.right, ")"⟩ :: rest, lx.pos + 2⟩ : Lexer)
      = Except.ok (⟨KiROUND (Clamp (-int_limit) (x * IU_PER_MM) int_limit),
                    KiROUND (Clamp (-int_limit) (y * IU_PER_MM) int_limit)⟩,
                   ⟨Y, ⟨TokKind.right, ")"⟩ :: rest, lx.pos + 4⟩) := by
    simp [parseXY, parseInternalUnits_aExpected, parseDouble_aExpected, parseDouble, NeedNUMBER,
      CurText, NextTok, hX, hx, hY, hy]
  have hr : NeedRIGHT (⟨Y, ⟨TokKind.right, ")"⟩ :: rest, lx.pos + 4⟩ : Lexer)
      = Except.ok ⟨⟨TokKind.right, ")"⟩, rest, lx.pos + 5⟩ := by
    simp [NeedRIGHT, NextTok]
  unfold parseRectangle
  rw [if_pos hcur, NeedGroup_of_tokens "start" lx _ _ hrest rfl]
  simp only [hxy, hr, he]

/-- C18: parsing a rectangle group that has a start sub-group but no end
sub-group, such as `(rectangle (start 0 0))`, fails with a structural error that
names "end" as the expected construct; no rectangle item is returned. -/
theorem parseRectangle_missing_end {Stroke Fill : Type} (IU_PER_MM : ℚ)
    (parseStroke : Lexer → Except ParseError (Stroke × Lexer))
    (parseFill : Lexer → Except ParseError (Fill × Lexer))
    (lx : Lexer) (X Y : Token) (rest : List Token) (x y : ℚ)
    (hcur : lx.cur = ⟨TokKind.symbol, "rectangle"⟩)
    (hrest : lx.rest = ⟨TokKind.left, "("⟩ :: ⟨TokKind.symbol, "start"⟩ :: X :: Y ::
      ⟨TokKind.right, ")"⟩ :: rest)
    (hX : X.kind = TokKind.number) (hx : decimalLiteral X.text = some x)
    (hY : Y.kind = TokKind.number) (hy : decimalLiteral Y.text = some y)
    (hnoend : ¬ ∃ (l : Token) (ts : List Token),
      rest = l :: ⟨TokKind.symbol, "end"⟩ :: ts ∧ l.kind = TokKind.left) :
    (∃ pos : Nat, parseRectangle IU_PER_MM parseStroke parseFill lx
        = Except.error (ParseError.structural "end" pos))
      ∧ ∀ r : LIB_RECTANGLE Stroke Fill × Lexer,
          parseRectangle IU_PER_MM parseStroke parseFill lx ≠ Except.ok r := by
  have hmiss : ¬ ((NextTok (⟨⟨TokKind.right, ")"⟩, rest, lx.pos + 5⟩ : Lexer)).cur.kind
        = TokKind.left
      ∧ (NextTok (NextTok (⟨⟨TokKind.right, ")"⟩, rest, lx.pos + 5⟩ : Lexer))).cur
        = ⟨TokKind.symbol, "end"⟩) := by
    rintro ⟨h1, h2⟩
    apply hnoend
    cases rest with
    | nil => simp [NextTok, eofToken] at h1
    | cons l ts =>
      cases ts with
      | nil => simp [NextTok, eofToken] at h2
      | cons m ts2 =>
        simp only [NextTok] at h1 h2
        exact ⟨l, ts2, by rw [h2], h1⟩
  obtain ⟨pos, hpos⟩ := NeedGroup_missing "end" _ hmiss
  have herr := parseRectangle_after_start IU_PER_MM parseStroke parseFill lx X Y rest x y _
    hcur hrest hX hx hY hy hpos
  refine ⟨⟨pos, herr⟩, ?_⟩
  intro r hr
  rw [herr] at hr
  cases hr

theorem parseRectangle_missing_end_witness :
    lexerAtRectangleNoEnd.cur = ⟨TokKind.symbol, "rectangle"⟩
      ∧ lexerAtRectangleNoEnd.rest
          = ⟨TokKind.left, "("⟩ :: ⟨TokKind.symbol, "start"⟩ :: ⟨TokKind.number, "0"⟩ ::
            ⟨TokKind.number, "0"⟩ :: ⟨TokKind.right, ")"⟩ :: [⟨TokKind.right, ")"⟩]
      ∧ ∃ pos : Nat, parseRectangle 10000 parseNothing parseNothing lexerAtRectangleNoEnd
          = Except.error (ParseError.structural "end" pos) :=
  ⟨rfl, rfl,
    (parseRectangle_missing_end 10000 parseNothing parseNothing lexerAtRectangleNoEnd
      ⟨TokKind.number, "0"⟩ ⟨TokKind.number, "0"⟩ [⟨TokKind.right, ")"⟩] 0 0 rfl rfl
      rfl decimalLiteral_0 rfl decimalLiteral_0
      (by
        rintro ⟨l, ts, h, _⟩
        simp at h)).1⟩

/-! ## Symbol sub-parser -/

theorem parseSymbolGroups_independent {Item Field : Type} (env : SymbolSubParsers Item Field)
    (fuel : Nat) :
    ∀ (p q : SCH_SEXPR_PARSER) (entry : SymbolEntry Item Field) (stage : Nat) (inUnit : Bool),
      p.lexer = q.lexer → p.m_fieldId = q.m_fieldId →
      (inUnit = true → p.m_unit = q.m_unit ∧ p.m_convert = q.m_convert) →
      (parseSymbolGroups env fuel p entry stage inUnit).map
          (fun r => (r.1, r.2.lexer, r.2.m_fieldId))
        = (parseSymbolGroups env fuel q entry stage inUnit).map
          (fun r => (r.1, r.2.lexer, r.2.m_fieldId)) := by
  induction fuel with
  | zero =>
    intro p q entry stage inUnit hlex _ _
    simp only [parseSymbolGroups, hlex]
  | succ fuel ih =>
    intro p q entry stage inUnit hlex hfid hunit
    simp only [parseSymbolGroups]
    rw [← hlex, ← hfid]
    by_cases hr : (NextTok p.lexer).cur.kind = TokKind.right
    · simp only [hr, if_true]
      cases inUnit with
      | true =>
        simp only [if_true]
        exact ih _ _ entry stage false rfl rfl (fun h => by cases h)
      | false =>
        simp only [Bool.false_eq_true, if_false]
        split_ifs
        · simp [Except.map, hfid]
        · rfl
    · simp only [hr, if_false]
      by_cases hl : (NextTok p.lexer).cur.kind = TokKind.left
      · simp only [hl, if_true]
        cases inUnit with
        | true =>
          obtain ⟨hu, hc⟩ := hunit rfl
          simp only [if_true]
          rw [← hu, ← hc]
          cases hd : env.ParseDrawItem (NextTok (NextTok p.lexer)) with
          | error e => rfl
          | ok r =>
            obtain ⟨item, lx3⟩ := r
            exact ih _ _ _ stage true rfl rfl (fun _ => ⟨rfl, rfl⟩)
        | false =>
          simp only [Bool.false_eq_true, if_false]
          cases hg : parseSymbolGroup env (NextTok (NextTok p.lexer)) p.m_fieldId entry stage with
          | error e => rfl
          | ok r =>
            simp only
            cases hru : r.unit with
            | none => exact ih _ _ r.entry r.stage false rfl rfl (fun h => by cases h)
            | some uc =>
              obtain ⟨u, c⟩ := uc
              exact ih _ _ r.entry r.stage true rfl rfl (fun _ => ⟨rfl, rfl⟩)
      · simp only [hl, if_false]

/-- C11: the field-id counter, the unit index and the body-style index are
local to one symbol parse: for every symbol text (every lexer state) and every
amount of fuel, `ParseSymbol` gives the same outcome (the same error, or the
same symbol, lexer and final field-id counter) whatever values `m_fieldId`,
`m_unit` and `m_convert` held before the call. -/
theorem ParseSymbol_independent_of_counters {Item Field : Type}
    (env : SymbolSubParsers Item Field) (fuel : Nat) (p : SCH_SEXPR_PARSER)
    (fieldId unit convert : Int) :
    (ParseSymbol env fuel
        { p with m_fieldId := fieldId, m_unit := unit, m_convert := convert }).map
          (fun r => (r.1, r.2.lexer, r.2.m_fieldId))
      = (ParseSymbol env fuel p).map (fun r => (r.1, r.2.lexer, r.2.m_fieldId)) := by
  unfold ParseSymbol
  by_cases hcur : p.lexer.cur = ⟨TokKind.symbol, "symbol"⟩
  · simp only [hcur, if_true]
    cases hn : NeedSYMBOL p.lexer with
    | error e => rfl
    | ok lx1 =>
      exact parseSymbolGroups_independent env fuel _ _ _ 0 false rfl rfl (fun h => by cases h)
  · simp only [hcur, if_false]


/-! ## Library assembly -/

theorem ParseLib_of_supported {LIB_PART_MAP : Type} (maxVersion : Int)
    (body : SCH_SEXPR_PARSER → LIB_PART_MAP →
      Except ParseError (SCH_SEXPR_PARSER × LIB_PART_MAP))
    (p : SCH_SEXPR_PARSER) (aSymbolLibMap : LIB_PART_MAP) (N G : Token) (ts : List Token)
    (hrest : p.lexer.rest = documentTokens "kicad_symbol_lib" N G ts)
    (hN : N.kind = TokKind.number)
    (hG : G.kind = TokKind.symbol ∨ G.kind = TokKind.string)
    (hver : toInt32 (strtol N.text 10) ≤ maxVersion) :
    ParseLib maxVersion body p aSymbolLibMap
      = body { p with
          lexer := ⟨⟨TokKind.right, ")"⟩, ts, p.lexer.pos + 10⟩,
          m_requiredVersion := toInt32 (strtol N.text 10) } aSymbolLibMap := by
  have h1 : NeedLEFT p.lexer
      = Except.ok ⟨⟨TokKind.left, "("⟩, ⟨TokKind.symbol, "kicad_symbol_lib"⟩ ::
          headerTokens N G ts, p.lexer.pos + 1⟩ := by
    simp [NeedLEFT, NextTok, hrest, documentTokens]
  have hh := parseHeader_of_tokens "kicad_symbol_lib"
    { p with lexer := ⟨⟨TokKind.symbol, "kicad_symbol_lib"⟩, headerTokens N G ts,
        p.lexer.pos + 2⟩ } N G ts rfl rfl hN hG
  have ht : IsTooRecent maxVersion
      { p with
        lexer := ⟨⟨TokKind.right, ")"⟩, ts, p.lexer.pos + 10⟩,
        m_requiredVersion := toInt32 (strtol N.text 10) } = false := by
    simp [IsTooRecent, hver]
  unfold ParseLib
  rw [h1]
  have hn : NextTok (⟨⟨TokKind.left, "("⟩, ⟨TokKind.symbol, "kicad_symbol_lib"⟩ ::
      headerTokens N G ts, p.lexer.pos + 1⟩ : Lexer)
      = ⟨⟨TokKind.symbol, "kicad_symbol_lib"⟩, headerTokens N G ts, p.lexer.pos + 2⟩ := rfl
  simp only [hn, hh, ht]
  rfl

theorem parseLibSymbols_symbol {Item Field : Type} (env : SymbolSubParsers Item Field)
    (symFuel fuel : Nat) (p p2 : SCH_SEXPR_PARSER) (registry : List (SymbolEntry Item Field))
    (l : Token) (ts : List Token) (entry : SymbolEntry Item Field)
    (hrest : p.lexer.rest = l :: ⟨TokKind.symbol, "symbol"⟩ :: ts) (hl : l.kind = TokKind.left)
    (hsym : ParseSymbol env symFuel
      { p with lexer := ⟨⟨TokKind.symbol, "symbol"⟩, ts, p.lexer.pos + 2⟩ }
        = Except.ok (entry, p2)) :
    parseLibSymbols env symFuel (fuel + 1) p registry
      = parseLibSymbols env symFuel fuel p2 (registry ++ [entry]) := by
  have hn : NextTok p.lexer = ⟨l, ⟨TokKind.symbol, "symbol"⟩ :: ts, p.lexer.pos + 1⟩ :=
    NextTok_cons _ _ _ hrest
  have hk : NeedKeyword "symbol" (NextTok p.lexer)
      = Except.ok ⟨⟨TokKind.symbol, "symbol"⟩, ts, p.lexer.pos + 2⟩ := by
    rw [hn]
    simp [NeedKeyword, NextTok]
  have hnr : ¬ (NextTok p.lexer).cur.kind = TokKind.right := by
    rw [hn]
    simp [hl]
  have hnl : (NextTok p.lexer).cur.kind = TokKind.left := by
    rw [hn]
    exact hl
  simp only [parseLibSymbols, hnr, hnl, if_true, if_false, hk, hsym]
  simp

theorem parseLibSymbols_end {Item Field : Type} (env : SymbolSubParsers Item Field)
    (symFuel fuel : Nat) (p : SCH_SEXPR_PARSER) (registry : List (SymbolEntry Item Field))
    (c : Token) (ts : List Token)
    (hrest : p.lexer.rest = c :: ts) (hc : c.kind = TokKind.right) :
    parseLibSymbols env symFuel (fuel + 1) p registry
      = Except.ok ({ p with lexer := ⟨c, ts, p.lexer.pos + 1⟩ }, registry) := by
  have hn : NextTok p.lexer = ⟨c, ts, p.lexer.pos + 1⟩ := NextTok_cons _ _ _ hrest
  simp only [parseLibSymbols, hn, hc, if_true]

theorem entry_eq_of_name_eq {Item Field : Type} (l : List (SymbolEntry Item Field))
    (hnames : (l.map (fun e => e.name)).Nodup) (a b : SymbolEntry Item Field)
    (ha : a ∈ l) (hb : b ∈ l) (hab : a.name = b.name) : a = b :=
  List.inj_on_of_nodup_map hnames ha hb hab

theorem find_of_distinct_names {Item Field : Type} (l : List (SymbolEntry Item Field))
    (hnames : (l.map (fun e => e.name)).Nodup) (r : SymbolEntry Item Field) (hr : r ∈ l) :
    l.find? (fun x => decide (x.name = r.name)) = some r := by
  induction l with
  | nil => cases hr
  | cons a l ih =>
    rw [List.map_cons, List.nodup_cons] at hnames
    by_cases har : a.name = r.name
    · have : a = r := by
        rcases List.mem_cons.mp hr with h | h
        · exact h.symm
        · exact absurd (har ▸ List.mem_map_of_mem (fun e => e.name) h) hnames.1
      simp [List.find?, this]
    · have hr2 : r ∈ l := by
        rcases List.mem_cons.mp hr with h | h
        · exact absurd (h ▸ rfl) har
        · exact h
      simp [List.find?, har, ih hnames.2 hr2]

theorem resolveSymbols_of_roots {Item Field : Type} (registry : List (SymbolEntry Item Field))
    (pos : Nat) (es : List (SymbolEntry Item Field))
    (h : ∀ e ∈ es, ∀ name, e.parentName = some name →
      ∃ r, registry.find? (fun x => decide (x.name = name)) = some r ∧ r.parentName = none) :
    resolveSymbols registry pos es
      = Except.ok (es.map (fun e =>
          ⟨e, e.parentName.bind (fun name =>
            registry.find? (fun x => decide (x.name = name)))⟩)) := by
  induction es with
  | nil => rfl
  | cons e es ih =>
    have ih2 := ih (fun x hx => h x (List.mem_cons_of_mem _ hx))
    cases hp : e.parentName with
    | none =>
      simp [resolveSymbols, resolveSymbol, hp, ih2]
    | some name =>
      obtain ⟨r, hf, hroot⟩ := h e (List.mem_cons_self _ _) name hp
      simp [resolveSymbols, resolveSymbol, hp, hf, hroot, ih2]

theorem parseLibSymbols_of_symbols {Item Field : Type} (env : SymbolSubParsers Item Field)
    (symFuel : Nat) (tail : List Token) (syms : List (List Token × SymbolEntry Item Field))
    (hsyms : ∀ s ∈ syms, ∀ (q : SCH_SEXPR_PARSER) (rest : List Token) (pos : Nat),
      ∃ q2, ParseSymbol env symFuel
          { q with lexer := ⟨⟨TokKind.symbol, "symbol"⟩, s.1 ++ rest, pos⟩ }
            = Except.ok (s.2, q2) ∧ q2.lexer.rest = rest)
    (fuel : Nat) (p : SCH_SEXPR_PARSER) (registry : List (SymbolEntry Item Field))
    (hfuel : syms.length < fuel)
    (hrest : p.lexer.rest
      = librarySymbolTokens (syms.map Prod.fst) ++ ⟨TokKind.right, ")"⟩ :: tail) :
    ∃ p2, parseLibSymbols env symFuel fuel p registry
      = Except.ok (p2, registry ++ syms.map Prod.snd) := by
  induction syms generalizing fuel p registry with
  | nil =>
    obtain ⟨k, rfl⟩ : ∃ k, fuel = k + 1 := ⟨fuel - 1, by simp at hfuel; omega⟩
    refine ⟨{ p with lexer := ⟨⟨TokKind.right, ")"⟩, tail, p.lexer.pos + 1⟩ }, ?_⟩
    rw [parseLibSymbols_end env symFuel k p registry ⟨TokKind.right, ")"⟩ tail
      (by simpa [librarySymbolTokens] using hrest) rfl]
    simp
  | cons s ss ih =>
    obtain ⟨k, rfl⟩ : ∃ k, fuel = k + 1 := ⟨fuel - 1, by simp at hfuel; omega⟩
    have hrest2 : p.lexer.rest = ⟨TokKind.left, "("⟩ :: ⟨TokKind.symbol, "symbol"⟩ ::
        (s.1 ++ (librarySymbolTokens (ss.map Prod.fst) ++ ⟨TokKind.right, ")"⟩ :: tail)) := by
      simpa [librarySymbolTokens, List.append_assoc] using hrest
    obtain ⟨q2, hq, hq2⟩ := hsyms s (List.mem_cons_self _ _) p
      (librarySymbolTokens (ss.map Prod.fst) ++ ⟨TokKind.right, ")"⟩ :: tail) (p.lexer.pos + 2)
    rw [parseLibSymbols_symbol env symFuel k p q2 registry ⟨TokKind.left, "("⟩ _ s.2 hrest2 rfl hq]
    obtain ⟨p2, hp2⟩ := ih (fun x hx => hsyms x (List.mem_cons_of_mem _ hx)) k q2
      (registry ++ [s.2]) (by simp at hfuel; omega) hq2
    exact ⟨p2, by simpa [List.append_assoc] using hp2⟩

/-- C16: forward references resolve. Take a library document of any number of
symbols, each of which parses on its own, with distinct names, in which every
symbol that extends another names a symbol of the document that extends
nothing. Then `ParseLib` succeeds (given fuel for one turn of its loop per
symbol and one more), it returns the symbols in file order, and a symbol that
declares `(extends "Parent")` comes out as an alias of the symbol named
`Parent`, with the drawing items of that symbol, wherever in the document
`Parent` is defined (at any position `j`, before or after the position `i` of
the symbol that extends it): in particular when it is defined later. -/
theorem ParseLib_forward_reference {Item Field : Type} (env : SymbolSubParsers Item Field)
    (maxVersion : Int) (symFuel fuel : Nat) (p : SCH_SEXPR_PARSER) (N G : Token)
    (syms : List (List Token × SymbolEntry Item Field)) (tail : List Token)
    (i j : Nat) (child parent : SymbolEntry Item Field)
    (hdoc : p.lexer.rest = documentTokens "kicad_symbol_lib" N G
      (librarySymbolTokens (syms.map Prod.fst) ++ ⟨TokKind.right, ")"⟩ :: tail))
    (hN : N.kind = TokKind.number)
    (hG : G.kind = TokKind.symbol ∨ G.kind = TokKind.string)
    (hver : toInt32 (strtol N.text 10) ≤ maxVersion)
    (hsyms : ∀ s ∈ syms, ∀ (q : SCH_SEXPR_PARSER) (rest : List Token) (pos : Nat),
      ∃ q2, ParseSymbol env symFuel
          { q with lexer := ⟨⟨TokKind.symbol, "symbol"⟩, s.1 ++ rest, pos⟩ }
            = Except.ok (s.2, q2) ∧ q2.lexer.rest = rest)
    (hnames : (syms.map (fun s => s.2.name)).Nodup)
    (hroots : ∀ s ∈ syms, ∀ name, s.2.parentName = some name →
      ∃ r ∈ syms, r.2.name = name ∧ r.2.parentName = none)
    (hchild : (syms.map Prod.snd)[i]? = some child)
    (hparent : (syms.map Prod.snd)[j]? = some parent)
    (hext : child.parentName = some parent.name)
    (hfuel : syms.length < fuel) :
    ∃ (p2 : SCH_SEXPR_PARSER) (lib : List (LibSymbol Item Field)),
      ParseLib maxVersion (parseLibBody env symFuel fuel) p [] = Except.ok (p2, lib)
        ∧ lib.map LibSymbol.entry = syms.map Prod.snd
        ∧ lib[i]? = some ⟨child, some parent⟩
        ∧ lib[j]? = some ⟨parent, none⟩
        ∧ (⟨child, some parent⟩ : LibSymbol Item Field).IsAlias = true
        ∧ (⟨child, some parent⟩ : LibSymbol Item Field).drawItems = parent.drawItems := by
  have hnames2 : ((syms.map Prod.snd).map (fun e => e.name)).Nodup := by
    simpa [List.map_map, Function.comp_def] using hnames
  have hfind : ∀ e ∈ syms.map Prod.snd, ∀ name, e.parentName = some name →
      ∃ r, (syms.map Prod.snd).find? (fun x => decide (x.name = name)) = some r
        ∧ r.parentName = none := by
    intro e he name hname
    obtain ⟨s, hs, rfl⟩ := List.mem_map.mp he
    obtain ⟨r, hr, hrn, hroot⟩ := hroots s hs name hname
    refine ⟨r.2, ?_, hroot⟩
    rw [← hrn]
    exact find_of_distinct_names _ hnames2 r.2 (List.mem_map_of_mem _ hr)
  have hcmem : child ∈ syms.map Prod.snd := List.getElem?_mem hchild
  have hpmem : parent ∈ syms.map Prod.snd := List.getElem?_mem hparent
  have hpfind : (syms.map Prod.snd).find? (fun x => decide (x.name = parent.name))
      = some parent := find_of_distinct_names _ hnames2 parent hpmem
  have hproot : parent.parentName = none := by
    obtain ⟨r, hr, hroot⟩ := hfind child hcmem parent.name hext
    rw [hpfind] at hr
    injection hr with hr
    rw [hr]
    exact hroot
  obtain ⟨p2, hp2⟩ := parseLibSymbols_of_symbols env symFuel tail syms hsyms fuel
    { p with
      lexer := ⟨⟨TokKind.right, ")"⟩,
        librarySymbolTokens (syms.map Prod.fst) ++ ⟨TokKind.right, ")"⟩ :: tail,
        p.lexer.pos + 10⟩,
      m_requiredVersion := toInt32 (strtol N.text 10) } [] hfuel rfl
  refine ⟨p2, (syms.map Prod.snd).map (fun e =>
      ⟨e, e.parentName.bind (fun name =>
        (syms.map Prod.snd).find? (fun x => decide (x.name = name)))⟩),
    ?_, ?_, ?_, ?_, rfl, rfl⟩
  · rw [ParseLib_of_supported maxVersion _ p [] N G _ hdoc hN hG hver]
    unfold parseLibBody
    rw [hp2]
    simp only [List.nil_append]
    rw [resolveSymbols_of_roots _ _ _ hfind]
  · simp [List.map_map, Function.comp_def]
  · rw [List.getElem?_map, hchild, Option.map_some', hext, Option.some_bind, hpfind]
  · rw [List.getElem?_map, hparent, Option.map_some', hproot, Option.none_bind]

theorem ParseSymbol_childSymbolTokens (p : SCH_SEXPR_PARSER) (ts : List Token) (pos : Nat) :
    ParseSymbol exampleSubParsers 10
        { p with lexer := ⟨⟨TokKind.symbol, "symbol"⟩, childSymbolTokens ++ ts, pos⟩ }
      = Except.ok (childEntry,
          { p with lexer := ⟨⟨TokKind.right, ")"⟩, ts, pos + 14⟩, m_fieldId := 4,
                   m_symbolName := "Child" }) := by
  rfl

theorem ParseSymbol_parentSymbolTokens (p : SCH_SEXPR_PARSER) (ts : List Token) (pos : Nat) :
    ParseSymbol exampleSubParsers 10
        { p with lexer := ⟨⟨TokKind.symbol, "symbol"⟩, parentSymbolTokens ++ ts, pos⟩ }
      = Except.ok (parentEntry,
          { p with lexer := ⟨⟨TokKind.right, ")"⟩, ts, pos + 20⟩, m_fieldId := 4,
                   m_unit := 1, m_convert := 1, m_symbolName := "Parent" }) := by
  rfl

theorem ParseSymbol_otherSymbolTokens (p : SCH_SEXPR_PARSER) (ts : List Token) (pos : Nat) :
    ParseSymbol exampleSubParsers 10
        { p with lexer := ⟨⟨TokKind.symbol, "symbol"⟩, otherSymbolTokens ++ ts, pos⟩ }
      = Except.ok (otherEntry,
          { p with lexer := ⟨⟨TokKind.right, ")"⟩, ts, pos + 17⟩, m_fieldId := 4,
                   m_unit := 1, m_convert := 1, m_symbolName := "Other" }) := by
  rfl

theorem ParseLib_forward_reference_witness :
    ∃ (p2 : SCH_SEXPR_PARSER) (lib : List (LibSymbol String (Int × String))),
      ParseLib 20200310 (parseLibBody exampleSubParsers 10 4)
          (newParser forwardReferenceLibrary) [] = Except.ok (p2, lib)
        ∧ lib.map LibSymbol.entry = [childEntry, parentEntry, otherEntry]
        ∧ lib[0]? = some ⟨childEntry, some parentEntry⟩
        ∧ lib = [⟨childEntry, some parentEntry⟩, ⟨parentEntry, none⟩, ⟨otherEntry, none⟩]
        ∧ (⟨childEntry, some parentEntry⟩ : LibSymbol String (Int × String)).drawItems
            = [(1, 1, "arc"), (1, 1, "pin")] := by
  have hrun : ∃ q : SCH_SEXPR_PARSER,
      ParseLib 20200310 (parseLibBody exampleSubParsers 10 4)
          (newParser forwardReferenceLibrary) []
        = Except.ok (q, [⟨childEntry, some parentEntry⟩, ⟨parentEntry, none⟩,
            ⟨otherEntry, none⟩]) := ⟨_, rfl⟩
  have hver : toInt32 (strtol "20200310" 10) ≤ 20200310 := by
    rw [toInt32_strtol_20200310]
  obtain ⟨p2, lib, h1, h2, h3, _, _, _⟩ :=
    ParseLib_forward_reference exampleSubParsers 20200310 10 4
      (newParser forwardReferenceLibrary) ⟨TokKind.number, "20200310"⟩
      ⟨TokKind.symbol, "eeschema"⟩
      [(childSymbolTokens, childEntry), (parentSymbolTokens, parentEntry),
        (otherSymbolTokens, otherEntry)] [] 0 1 childEntry parentEntry
      rfl rfl (Or.inl rfl) hver
      (by
        intro s hs q rest pos
        simp only [List.mem_cons, List.mem_singleton, List.not_mem_nil, or_false] at hs
        rcases hs with rfl | rfl | rfl
        · exact ⟨_, ParseSymbol_childSymbolTokens q rest pos, rfl⟩
        · exact ⟨_, ParseSymbol_parentSymbolTokens q rest pos, rfl⟩
        · exact ⟨_, ParseSymbol_otherSymbolTokens q rest pos, rfl⟩)
      (by decide)
      (by
        intro s hs name hname
        simp only [List.mem_cons, List.mem_singleton, List.not_mem_nil, or_false] at hs
        rcases hs with rfl | rfl | rfl
        · refine ⟨(parentSymbolTokens, parentEntry), by simp, ?_, rfl⟩
          have : some "Parent" = some name := hname
          injection this
        · cases hname
        · cases hname)
      rfl rfl rfl (by decide)
  obtain ⟨q, hq⟩ := hrun
  have hlib : lib = [⟨childEntry, some parentEntry⟩, ⟨parentEntry, none⟩,
      ⟨otherEntry, none⟩] := by
    rw [h1] at hq
    injection hq with hq
    injection hq
  exact ⟨p2, lib, h1, h2, h3, hlib, rfl⟩

/-! ## Schematic sub-parser -/

theorem parseSchematicItems_adds {Pin Other : Type} (env : SchematicSubParsers Pin Other)
    (fuel : Nat) :
    ∀ (p p2 : SCH_SEXPR_PARSER) (items items2 : List (SchematicItem Pin Other)),
      parseSchematicItems env fuel p items = Except.ok (p2, items2) →
      ∃ added : List (SchematicItem Pin Other), items2 = items ++ added
        ∧ ∀ it ∈ added,
            (∃ x : Other, it = SchematicItem.other x)
            ∨ (∃ (lx lx2 : Lexer) (d : SheetDecl Pin),
                env.parseSheetGroup lx = Except.ok (d, lx2)
                ∧ it = SchematicItem.sheet d.name d.fileName d.position d.size d.pins none) := by
  induction fuel with
  | zero =>
    intro p p2 items items2 h
    simp [parseSchematicItems] at h
  | succ fuel ih =>
    intro p p2 items items2 h
    simp only [parseSchematicItems] at h
    by_cases hr : (NextTok p.lexer).cur.kind = TokKind.right
    · simp only [hr, if_true] at h
      injection h with h
      injection h with _ h2
      exact ⟨[], by simp [h2], by simp⟩
    · simp only [hr, if_false] at h
      by_cases hl : (NextTok p.lexer).cur.kind = TokKind.left
      · simp only [hl, if_true] at h
        by_cases hs : (NextTok (NextTok p.lexer)).cur = ⟨TokKind.symbol, "sheet"⟩
        · simp only [hs, if_true] at h
          unfold parseSheet at h
          cases hg : env.parseSheetGroup (NextTok (NextTok p.lexer)) with
          | error e => simp [hg] at h
          | ok r =>
            obtain ⟨d, lx3⟩ := r
            simp only [hg] at h
            obtain ⟨added, ha, hall⟩ := ih _ _ _ _ h
            refine ⟨SchematicItem.sheet d.name d.fileName d.position d.size d.pins none :: added,
              by simp [ha], ?_⟩
            intro it hit
            rcases List.mem_cons.mp hit with rfl | hit
            · exact Or.inr ⟨_, _, d, hg, rfl⟩
            · exact hall it hit
        · simp only [hs, if_false] at h
          cases ho : env.parseOther (NextTok (NextTok p.lexer)) with
          | error e => simp [ho] at h
          | ok r =>
            obtain ⟨x, lx3⟩ := r
            simp only [ho] at h
            obtain ⟨added, ha, hall⟩ := ih _ _ _ _ h
            refine ⟨SchematicItem.other x :: added, by simp [ha], ?_⟩
            intro it hit
            rcases List.mem_cons.mp hit with rfl | hit
            · exact Or.inl ⟨x, rfl⟩
            · exact hall it hit
      · simp [hl] at h

theorem ParseSchematic_ok_inv {SCH_SHEET : Type} (maxVersion : Int)
    (parseItems : SCH_SEXPR_PARSER → SCH_SHEET →
      Except ParseError (SCH_SEXPR_PARSER × SCH_SHEET))
    (p p2 : SCH_SEXPR_PARSER) (aSheet aSheet2 : SCH_SHEET)
    (h : ParseSchematic maxVersion parseItems p aSheet = Except.ok (p2, aSheet2)) :
    aSheet2 = aSheet ∨ ∃ p1 : SCH_SEXPR_PARSER, parseItems p1 aSheet = Except.ok (p2, aSheet2) := by
  unfold ParseSchematic at h
  cases h1 : NeedLEFT p.lexer with
  | error e => simp [h1] at h
  | ok lx1 =>
    simp only [h1] at h
    cases h2 : parseHeader "kicad_sch" { p with lexer := NextTok lx1 } with
    | error e => simp [h2] at h
    | ok p1 =>
      simp only [h2] at h
      by_cases ht : IsTooRecent maxVersion p1 = true
      · simp only [ht, if_true] at h
        injection h with h
        injection h with _ h
        exact Or.inl h.symm
      · simp only [ht] at h
        exact Or.inr ⟨p1, h⟩

/-- C12: `ParseSchematic` populates only the given sheet. Whenever it returns,
the items of the target screen are those it held before followed by the items
added; every item added for a sub-sheet group records the name, file name,
geometry and pin list that the group declares and has no screen (no child
document is loaded); every other item added is not a sheet. So no sheet or
screen other than the target's own is populated. And every sub-sheet group the
item loop meets is recorded: the loop goes on with the declared sheet, without
a screen, added to the target. -/
theorem ParseSchematic_populates_only_target {Pin Other : Type}
    (env : SchematicSubParsers Pin Other) (maxVersion : Int) (fuel : Nat)
    (p p2 : SCH_SEXPR_PARSER) (items items2 : List (SchematicItem Pin Other))
    (h : ParseSchematic maxVersion (parseSchematicItems env fuel) p items
      = Except.ok (p2, items2)) :
    (∃ added : List (SchematicItem Pin Other), items2 = items ++ added
      ∧ (∀ it ∈ added, it.hasScreen = false)
      ∧ ∀ it ∈ added,
          (∃ x : Other, it = SchematicItem.other x)
          ∨ (∃ (lx lx2 : Lexer) (d : SheetDecl Pin),
              env.parseSheetGroup lx = Except.ok (d, lx2)
              ∧ it = SchematicItem.sheet d.name d.fileName d.position d.size d.pins none))
      ∧ ∀ (n : Nat) (q : SCH_SEXPR_PARSER) (its : List (SchematicItem Pin Other))
          (d : SheetDecl Pin) (lx3 : Lexer),
          (NextTok q.lexer).cur.kind = TokKind.left →
          (NextTok (NextTok q.lexer)).cur = ⟨TokKind.symbol, "sheet"⟩ →
          env.parseSheetGroup (NextTok (NextTok q.lexer)) = Except.ok (d, lx3) →
          parseSchematicItems env (n + 1) q its
            = parseSchematicItems env n { q with lexer := lx3 }
                (its ++ [SchematicItem.sheet d.name d.fileName d.position d.size d.pins
                  none]) := by
  constructor
  · rcases ParseSchematic_ok_inv maxVersion _ p p2 items items2 h with h0 | ⟨p1, h1⟩
    · exact ⟨[], by simp [h0], by simp, by simp⟩
    · obtain ⟨added, ha, hall⟩ := parseSchematicItems_adds env fuel p1 p2 items items2 h1
      refine ⟨added, ha, ?_, hall⟩
      intro it hit
      rcases hall it hit with ⟨x, rfl⟩ | ⟨_, _, d, _, rfl⟩ <;> rfl
  · intro n q its d lx3 hl hs hg
    have hnr : ¬ (NextTok q.lexer).cur.kind = TokKind.right := by
      rw [hl]
      decide
    simp only [parseSchematicItems, hnr, hl, hs, if_true, if_false, parseSheet, hg]
    simp

theorem ParseSchematic_schematicWithSubSheet :
    ParseSchematic 20200310 (parseSchematicItems exampleSchematicSubParsers 5)
        (newParser schematicWithSubSheet) []
      = Except.ok
          (⟨⟨⟨TokKind.right, ")"⟩, [], 21⟩, 20200310, 0, 0, 0, ""⟩,
            [SchematicItem.other "wire",
              SchematicItem.sheet "PSU" "psu.kicad_sch" ⟨0, 0⟩ ⟨0, 0⟩ ["VIN", "VOUT"] none]) := by
  rfl

theorem ParseSchematic_populates_only_target_witness :
    ParseSchematic 20200310 (parseSchematicItems exampleSchematicSubParsers 5)
        (newParser schematicWithSubSheet) []
      = Except.ok
          (⟨⟨⟨TokKind.right, ")"⟩, [], 21⟩, 20200310, 0, 0, 0, ""⟩,
            [SchematicItem.other "wire",
              SchematicItem.sheet "PSU" "psu.kicad_sch" ⟨0, 0⟩ ⟨0, 0⟩ ["VIN", "VOUT"] none])
      ∧ ∃ added : List (SchematicItem String String),
          [SchematicItem.other "wire",
            SchematicItem.sheet "PSU" "psu.kicad_sch" ⟨0, 0⟩ ⟨0, 0⟩ ["VIN", "VOUT"] none]
              = [] ++ added
          ∧ ∀ it ∈ added, it.hasScreen = false := by
  refine ⟨ParseSchematic_schematicWithSubSheet, ?_⟩
  obtain ⟨⟨added, h1, h2, _⟩, _⟩ := ParseSchematic_populates_only_target
    exampleSchematicSubParsers 20200310 5 (newParser schematicWithSubSheet) _ [] _
    ParseSchematic_schematicWithSubSheet
  exact ⟨added, h1, h2⟩

/-! ## Monotonicity of the unit conversion -/

theorem Clamp_mono (l u a b : ℚ) (hlu : l ≤ u) (h : a ≤ b) : Clamp l a u ≤ Clamp l b u := by
  unfold Clamp
  split_ifs <;> linarith

theorem truncToInt_mono (a b : ℚ) (h : a ≤ b) : truncToInt a ≤ truncToInt b := by
  unfold truncToInt
  split_ifs with ha hb hb
  · have : ⌊-b⌋ ≤ ⌊-a⌋ := Int.floor_mono (by linarith)
    omega
  · have h1 : ⌊-a⌋ ≥ 0 := Int.floor_nonneg.mpr (by linarith)
    have h2 : ⌊b⌋ ≥ 0 := Int.floor_nonneg.mpr (by linarith)
    omega
  · linarith
  · exact Int.floor_mono h

theorem KiROUND_mono (a b : ℚ) (ha : |a| ≤ int_limit) (hb : |b| ≤ int_limit) (h : a ≤ b) :
    KiROUND a ≤ KiROUND b := by
  unfold KiROUND
  rw [KiROUND_overflow_of_abs_le a ha, KiROUND_overflow_of_abs_le b hb]
  simp only [Bool.false_eq_true, if_false]
  apply truncToInt_mono
  split_ifs <;> linarith

/-- C21: the unit conversion is monotone. For a positive scale `IU_PER_MM` and
parsed values `v ≤ w`, `parseInternalUnits` returns on both and the result for
`v` is at most the result for `w`, whether or not either is clamped. -/
theorem parseInternalUnits_monotone (IU_PER_MM : ℚ) (hIU : 0 < IU_PER_MM) (lx1 lx2 : Lexer)
    (v w : ℚ) (hv : parseDouble lx1 = Except.ok v) (hw : parseDouble lx2 = Except.ok w)
    (hvw : v ≤ w) :
    ∃ a b : Int, parseInternalUnits IU_PER_MM lx1 = Except.ok a
      ∧ parseInternalUnits IU_PER_MM lx2 = Except.ok b ∧ a ≤ b := by
  refine ⟨_, _, parseInternalUnits_of_parseDouble IU_PER_MM lx1 v hv,
    parseInternalUnits_of_parseDouble IU_PER_MM lx2 w hw, ?_⟩
  have hp := int_limit_pos
  apply KiROUND_mono _ _ (Clamp_abs_le _) (Clamp_abs_le _)
  apply Clamp_mono _ _ _ _ (by linarith)
  exact mul_le_mul_of_nonneg_right hvw (le_of_lt hIU)

theorem parseInternalUnits_monotone_witness :
    ∃ a b : Int, parseInternalUnits 10000 (lexerAtNumber "2.54") = Except.ok a
      ∧ parseInternalUnits 10000 (lexerAtNumber "200000") = Except.ok b ∧ a ≤ b :=
  parseInternalUnits_monotone 10000 (by norm_num) (lexerAtNumber "2.54")
    (lexerAtNumber "200000") (127 / 50) 200000 parseDouble_lexerAtNumber_2p54
    parseDouble_lexerAtNumber_200000 (by norm_num)

/-! ## Working area of the view -/

/-- C22: for every page of width `W ≥ 0` and height `H ≥ 0` (internal units),
`ResizeSheetWorkingArea` sets the boundary of the view to the origin
`(-3W/4, -3H/4)` and the size `(3W, 3H)` and changes nothing else. The boundary
then contains the page rectangle `[0, W] × [0, H]`, with a margin of at least
`3W/4` on the left and on the right of it and of at least `3H/4` above and
below it. -/
theorem ResizeSheetWorkingArea_boundary (v : SCH_VIEW) (aScreen : SCH_SCREEN)
    (hW : 0 ≤ aScreen.GetPageSettings.GetWidthIU)
    (hH : 0 ≤ aScreen.GetPageSettings.GetHeightIU) :
    let W : ℚ := (aScreen.GetPageSettings.GetWidthIU : ℚ)
    let H : ℚ := (aScreen.GetPageSettings.GetHeightIU : ℚ)
    let b := (ResizeSheetWorkingArea v aScreen).m_boundary
    ResizeSheetWorkingArea v aScreen
        = { v with m_boundary := ⟨⟨-(3 * W / 4), -(3 * H / 4)⟩, ⟨3 * W, 3 * H⟩⟩ }
      ∧ b.m_Pos.x + 3 * W / 4 ≤ 0 ∧ W + 3 * W / 4 ≤ b.m_Pos.x + b.m_Size.x
      ∧ b.m_Pos.y + 3 * H / 4 ≤ 0 ∧ H + 3 * H / 4 ≤ b.m_Pos.y + b.m_Size.y := by
  intro W H b
  have hW1 : (0 : ℚ) ≤ W := by
    show (0 : ℚ) ≤ (aScreen.GetPageSettings.GetWidthIU : ℚ)
    exact_mod_cast hW
  have hH1 : (0 : ℚ) ≤ H := by
    show (0 : ℚ) ≤ (aScreen.GetPageSettings.GetHeightIU : ℚ)
    exact_mod_cast hH
  have heq : ResizeSheetWorkingArea v aScreen
      = { v with m_boundary := ⟨⟨-(3 * W / 4), -(3 * H / 4)⟩, ⟨3 * W, 3 * H⟩⟩ } := by
    simp only [ResizeSheetWorkingArea, BOX2D.SetOrigin, BOX2D.SetSize, W, H]
    congr 3 <;> ring
  have hb : b = ⟨⟨-(3 * W / 4), -(3 * H / 4)⟩, ⟨3 * W, 3 * H⟩⟩ := by
    simp only [b]
    rw [heq]
  refine ⟨heq, ?_⟩
  rw [hb]
  dsimp only
  refine ⟨?_, ?_, ?_, ?_⟩ <;> linarith

theorem ResizeSheetWorkingArea_boundary_witness :
    (ResizeSheetWorkingArea emptyView exampleScreen).m_boundary
      = ⟨⟨-(3 * ((11693 : Int) : ℚ) / 4), -(3 * ((8268 : Int) : ℚ) / 4)⟩,
         ⟨3 * ((11693 : Int) : ℚ), 3 * ((8268 : Int) : ℚ)⟩⟩ :=
  congrArg SCH_VIEW.m_boundary
    (ResizeSheetWorkingArea_boundary emptyView exampleScreen (by decide) (by decide)).1

/-! ## Sheet numbering -/

theorem toInt32_of_range (x : Int) (h1 : INT_MIN ≤ x) (h2 : x ≤ INT_MAX) : toInt32 x = x := by
  unfold INT_MIN at h1
  unfold INT_MAX at h2
  unfold toInt32
  omega

theorem countToCurrentSheet_eq (cur : List Nat) (l : List SCH_SHEET_PATH) (n : Int)
    (h1 : 1 ≤ n) (h2 : n + (l.length : Int) ≤ INT_MAX) :
    countToCurrentSheet cur l n
      = n + ((l.takeWhile (fun sheet => decide (sheet.Path ≠ cur))).length : Int) := by
  induction l generalizing n with
  | nil => simp [countToCurrentSheet]
  | cons a l ih =>
    have hlen : ((a :: l).length : Int) = (l.length : Int) + 1 := by simp
    rw [hlen] at h2
    by_cases hp : a.Path = cur
    · simp [countToCurrentSheet, hp]
    · have hw : toInt32 (n + 1) = n + 1 := by
        apply toInt32_of_range
        · unfold INT_MIN
          omega
        · have : (0 : Int) ≤ (l.length : Int) := Int.natCast_nonneg _
          omega
      have hstep : countToCurrentSheet cur (a :: l) n = countToCurrentSheet cur l (n + 1) := by
        simp [countToCurrentSheet, hp, hw]
      rw [hstep, ih (n + 1) (by omega) (by omega)]
      simp [List.takeWhile_cons, hp]
      ring

theorem setNumberOfScreens_apply (c : Int) (l : List Nat) (m : Nat → SCH_SCREEN) (a : Nat) :
    setNumberOfScreens c l m a
      = if a ∈ l then { m a with m_NumberOfScreens := c } else m a := by
  induction l generalizing m with
  | nil => simp [setNumberOfScreens]
  | cons x l ih =>
    have hstep : setNumberOfScreens c (x :: l) m
        = setNumberOfScreens c l (Function.update m x { m x with m_NumberOfScreens := c }) := by
      simp [setNumberOfScreens]
    rw [hstep, ih]
    by_cases hax : a = x
    · subst hax
      by_cases hal : a ∈ l <;> simp [hal]
    · by_cases hal : a ∈ l <;> simp [hal, hax, Function.update_noteq hax]

/-- C23: `SetSheetNumberAndCount` sets the page number of the current sheet
path and the number of the current screen to 1 plus the number of sheet paths
that precede the first path equal to the current one in the sheet list, and it
sets the sheet count of every screen of the hierarchy to the total number of
sheets. The number is 1 when the list starts with the current path (the root
sheet) and the length of the list plus 1 when the current path is not in the
list. The current sheet has a screen, and the list is shorter than `INT_MAX`. -/
theorem SetSheetNumberAndCount_sets (s : SCHEMATIC) (screen : Nat)
    (hscreen : s.CurrentSheet.LastScreen = some screen)
    (hlen : (s.GetSheets.length : Int) < INT_MAX) :
    ∃ s2 : SCHEMATIC, SetSheetNumberAndCount s = some s2
      ∧ s2.CurrentSheet.m_pageNumber = 1 + (sheetsBeforeCurrent s : Int)
      ∧ s2.CurrentSheet.m_sheets = s.CurrentSheet.m_sheets
      ∧ (s2.screens screen).m_ScreenNumber = 1 + (sheetsBeforeCurrent s : Int)
      ∧ (∀ a ∈ s.s_list, (s2.screens a).m_NumberOfScreens = s.CountSheets)
      ∧ ((∃ p rest, s.GetSheets = p :: rest ∧ p.Path = s.CurrentSheet.Path) →
          sheetsBeforeCurrent s = 0)
      ∧ ((∀ p ∈ s.GetSheets, p.Path ≠ s.CurrentSheet.Path) →
          sheetsBeforeCurrent s = s.GetSheets.length) := by
  have hnum := countToCurrentSheet_eq s.CurrentSheet.Path s.GetSheets 1 (le_refl _)
    (by unfold INT_MAX at hlen ⊢; omega)
  have hlast : (s.CurrentSheet.SetPageNumber
      (countToCurrentSheet s.CurrentSheet.Path s.GetSheets 1)).LastScreen = some screen := by
    simpa [SCH_SHEET_PATH.LastScreen, SCH_SHEET_PATH.SetPageNumber] using hscreen
  have heq : SetSheetNumberAndCount s
      = some
          { CurrentSheet := s.CurrentSheet.SetPageNumber
              (countToCurrentSheet s.CurrentSheet.Path s.GetSheets 1),
            GetSheets := s.GetSheets, CountSheets := s.CountSheets, s_list := s.s_list,
            screens :=
              Function.update (setNumberOfScreens s.CountSheets s.s_list s.screens) screen
                { setNumberOfScreens s.CountSheets s.s_list s.screens screen with
                  m_ScreenNumber := countToCurrentSheet s.CurrentSheet.Path s.GetSheets 1 } } := by
    simp only [SetSheetNumberAndCount, hlast]
  refine ⟨_, heq, ?_, ?_, ?_, ?_, ?_, ?_⟩
  · simpa [SCH_SHEET_PATH.SetPageNumber, sheetsBeforeCurrent] using hnum
  · rfl
  · simpa [sheetsBeforeCurrent] using hnum
  · intro a ha
    by_cases has : a = screen
    · subst has
      simp [setNumberOfScreens_apply, ha]
    · simp [Function.update_noteq has, setNumberOfScreens_apply, ha]
  · rintro ⟨p, rest, hl, hp⟩
    simp [sheetsBeforeCurrent, hl, hp]
  · intro hall
    unfold sheetsBeforeCurrent
    congr 1
    rw [List.takeWhile_eq_self_iff]
    intro p hp
    simpa using hall p hp

theorem SetSheetNumberAndCount_sets_witness :
    ∃ s2 : SCHEMATIC, SetSheetNumberAndCount exampleSchematic = some s2
      ∧ s2.CurrentSheet.m_pageNumber = 2
      ∧ (s2.screens 101).m_ScreenNumber = 2
      ∧ ∀ a ∈ [100, 101, 102], (s2.screens a).m_NumberOfScreens = 3 := by
  obtain ⟨s2, h1, h2, _, h3, h4, _⟩ :=
    SetSheetNumberAndCount_sets exampleSchematic 101 (by decide) (by decide)
  exact ⟨s2, h1, h2, h3, h4⟩

/-! ## File name of the current sheet -/

theorem foldl_sheet_names (l : List SCH_SHEET) (filename : String) :
    l.foldl (fun filename sheet => filename ++ ("-" ++ sheet.GetName)) filename
      = filename ++ sheetNameSuffix (l.map SCH_SHEET.GetName) := by
  induction l generalizing filename with
  | nil => simp [sheetNameSuffix]
  | cons a l ih =>
    simp only [List.foldl_cons, List.map_cons, sheetNameSuffix]
    rw [ih]
    simp only [String.append_assoc]

theorem count_sheetNameSuffix (names : List String) :
    (sheetNameSuffix names).toList.count '-'
      = (names.map (fun name => name.toList.count '-')).sum + names.length := by
  induction names with
  | nil => simp [sheetNameSuffix]
  | cons a l ih =>
    simp only [sheetNameSuffix, String.toList, String.data_append, List.count_append,
      List.map_cons, List.sum_cons, List.length_cons] at ih ⊢
    rw [ih]
    have h1 : List.count '-' "-".data = 1 := by decide
    rw [h1]
    ring

/-- C24: for every current sheet path of `n ≥ 1` sheets,
`GetUniqueFilenameForCurrentSheet` returns the name part of the file of the
first (root) sheet followed, for each further sheet of the path in order, by
"-" and the name of that sheet; a path holding only the root gives the name
part alone. Exactly `n - 1` separators are inserted: the result holds `n - 1`
more "-" characters than the name part and the sheet names do together. -/
theorem GetUniqueFilenameForCurrentSheet_name (wxFileName_GetName : String → String)
    (s : SCHEMATIC) (root : SCH_SHEET) (rest : List SCH_SHEET)
    (h : s.CurrentSheet.m_sheets = root :: rest) :
    ∃ filename : String,
      GetUniqueFilenameForCurrentSheet wxFileName_GetName s = some filename
      ∧ filename = wxFileName_GetName root.GetFileName
          ++ sheetNameSuffix (rest.map SCH_SHEET.GetName)
      ∧ (rest = [] → filename = wxFileName_GetName root.GetFileName)
      ∧ filename.toList.count '-'
          = (wxFileName_GetName root.GetFileName).toList.count '-'
            + (rest.map (fun sheet => sheet.GetName.toList.count '-')).sum
            + (s.CurrentSheet.m_sheets.length - 1) := by
  have heq : GetUniqueFilenameForCurrentSheet wxFileName_GetName s
      = some (wxFileName_GetName root.GetFileName
          ++ sheetNameSuffix (rest.map SCH_SHEET.GetName)) := by
    simp only [GetUniqueFilenameForCurrentSheet, h, List.drop_succ_cons, List.drop_zero,
      foldl_sheet_names]
  refine ⟨_, heq, rfl, ?_, ?_⟩
  · intro hr
    subst hr
    simp [sheetNameSuffix]
  · have hc := count_sheetNameSuffix (rest.map SCH_SHEET.GetName)
    simp only [String.toList, String.data_append, List.count_append, List.map_map,
      List.length_map] at hc ⊢
    rw [hc, h]
    simp [Function.comp_def, String.toList]
    ring

theorem GetUniqueFilenameForCurrentSheet_name_witness :
    GetUniqueFilenameForCurrentSheet exampleGetName exampleSchematic
      = some "amplifier-power" := by
  obtain ⟨filename, h1, h2, _⟩ := GetUniqueFilenameForCurrentSheet_name exampleGetName
    exampleSchematic exampleRootSheet [examplePowerSheet] rfl
  rw [h1, h2]
  decide

/-! ## Showing a symbol that is not an alias -/

theorem DisplayComponent_drawn_root_eq (v : SCH_VIEW) (items : List LIB_ITEM) :
    DisplayComponent_drawn v false items
      = { v with m_allItems := v.m_allItems ++ items.map (fun i => VIEW_ITEM.item i.addr) } := by
  induction items generalizing v with
  | nil => simp [DisplayComponent_drawn]
  | cons a l ih =>
    have hstep : DisplayComponent_drawn v false (a :: l)
        = DisplayComponent_drawn (v.Add (VIEW_ITEM.item a.addr)) false l := by
      simp [DisplayComponent_drawn, List.foldl_cons]
    rw [hstep, ih]
    simp [SCH_VIEW.Add]

/-- C25 (the code at fault): for a symbol that is not an alias `DisplayComponent`
clears the view, adds the fields with a non-empty text, then adds every draw
item of the symbol, fields included, then the selection area and the preview
group. A field with a non-empty text is therefore added at least twice, where
each draw item should be added exactly once; for a null symbol the view is only
cleared. -/
theorem DisplayComponent_root_items (v : SCH_VIEW) (part : LIB_PART)
    (hroot : part.IsAlias = false) :
    (DisplayComponent v (some part)).m_allItems
        = (shownFields part.GetDrawItems).map (fun i => VIEW_ITEM.item i.addr)
          ++ part.GetDrawItems.map (fun i => VIEW_ITEM.item i.addr)
          ++ [VIEW_ITEM.selectionArea, VIEW_ITEM.preview]
      ∧ (∀ i ∈ part.GetDrawItems, i.type = KICAD_T.LIB_FIELD_T → i.text.isEmpty = false →
          2 ≤ List.count (VIEW_ITEM.item i.addr) (DisplayComponent v (some part)).m_allItems)
      ∧ (DisplayComponent v none).m_allItems = [] := by
  have heq : (DisplayComponent v (some part)).m_allItems
      = (shownFields part.GetDrawItems).map (fun i => VIEW_ITEM.item i.addr)
        ++ part.GetDrawItems.map (fun i => VIEW_ITEM.item i.addr)
        ++ [VIEW_ITEM.selectionArea, VIEW_ITEM.preview] := by
    simp [DisplayComponent, hroot, DisplayComponent_fields_eq, DisplayComponent_drawn_root_eq,
      SCH_VIEW.resetPreview, SCH_VIEW.Add, SCH_VIEW.Clear]
  refine ⟨heq, ?_, rfl⟩
  intro i hi ht he
  rw [heq, List.count_append, List.count_append]
  have h1 : 0 < List.count (VIEW_ITEM.item i.addr)
      ((shownFields part.GetDrawItems).map (fun i => VIEW_ITEM.item i.addr)) := by
    rw [List.count_pos_iff]
    apply List.mem_map_of_mem
    simp [shownFields, hi, ht, he]
  have h2 : 0 < List.count (VIEW_ITEM.item i.addr)
      (part.GetDrawItems.map (fun i => VIEW_ITEM.item i.addr)) := by
    rw [List.count_pos_iff]
    exact List.mem_map_of_mem _ hi
  omega

theorem DisplayComponent_root_items_witness :
    exampleParent.IsAlias = false
      ∧ (DisplayComponent emptyView (some exampleParent)).m_allItems
          = [VIEW_ITEM.item 10, VIEW_ITEM.item 10, VIEW_ITEM.item 11, VIEW_ITEM.item 12,
              VIEW_ITEM.selectionArea, VIEW_ITEM.preview]
      ∧ List.count (VIEW_ITEM.item 10)
          (DisplayComponent emptyView (some exampleParent)).m_allItems = 2 :=
  ⟨rfl, (DisplayComponent_root_items emptyView exampleParent rfl).1.trans (by decide),
    by decide⟩

/-! ## Preview group and owned items -/

theorem foldl_Add_eq (items : List Nat) (v : SCH_VIEW) :
    items.foldl (fun acc item => acc.Add (VIEW_ITEM.item item)) v
      = { v with m_allItems := v.m_allItems ++ items.map VIEW_ITEM.item } := by
  induction items generalizing v with
  | nil => simp
  | cons a l ih =>
    rw [List.foldl_cons, ih]
    simp [SCH_VIEW.Add]

theorem DisplaySheet_preview (v : SCH_VIEW) (aScreen : SCH_SCREEN) :
    (DisplaySheet v aScreen).m_preview = []
      ∧ (DisplaySheet v aScreen).m_ownedItems = v.m_ownedItems := by
  simp only [DisplaySheet, foldl_Add_eq]
  simp [ResizeSheetWorkingArea, SCH_VIEW.Add]

theorem DisplayComponent_drawn_preview (v : SCH_VIEW) (b : Bool) (items : List LIB_ITEM) :
    (DisplayComponent_drawn v b items).m_preview = v.m_preview
      ∧ (DisplayComponent_drawn v b items).m_ownedItems = v.m_ownedItems := by
  cases b
  · rw [DisplayComponent_drawn_root_eq]
    exact ⟨rfl, rfl⟩
  · rw [DisplayComponent_drawn_alias_eq]
    exact ⟨rfl, rfl⟩

theorem DisplayComponent_preview (v : SCH_VIEW) (aPart : Option LIB_PART) :
    (DisplayComponent v aPart).m_ownedItems = v.m_ownedItems
      ∧ ((DisplayComponent v aPart).m_preview = []
          ∨ (DisplayComponent v aPart).m_preview = v.m_preview) := by
  cases aPart with
  | none => exact ⟨rfl, Or.inr rfl⟩
  | some part =>
    unfold DisplayComponent
    simp only []
    cases halias : part.IsAlias
    · simp only [Bool.false_eq_true, if_false]
      constructor
      · simp [SCH_VIEW.resetPreview, SCH_VIEW.Add, DisplayComponent_drawn_preview,
          DisplayComponent_fields_eq, SCH_VIEW.Clear]
      · left
        simp [SCH_VIEW.resetPreview, SCH_VIEW.Add]
    · simp only [if_true]
      cases hparent : part.lockParent with
      | none =>
        simp only []
        rw [DisplayComponent_fields_eq]
        exact ⟨rfl, Or.inr rfl⟩
      | some parent =>
        simp only []
        constructor
        · simp [SCH_VIEW.resetPreview, SCH_VIEW.Add, DisplayComponent_drawn_preview,
            DisplayComponent_fields_eq, SCH_VIEW.Clear]
        · left
          simp [SCH_VIEW.resetPreview, SCH_VIEW.Add]

/-- C26 (as amended): `AddToPreview` and `ClearPreview` keep every owned item a
member of the preview group. A new view owns nothing; after
`ClearPreview` the preview group and the owned-item list are both empty; adding
an item without taking ownership leaves the owned-item list as it was.
`DisplaySheet` and `DisplayComponent` do not touch the owned-item list and
leave the preview group empty (`DisplayComponent` leaves it as it was when it
returns early), so after `DisplaySheet` the owned items lie in the preview
group exactly when nothing was owned. -/
theorem preview_owned_items (v : SCH_VIEW) (h : OwnedInPreview v) :
    (∀ (aItem : Nat) (aTakeOwnership : Bool),
        OwnedInPreview (AddToPreview v aItem aTakeOwnership))
      ∧ OwnedInPreview (ClearPreview v)
      ∧ (ClearPreview v).m_preview = [] ∧ (ClearPreview v).m_ownedItems = []
      ∧ (∀ aItem : Nat, (AddToPreview v aItem false).m_ownedItems = v.m_ownedItems)
      ∧ (∀ n : Int, OwnedInPreview (SCH_VIEW.construct n))
      ∧ (∀ aScreen : SCH_SCREEN, (DisplaySheet v aScreen).m_preview = []
          ∧ (DisplaySheet v aScreen).m_ownedItems = v.m_ownedItems)
      ∧ (∀ aPart : Option LIB_PART, (DisplayComponent v aPart).m_ownedItems = v.m_ownedItems
          ∧ ((DisplayComponent v aPart).m_preview = []
              ∨ (DisplayComponent v aPart).m_preview = v.m_preview))
      ∧ (∀ aScreen : SCH_SCREEN,
          OwnedInPreview (DisplaySheet v aScreen) ↔ v.m_ownedItems = []) := by
  refine ⟨?_, ?_, rfl, rfl, ?_, ?_, DisplaySheet_preview v, DisplayComponent_preview v, ?_⟩
  · intro aItem aTakeOwnership a ha
    cases aTakeOwnership
    · simp only [AddToPreview, Bool.false_eq_true, if_false] at ha ⊢
      exact List.mem_append_left _ (h a ha)
    · simp only [AddToPreview, if_true, List.mem_append, List.mem_singleton] at ha ⊢
      rcases ha with ha | ha
      · exact Or.inl (h a ha)
      · exact Or.inr ha
  · intro a ha
    simp [ClearPreview] at ha
  · intro aItem
    simp [AddToPreview]
  · intro n a ha
    simp [SCH_VIEW.construct] at ha
  · intro aScreen
    obtain ⟨h1, h2⟩ := DisplaySheet_preview v aScreen
    unfold OwnedInPreview
    rw [h1, h2]
    constructor
    · intro hall
      apply List.eq_nil_iff_forall_not_mem.mpr
      intro a ha
      simpa using hall a ha
    · intro he a ha
      rw [he] at ha
      cases ha

theorem preview_owned_items_witness :
    OwnedInPreview (AddToPreview exampleView 7 true)
      ∧ OwnedInPreview (AddToPreview (AddToPreview exampleView 7 true) 8 false)
      ∧ (ClearPreview (AddToPreview exampleView 7 true)).m_ownedItems = [] :=
  ⟨by decide,
    (preview_owned_items (AddToPreview exampleView 7 true) (by decide)).1 8 false,
    (preview_owned_items (AddToPreview exampleView 7 true) (by decide)).2.2.2.1⟩

/-- C26 (as stated) fails: a new view that owns the previewed item 7 has every
owned item in its preview group, yet after `DisplaySheet`, and after
`DisplayComponent`, item 7 is still owned and the preview group is empty. -/
theorem DisplaySheet_owned_not_in_preview :
    OwnedInPreview (AddToPreview exampleView 7 true)
      ∧ ¬ OwnedInPreview (DisplaySheet (AddToPreview exampleView 7 true) exampleScreen)
      ∧ ¬ OwnedInPreview
            (DisplayComponent (AddToPreview exampleView 7 true) (some exampleParent)) := by
  decide

end KiCad
